import Mathlib

/-!
Channel registry of `src/chat.cpp`

A shallow embedding of the chat-channel subsystem: `ChatChannel`,
`PrivateChatChannel` and the registry `Chat`.

Modelling conventions.

* A `std::map` is an association list in ascending key order
  (`mapFind`, `mapInsert`, `mapErase`, `mapModify`).  The functions are total on every
  list; where a statement depends on the key order it says so.
* A `Player*` stored in a map is the `Player` record it points to; the player is
  identified by `id` (`getID`, the key of `users`) and by `guid` (`getGUID`, the key of
  `m_invites` and the value of `m_owner`).
* A `ChatChannel*` returned by the registry is a `ChannelPtr`: the partition and key
  under which the channel lives, together with the channel it points to.  A mutation
  through the pointer is written back in place with `mapModify`.
* What a call delivers to sessions (and hands to the scheduler) is returned as a list of
  `Output`s, in the order of the calls.  Console diagnostics are not recorded.
* Script hooks are evaluated by an external interpreter: `LuaScriptInterface` is taken as
  a parameter.
* Enumerators that are declared outside `chat.cpp` are the fields of `Consts`.
* `Chat.removeUserFromAllChannels` continues with the next key after its `deleteChannel`;
  `Chat.removeUserFromAllChannelsChecked` is the same call with the iterator of its last
  loop tracked, and is `none` where the source advances an iterator whose element was erased.
-/

namespace Relembra

/-! ## Ordered maps -/

/-- Lookup `m.find(k)`: the value stored under key `k`, if any. -/
def mapFind {α : Type} : List (Nat × α) → Nat → Option α
  | [], _ => none
  | (k', v) :: t, k => if k' = k then some v else mapFind t k

/-- Assignment `m[k] = v`: replaces the value under `k`, or inserts the entry at its place
in the key order. -/
def mapInsert {α : Type} : List (Nat × α) → Nat → α → List (Nat × α)
  | [], k, v => [(k, v)]
  | (k', v') :: t, k, v =>
    if k < k' then (k, v) :: (k', v') :: t
    else if k = k' then (k, v) :: t
    else (k', v') :: mapInsert t k v

/-- Removal `m.erase(m.find(k))`: keys of a `std::map` are unique, so this removes every
entry stored under `k`. -/
def mapErase {α : Type} (m : List (Nat × α)) (k : Nat) : List (Nat × α) :=
  m.filter (fun it => it.1 != k)

/-- In-place mutation of the value stored under `k` (a write through a pointer to it). -/
def mapModify {α : Type} (m : List (Nat × α)) (k : Nat) (f : α → α) : List (Nat × α) :=
  m.map (fun it => if it.1 = k then (it.1, f it.2) else it)

/-- The keys of a map, in iteration order. -/
def mapKeys {α : Type} (m : List (Nat × α)) : List Nat :=
  m.map Prod.fst

/-- The representation invariant of `std::map`: keys strictly ascending. -/
def MapSorted {α : Type} (m : List (Nat × α)) : Prop :=
  (mapKeys m).Pairwise (fun a b => a < b)

/-! ## Boundary types -/

/-- Enumerators used by `chat.cpp` and declared in headers that are not part of the
sources (`const.h`, `enums.h`): the reserved channel ids, the two speak classes, the
message class of info texts and the sex value tested by `invitePlayer`. -/
structure Consts where
  CHANNEL_GUILD : Nat
  CHANNEL_PARTY : Nat
  CHANNEL_PRIVATE : Nat
  SPEAK_CHANNEL_Y : Nat
  SPEAK_CHANNEL_O : Nat
  MSG_INFO_DESCR : Nat
  PLAYERSEX_FEMALE : Nat
deriving DecidableEq, Repr

/-- The case labels of one `switch` are pairwise distinct. -/
def Consts.Distinct (k : Consts) : Prop :=
  k.CHANNEL_GUILD ≠ k.CHANNEL_PARTY ∧ k.CHANNEL_GUILD ≠ k.CHANNEL_PRIVATE ∧
    k.CHANNEL_PARTY ≠ k.CHANNEL_PRIVATE

instance (k : Consts) : Decidable k.Distinct := by
  unfold Consts.Distinct; infer_instance

/-- Modelled from the spec: the part of `Guild` (guild.h is missing) that the channel code
reads: identity, display name and message of the day. -/
structure Guild where
  id : Nat
  name : String
  motd : String
deriving DecidableEq, Repr

/-- Modelled from the spec: the session boundary contract (player.h is missing):
`getID`, `getGUID`, `getName`, `getSex`, `isPremium`, `getGuild`, `getParty` and
`getGuildLevel`.  A party is identified by a number standing for the `Party*`. -/
structure Player where
  id : Nat
  guid : Nat
  name : String
  sex : Nat
  premium : Bool
  guild : Option Guild
  party : Option Nat
  guildLevel : Nat
deriving DecidableEq, Repr

/-- Modelled from the spec: the kinds of channel event (`CHANNELEVENT_*`, declared outside
`chat.cpp`). -/
inductive ChannelEvent where
  | CHANNELEVENT_JOIN
  | CHANNELEVENT_LEAVE
  | CHANNELEVENT_INVITE
  | CHANNELEVENT_EXCLUDE
deriving DecidableEq, Repr

/-- One call made on a session (the first argument is the receiving player) or on the
scheduler. -/
inductive Output where
  | sendChannelEvent (recipient : Player) (channelId : Nat) (playerName : String)
      (ev : ChannelEvent)
  | sendClosePrivate (recipient : Player) (channelId : Nat)
  | sendTextMessage (recipient : Player) (mclass : Nat) (text : String)
  | sendChannelMessage (recipient : Player) (author : String) (text : String) (type : Nat)
      (channelId : Nat)
  | sendToChannel (recipient : Player) (sender : Player) (type : Nat) (text : String)
      (channelId : Nat)
  | sendGuildMotd (delay : Nat) (playerId : Nat) (guildId : Nat)
deriving DecidableEq, Repr

/-- What the protected call of an `onSpeak` hook leaves behind: a runtime error, a boolean,
a number, or anything else. -/
inductive LuaResult where
  | error
  | boolean (b : Bool)
  | number (n : Nat)
  | other
deriving DecidableEq, Repr

/-- The hook evaluator boundary: whether a script environment can be reserved, the result
of `callFunction` for an event and a creature id, and the result of the protected call of
an `onSpeak` event. -/
structure LuaScriptInterface where
  reserveScriptEnv : Bool
  callFunction : Int → Nat → Bool
  protectedCall : Int → Nat → Nat → String → LuaResult

/-! ## ChatChannel -/

/-- The class `ChatChannel`. -/
structure ChatChannel where
  users : List (Nat × Player)
  name : String
  canJoinEvent : Int
  onJoinEvent : Int
  onLeaveEvent : Int
  onSpeakEvent : Int
  id : Nat
  publicChannel : Bool
deriving DecidableEq, Repr

/-- The constructor `ChatChannel::ChatChannel(channelId, channelName)`. -/
def ChatChannel.new (channelId : Nat) (channelName : String) : ChatChannel where
  users := []
  name := channelName
  canJoinEvent := -1
  onJoinEvent := -1
  onLeaveEvent := -1
  onSpeakEvent := -1
  id := channelId
  publicChannel := false

/-- The hook `ChatChannel::executeCanJoinEvent`. -/
def ChatChannel.executeCanJoinEvent (lua : LuaScriptInterface) (c : ChatChannel)
    (player : Player) : Bool :=
  if c.canJoinEvent = -1 then true
  else if !lua.reserveScriptEnv then false
  else lua.callFunction c.canJoinEvent player.id

/-- The hook `ChatChannel::executeOnJoinEvent`. -/
def ChatChannel.executeOnJoinEvent (lua : LuaScriptInterface) (c : ChatChannel)
    (player : Player) : Bool :=
  if c.onJoinEvent = -1 then true
  else if !lua.reserveScriptEnv then false
  else lua.callFunction c.onJoinEvent player.id

/-- The hook `ChatChannel::executeOnLeaveEvent`. -/
def ChatChannel.executeOnLeaveEvent (lua : LuaScriptInterface) (c : ChatChannel)
    (player : Player) : Bool :=
  if c.onLeaveEvent = -1 then true
  else if !lua.reserveScriptEnv then false
  else lua.callFunction c.onLeaveEvent player.id

/-- The hook `ChatChannel::executeOnSpeakEvent`: the result and the value of the
in-out parameter `type` afterwards. -/
def ChatChannel.executeOnSpeakEvent (lua : LuaScriptInterface) (c : ChatChannel)
    (player : Player) (type : Nat) (message : String) : Bool × Nat :=
  if c.onSpeakEvent = -1 then (true, type)
  else if !lua.reserveScriptEnv then (false, type)
  else
    match lua.protectedCall c.onSpeakEvent player.id type message with
    | LuaResult.error => (false, type)
    | LuaResult.boolean b => (b, type)
    | LuaResult.number n => (true, n)
    | LuaResult.other => (false, type)

/-- The method `ChatChannel::addUser`: result, channel afterwards, deliveries. -/
def ChatChannel.addUser (k : Consts) (lua : LuaScriptInterface) (c : ChatChannel)
    (player : Player) : Bool × ChatChannel × List Output :=
  if (mapFind c.users player.id).isSome then (false, c, [])
  else if !c.executeOnJoinEvent lua player then (false, c, [])
  else
    let motd : List Output :=
      if c.id = k.CHANNEL_GUILD then
        match player.guild with
        | some guild =>
          if guild.motd ≠ "" then [Output.sendGuildMotd 150 player.id guild.id] else []
        | none => []
      else []
    let joins : List Output :=
      if !c.publicChannel then
        c.users.map (fun it =>
          Output.sendChannelEvent it.2 c.id player.name ChannelEvent.CHANNELEVENT_JOIN)
      else []
    (true, { c with users := mapInsert c.users player.id player }, motd ++ joins)

/-- The method `ChatChannel::removeUser`: result, channel afterwards, deliveries. -/
def ChatChannel.removeUser (lua : LuaScriptInterface) (c : ChatChannel) (player : Player) :
    Bool × ChatChannel × List Output :=
  if (mapFind c.users player.id).isNone then (false, c, [])
  else
    let users1 := mapErase c.users player.id
    let leaves : List Output :=
      if !c.publicChannel then
        users1.map (fun it =>
          Output.sendChannelEvent it.2 c.id player.name ChannelEvent.CHANNELEVENT_LEAVE)
      else []
    let _ignored := c.executeOnLeaveEvent lua player
    (true, { c with users := users1 }, leaves)

/-- The method `ChatChannel::sendToAll`. -/
def ChatChannel.sendToAll (c : ChatChannel) (message : String) (type : Nat) : List Output :=
  c.users.map (fun it => Output.sendChannelMessage it.2 "" message type c.id)

/-- The method `ChatChannel::talk`: result and deliveries (the channel is not changed). -/
def ChatChannel.talk (c : ChatChannel) (fromPlayer : Player) (type : Nat) (text : String) :
    Bool × List Output :=
  if (mapFind c.users fromPlayer.id).isNone then (false, [])
  else (true, c.users.map (fun it => Output.sendToChannel it.2 fromPlayer type text c.id))

/-! ## PrivateChatChannel -/

/-- The class `PrivateChatChannel`. -/
structure PrivateChatChannel extends ChatChannel where
  m_invites : List (Nat × Player)
  m_owner : Nat
deriving DecidableEq, Repr

/-- The constructor `PrivateChatChannel::PrivateChatChannel(channelId, channelName)`. -/
def PrivateChatChannel.new (channelId : Nat) (channelName : String) : PrivateChatChannel where
  toChatChannel := ChatChannel.new channelId channelName
  m_invites := []
  m_owner := 0

/-- Modelled from the spec: `PrivateChatChannel::setOwner` (chat.h is missing) records the
identity of the owning session. -/
def PrivateChatChannel.setOwner (c : PrivateChatChannel) (owner : Nat) : PrivateChatChannel :=
  { c with m_owner := owner }

/-- Modelled from the spec: `PrivateChatChannel::getOwner` (chat.h is missing) returns the
recorded owner. -/
def PrivateChatChannel.getOwner (c : PrivateChatChannel) : Nat :=
  c.m_owner

/-- The method `PrivateChatChannel::isInvited`. -/
def PrivateChatChannel.isInvited (c : PrivateChatChannel) (player : Player) : Bool :=
  if player.guid = c.getOwner then true
  else (mapFind c.m_invites player.guid).isSome

/-- The method `PrivateChatChannel::addInvited`. -/
def PrivateChatChannel.addInvited (c : PrivateChatChannel) (player : Player) :
    Bool × PrivateChatChannel :=
  if (mapFind c.m_invites player.guid).isSome then (false, c)
  else (true, { c with m_invites := mapInsert c.m_invites player.guid player })

/-- The method `PrivateChatChannel::removeInvited`. -/
def PrivateChatChannel.removeInvited (c : PrivateChatChannel) (player : Player) :
    Bool × PrivateChatChannel :=
  if (mapFind c.m_invites player.guid).isNone then (false, c)
  else (true, { c with m_invites := mapErase c.m_invites player.guid })

/-- The method `PrivateChatChannel::invitePlayer`. -/
def PrivateChatChannel.invitePlayer (k : Consts) (c : PrivateChatChannel) (player : Player)
    (invitePlayer : Player) : PrivateChatChannel × List Output :=
  match c.addInvited invitePlayer with
  | (true, c1) =>
    (c1,
      [Output.sendTextMessage invitePlayer k.MSG_INFO_DESCR
          (player.name ++ " invites you to " ++
            (if player.sex = k.PLAYERSEX_FEMALE then "her" else "his") ++
            " private chat channel."),
        Output.sendTextMessage player k.MSG_INFO_DESCR
          (invitePlayer.name ++ " has been invited.")] ++
      c1.users.map (fun it =>
        Output.sendChannelEvent it.2 c1.id invitePlayer.name ChannelEvent.CHANNELEVENT_INVITE))
  | (false, c1) => (c1, [])

/-- The method `PrivateChatChannel::excludePlayer`. -/
def PrivateChatChannel.excludePlayer (k : Consts) (lua : LuaScriptInterface)
    (c : PrivateChatChannel) (player : Player) (excludePlayer : Player) :
    PrivateChatChannel × List Output :=
  match c.removeInvited excludePlayer with
  | (true, c1) =>
    let r := c1.toChatChannel.removeUser lua excludePlayer
    let c2 : PrivateChatChannel := { c1 with toChatChannel := r.2.1 }
    (c2,
      r.2.2 ++
      [Output.sendTextMessage player k.MSG_INFO_DESCR
          (excludePlayer.name ++ " has been excluded."),
        Output.sendClosePrivate excludePlayer c2.id] ++
      c2.users.map (fun it =>
        Output.sendChannelEvent it.2 c2.id excludePlayer.name
          ChannelEvent.CHANNELEVENT_EXCLUDE))
  | (false, c1) => (c1, [])

/-- The method `PrivateChatChannel::closeChannel`. -/
def PrivateChatChannel.closeChannel (c : PrivateChatChannel) : List Output :=
  c.users.map (fun it => Output.sendClosePrivate it.2 c.id)

/-! ## Chat: the registry -/

/-- The class `Chat`: the four partitions and the shared placeholder channel. -/
structure Chat where
  normalChannels : List (Nat × ChatChannel)
  guildChannels : List (Nat × ChatChannel)
  partyChannels : List (Nat × ChatChannel)
  privateChannels : List (Nat × PrivateChatChannel)
  dummyPrivate : PrivateChatChannel
deriving DecidableEq, Repr

/-- A `ChatChannel*` handed out by the registry: where the channel lives and the channel
it points to. -/
inductive ChannelPtr where
  | normal (channelId : Nat) (channel : ChatChannel)
  | guild (guildId : Nat) (channel : ChatChannel)
  | party (party : Nat) (channel : ChatChannel)
  | priv (channelId : Nat) (channel : PrivateChatChannel)
  | dummy (channel : PrivateChatChannel)
deriving DecidableEq, Repr

/-- The `ChatChannel` part of the channel a pointer refers to. -/
def ChannelPtr.base : ChannelPtr → ChatChannel
  | ChannelPtr.normal _ c => c
  | ChannelPtr.guild _ c => c
  | ChannelPtr.party _ c => c
  | ChannelPtr.priv _ c => c.toChatChannel
  | ChannelPtr.dummy c => c.toChatChannel

/-- The accessor `getId` through a pointer. -/
def ChannelPtr.getId (p : ChannelPtr) : Nat :=
  p.base.id

/-- Modelled from the spec: the virtual `getOwner` (chat.h is missing): the owner of an
invite-only channel, and 0 (no owner) for every other kind of channel. -/
def ChannelPtr.getOwner : ChannelPtr → Nat
  | ChannelPtr.priv _ c => c.getOwner
  | ChannelPtr.dummy c => c.getOwner
  | _ => 0

/-- The constructor `Chat::Chat()`. -/
def Chat.new (k : Consts) : Chat where
  normalChannels := []
  guildChannels := []
  partyChannels := []
  privateChannels := []
  dummyPrivate := PrivateChatChannel.new k.CHANNEL_PRIVATE "Private Chat Channel"

/-- One `channel` node of the configuration document, as `Chat::load` reads it: `script`
is `none` without a script attribute, `some none` when the script cannot be loaded, and
otherwise the four events (`onSpeak`, `canJoin`, `onJoin`, `onLeave`) the interpreter
reports for it. -/
structure ChannelNode where
  id : Nat
  name : String
  isPublic : Bool
  script : Option (Option (Int × Int × Int × Int))
deriving DecidableEq, Repr

/-- The channel `Chat::load` builds for one node. -/
def ChannelNode.channel (n : ChannelNode) : ChatChannel :=
  match n.script with
  | some (some (onSpeak, canJoin, onJoin, onLeave)) =>
    { users := [], name := n.name, canJoinEvent := canJoin, onJoinEvent := onJoin,
      onLeaveEvent := onLeave, onSpeakEvent := onSpeak, id := n.id,
      publicChannel := n.isPublic }
  | _ =>
    { users := [], name := n.name, canJoinEvent := -1, onJoinEvent := -1,
      onLeaveEvent := -1, onSpeakEvent := -1, id := n.id, publicChannel := n.isPublic }

/-- The loop of `Chat::load` over the nodes of a document that could be read. -/
def Chat.load (c : Chat) (nodes : List ChannelNode) : Chat :=
  nodes.foldl
    (fun c n => { c with normalChannels := mapInsert c.normalChannels n.id n.channel }) c

/-- The method `Chat::getPrivateChannel`: the first invite-only channel, in key order,
whose owner is the player. -/
def Chat.getPrivateChannel (c : Chat) (player : Player) : Option (Nat × PrivateChatChannel) :=
  c.privateChannels.find? (fun it => it.2.getOwner == player.guid)

/-- The method `Chat::getChannel`. -/
def Chat.getChannel (k : Consts) (lua : LuaScriptInterface) (c : Chat) (player : Player)
    (channelId : Nat) : Option ChannelPtr :=
  if channelId = k.CHANNEL_GUILD then
    match player.guild with
    | some guild =>
      match mapFind c.guildChannels guild.id with
      | some channel => some (ChannelPtr.guild guild.id channel)
      | none => none
    | none => none
  else if channelId = k.CHANNEL_PARTY then
    match player.party with
    | some party =>
      match mapFind c.partyChannels party with
      | some channel => some (ChannelPtr.party party channel)
      | none => none
    | none => none
  else
    match mapFind c.normalChannels channelId with
    | some channel =>
      if !channel.executeCanJoinEvent lua player then none
      else some (ChannelPtr.normal channelId channel)
    | none =>
      match mapFind c.privateChannels channelId with
      | some channel =>
        if channel.isInvited player then some (ChannelPtr.priv channelId channel) else none
      | none => none

/-- The slot search of `Chat::createChannel`, `for (i = 100; i < 10000; ++i)`: the first
`i` that is not a key of `privateChannels`.  The first argument bounds the number of
iterations still to run; the loop runs at most `10000 - 100` of them. -/
def findFreeSlot (privateChannels : List (Nat × PrivateChatChannel)) : Nat → Nat → Option Nat
  | 0, _ => none
  | fuel + 1, i =>
    if i < 10000 then
      if (mapFind privateChannels i).isNone then some i
      else findFreeSlot privateChannels fuel (i + 1)
    else none

/-- The channel `Chat::createChannel` makes in slot `i`: the constructor call
`new PrivateChatChannel(i, player.getName() + "\x27s Channel")` followed by
`setOwner(player.getGUID())`. -/
def newPrivateChannel (i : Nat) (player : Player) : PrivateChatChannel :=
  (PrivateChatChannel.new i (player.name ++ "\x27s Channel")).setOwner player.guid

/-- The method `Chat::createChannel`: the new channel (if any) and the registry
afterwards. -/
def Chat.createChannel (k : Consts) (lua : LuaScriptInterface) (c : Chat) (player : Player)
    (channelId : Nat) : Option ChannelPtr × Chat :=
  if (c.getChannel k lua player channelId).isSome then (none, c)
  else if channelId = k.CHANNEL_GUILD then
    match player.guild with
    | some guild =>
      let newChannel := ChatChannel.new channelId guild.name
      (some (ChannelPtr.guild guild.id newChannel),
        { c with guildChannels := mapInsert c.guildChannels guild.id newChannel })
    | none => (none, c)
  else if channelId = k.CHANNEL_PARTY then
    match player.party with
    | some party =>
      let newChannel := ChatChannel.new channelId "Party"
      (some (ChannelPtr.party party newChannel),
        { c with partyChannels := mapInsert c.partyChannels party newChannel })
    | none => (none, c)
  else if channelId = k.CHANNEL_PRIVATE then
    if !player.premium || (c.getPrivateChannel player).isSome then (none, c)
    else
      match findFreeSlot c.privateChannels (10000 - 100) 100 with
      | some i =>
        let newChannel := newPrivateChannel i player
        (some (ChannelPtr.priv i newChannel),
          { c with privateChannels := mapInsert c.privateChannels i newChannel })
      | none => (none, c)
  else (none, c)

/-- The method `Chat::deleteChannel`: result, registry afterwards, deliveries. -/
def Chat.deleteChannel (k : Consts) (c : Chat) (player : Player) (channelId : Nat) :
    Bool × Chat × List Output :=
  if channelId = k.CHANNEL_GUILD then
    match player.guild with
    | none => (false, c, [])
    | some guild =>
      match mapFind c.guildChannels guild.id with
      | none => (false, c, [])
      | some _ => (true, { c with guildChannels := mapErase c.guildChannels guild.id }, [])
  else if channelId = k.CHANNEL_PARTY then
    match player.party with
    | none => (false, c, [])
    | some party =>
      match mapFind c.partyChannels party with
      | none => (false, c, [])
      | some _ => (true, { c with partyChannels := mapErase c.partyChannels party }, [])
  else
    match mapFind c.privateChannels channelId with
    | none => (false, c, [])
    | some channel =>
      (true, { c with privateChannels := mapErase c.privateChannels channelId },
        channel.closeChannel)

/-- A write through a `ChatChannel*`: the `ChatChannel` part of the channel the pointer
refers to becomes `channel`. -/
def Chat.setBase (c : Chat) (p : ChannelPtr) (channel : ChatChannel) : Chat :=
  match p with
  | ChannelPtr.normal i _ =>
    { c with normalChannels := mapModify c.normalChannels i (fun _ => channel) }
  | ChannelPtr.guild g _ =>
    { c with guildChannels := mapModify c.guildChannels g (fun _ => channel) }
  | ChannelPtr.party q _ =>
    { c with partyChannels := mapModify c.partyChannels q (fun _ => channel) }
  | ChannelPtr.priv i _ =>
    { c with privateChannels :=
        mapModify c.privateChannels i (fun old => { old with toChatChannel := channel }) }
  | ChannelPtr.dummy _ =>
    { c with dummyPrivate := { c.dummyPrivate with toChatChannel := channel } }

/-- The pointer after the write `Chat.setBase`. -/
def ChannelPtr.withBase (p : ChannelPtr) (channel : ChatChannel) : ChannelPtr :=
  match p with
  | ChannelPtr.normal i _ => ChannelPtr.normal i channel
  | ChannelPtr.guild g _ => ChannelPtr.guild g channel
  | ChannelPtr.party q _ => ChannelPtr.party q channel
  | ChannelPtr.priv i old => ChannelPtr.priv i { old with toChatChannel := channel }
  | ChannelPtr.dummy old => ChannelPtr.dummy { old with toChatChannel := channel }

/-- The method `Chat::addUserToChannel`: the channel joined (if any), registry afterwards,
deliveries. -/
def Chat.addUserToChannel (k : Consts) (lua : LuaScriptInterface) (c : Chat) (player : Player)
    (channelId : Nat) : Option ChannelPtr × Chat × List Output :=
  match c.getChannel k lua player channelId with
  | none => (none, c, [])
  | some channel =>
    let r := channel.base.addUser k lua player
    if r.1 then (some (channel.withBase r.2.1), c.setBase channel r.2.1, r.2.2)
    else (none, c.setBase channel r.2.1, r.2.2)

/-- The method `Chat::removeUserFromChannel`: result, registry afterwards, deliveries. -/
def Chat.removeUserFromChannel (k : Consts) (lua : LuaScriptInterface) (c : Chat)
    (player : Player) (channelId : Nat) : Bool × Chat × List Output :=
  match c.getChannel k lua player channelId with
  | none => (false, c, [])
  | some channel =>
    let r := channel.base.removeUser lua player
    let c1 := c.setBase channel r.2.1
    if !r.1 then (false, c1, r.2.2)
    else if channel.getOwner = player.guid then
      let d := c1.deleteChannel k player channelId
      (true, d.2.1, r.2.2 ++ d.2.2)
    else (true, c1, r.2.2)

/-- The loops of `Chat::removeUserFromAllChannels` over the static, party and guild
channels: `removeUser` on every channel, in key order. -/
def removeUserFromEach (lua : LuaScriptInterface) (player : Player) :
    List (Nat × ChatChannel) → List (Nat × ChatChannel) × List Output
  | [] => ([], [])
  | it :: rest =>
    let r := it.2.removeUser lua player
    let rs := removeUserFromEach lua player rest
    ((it.1, r.2.1) :: rs.1, r.2.2 ++ rs.2)

/-- The method `Chat::talkToChannel`: result and deliveries (the registry is not
changed). -/
def Chat.talkToChannel (k : Consts) (lua : LuaScriptInterface) (c : Chat) (player : Player)
    (type : Nat) (text : String) (channelId : Nat) : Bool × List Output :=
  match c.getChannel k lua player channelId with
  | none => (false, [])
  | some channel =>
    let type1 :=
      if channelId = k.CHANNEL_GUILD then
        if player.guildLevel > 1 then k.SPEAK_CHANNEL_O
        else if type ≠ k.SPEAK_CHANNEL_Y then k.SPEAK_CHANNEL_Y
        else type
      else if type ≠ k.SPEAK_CHANNEL_Y ∧
          (channelId = k.CHANNEL_PRIVATE ∨ channelId = k.CHANNEL_PARTY) then
        k.SPEAK_CHANNEL_Y
      else type
    let r := channel.base.executeOnSpeakEvent lua player type1 text
    if !r.1 then (false, [])
    else channel.base.talk player r.2 text

/-- The method `Chat::getChannelName`. -/
def Chat.getChannelName (k : Consts) (lua : LuaScriptInterface) (c : Chat) (player : Player)
    (channelId : Nat) : String :=
  match c.getChannel k lua player channelId with
  | none => ""
  | some channel => channel.base.name

/-- The loop of `Chat::removeUserFromAllChannels` over `privateChannels`, run over the keys
the map holds when the loop starts: `removeUser` on the channel under the key, then
`deleteChannel(player, channel->getId())` when the player owns it.  A key whose entry is
gone by the time the loop reaches it is skipped.  (In the source the loop is a range-for
over the map itself and `deleteChannel` erases the entry under the cursor; the model
continues with the next key.) -/
def Chat.removeUserFromPrivate (k : Consts) (lua : LuaScriptInterface) (player : Player) :
    List Nat → Chat → Chat × List Output
  | [], c => (c, [])
  | key :: rest, c =>
    match mapFind c.privateChannels key with
    | none => Chat.removeUserFromPrivate k lua player rest c
    | some channel =>
      let r := channel.toChatChannel.removeUser lua player
      let c1 := c.setBase (ChannelPtr.priv key channel) r.2.1
      if channel.getOwner = player.guid then
        let d := c1.deleteChannel k player channel.id
        let rs := Chat.removeUserFromPrivate k lua player rest d.2.1
        (rs.1, r.2.2 ++ d.2.2 ++ rs.2)
      else
        let rs := Chat.removeUserFromPrivate k lua player rest c1
        (rs.1, r.2.2 ++ rs.2)

/-- The method `Chat::removeUserFromAllChannels`: registry afterwards and deliveries. -/
def Chat.removeUserFromAllChannels (k : Consts) (lua : LuaScriptInterface) (c : Chat)
    (player : Player) : Chat × List Output :=
  let n := removeUserFromEach lua player c.normalChannels
  let p := removeUserFromEach lua player c.partyChannels
  let g := removeUserFromEach lua player c.guildChannels
  let c1 : Chat := { c with normalChannels := n.1, partyChannels := p.1, guildChannels := g.1 }
  let r := Chat.removeUserFromPrivate k lua player (mapKeys c1.privateChannels) c1
  (r.1, n.2 ++ p.2 ++ g.2 ++ r.2)

/-- The first two blocks of `Chat::getChannelList`, for one reserved id: the channel that
resolves for the player, or else the one `createChannel` makes. -/
def Chat.getOrCreate (k : Consts) (lua : LuaScriptInterface) (c : Chat) (player : Player)
    (channelId : Nat) : List ChannelPtr × Chat :=
  match c.getChannel k lua player channelId with
  | some channel => ([channel], c)
  | none =>
    match c.createChannel k lua player channelId with
    | (some channel, c1) => ([channel], c1)
    | (none, c1) => ([], c1)

/-- The method `Chat::getChannelList`: the list and the registry afterwards. -/
def Chat.getChannelList (k : Consts) (lua : LuaScriptInterface) (c : Chat) (player : Player) :
    List ChannelPtr × Chat :=
  let g := if player.guild.isSome then c.getOrCreate k lua player k.CHANNEL_GUILD else ([], c)
  let p :=
    if player.party.isSome then g.2.getOrCreate k lua player k.CHANNEL_PARTY else ([], g.2)
  let c2 := p.2
  let normals := c2.normalChannels.filterMap (fun it => c2.getChannel k lua player it.1)
  let privates :=
    (c2.privateChannels.filter (fun it => it.2.isInvited player)).map
      (fun it => ChannelPtr.priv it.1 it.2)
  let hasPrivate := c2.privateChannels.any (fun it => it.2.getOwner == player.guid)
  let list := g.1 ++ p.1 ++ normals ++ privates
  (if !hasPrivate && player.premium then ChannelPtr.dummy c2.dummyPrivate :: list else list, c2)

/-! ## Runs of the registry -/

/-- One call that can change the registry.  `invitePlayer` and `excludePlayer` are the
methods of the invite-only channel registered under `channelId`. -/
inductive Op where
  | createChannel (player : Player) (channelId : Nat)
  | deleteChannel (player : Player) (channelId : Nat)
  | addUserToChannel (player : Player) (channelId : Nat)
  | removeUserFromChannel (player : Player) (channelId : Nat)
  | removeUserFromAllChannels (player : Player)
  | getChannelList (player : Player)
  | invitePlayer (channelId : Nat) (player : Player) (invitePlayer : Player)
  | excludePlayer (channelId : Nat) (player : Player) (excludePlayer : Player)
deriving DecidableEq, Repr

/-- The registry after one call. -/
def Chat.step (k : Consts) (lua : LuaScriptInterface) (c : Chat) : Op → Chat
  | Op.createChannel player channelId => (c.createChannel k lua player channelId).2
  | Op.deleteChannel player channelId => (c.deleteChannel k player channelId).2.1
  | Op.addUserToChannel player channelId => (c.addUserToChannel k lua player channelId).2.1
  | Op.removeUserFromChannel player channelId =>
    (c.removeUserFromChannel k lua player channelId).2.1
  | Op.removeUserFromAllChannels player => (c.removeUserFromAllChannels k lua player).1
  | Op.getChannelList player => (c.getChannelList k lua player).2
  | Op.invitePlayer channelId player invitePlayer =>
    let invite := fun (channel : PrivateChatChannel) =>
      (channel.invitePlayer k player invitePlayer).1
    { c with privateChannels := mapModify c.privateChannels channelId invite }
  | Op.excludePlayer channelId player excludePlayer =>
    let exclude := fun (channel : PrivateChatChannel) =>
      (channel.excludePlayer k lua player excludePlayer).1
    { c with privateChannels := mapModify c.privateChannels channelId exclude }

/-- The registries that a run of calls reaches from `c0`; every call may meet a different
behaviour of the script hooks. -/
inductive Reachable (k : Consts) (c0 : Chat) : Chat → Prop where
  | start : Reachable k c0 c0
  | next (lua : LuaScriptInterface) (op : Op) (c : Chat) :
      Reachable k c0 c → Reachable k c0 (c.step k lua op)

/-- The registry after `Chat::createChannel(player, CHANNEL_PRIVATE)` for each player of a
list in turn, with the ids of the channels returned (`none` where the call returned no
channel). -/
def Chat.createPrivateEach (k : Consts) (lua : LuaScriptInterface) :
    Chat → List Player → List (Option Nat) × Chat
  | c, [] => ([], c)
  | c, player :: rest =>
    let r := c.createChannel k lua player k.CHANNEL_PRIVATE
    let rs := Chat.createPrivateEach k lua r.2 rest
    (r.1.map ChannelPtr.getId :: rs.1, rs.2)

/-! ## Invariants and concrete data -/

/-- The shape of `privateChannels` after `n` creations from an empty pool by sessions with
the identities `guids`: the keys are the ids `100 .. 99 + n`, nobody has been invited
yet, and every owner is one of `guids`. -/
def PoolFilled (n : Nat) (guids : List Nat) (pool : List (Nat × PrivateChatChannel)) : Prop :=
  (∀ i, (mapFind pool i).isSome = true ↔ 100 ≤ i ∧ i < 100 + n) ∧
    ∀ it ∈ pool, it.2.m_invites = [] ∧ it.2.getOwner ∈ guids

/-- The owners of the entries of `privateChannels`, in key order. -/
def poolOwners (pool : List (Nat × PrivateChatChannel)) : List Nat :=
  pool.map (fun it => it.2.getOwner)

/-- No two entries of `privateChannels` have the same owner. -/
def Chat.OwnersDistinct (c : Chat) : Prop :=
  (poolOwners c.privateChannels).Nodup

/-- No guild channel carries an `onSpeak` hook. -/
def Chat.GuildNoSpeakHook (c : Chat) : Prop :=
  ∀ it ∈ c.guildChannels, it.2.onSpeakEvent = -1

/-- A choice of values for the enumerators: the reserved ids 0 (guild), 1 (party) and
65535 (private). -/
def sampleConsts : Consts where
  CHANNEL_GUILD := 0
  CHANNEL_PARTY := 1
  CHANNEL_PRIVATE := 65535
  SPEAK_CHANNEL_Y := 7
  SPEAK_CHANNEL_O := 8
  MSG_INFO_DESCR := 22
  PLAYERSEX_FEMALE := 0

/-- An interpreter in which every hook allows everything. -/
def luaAllow : LuaScriptInterface where
  reserveScriptEnv := true
  callFunction := fun _ _ => true
  protectedCall := fun _ _ _ _ => LuaResult.boolean true

/-- An interpreter whose hooks reject the creature with id 42 and allow everybody else. -/
def luaReject42 : LuaScriptInterface where
  reserveScriptEnv := true
  callFunction := fun _ cid => cid != 42
  protectedCall := fun _ _ _ _ => LuaResult.boolean true

/-- A premium session without guild or party, with identity `n`. -/
def premiumPlayer (n : Nat) : Player where
  id := n
  guid := n
  name := "Player"
  sex := 1
  premium := true
  guild := none
  party := none
  guildLevel := 0

/-- A session without the premium entitlement, with identity `n`. -/
def freePlayer (n : Nat) : Player where
  id := n
  guid := n
  name := "Guest"
  sex := 0
  premium := false
  guild := none
  party := none
  guildLevel := 0

/-- A session of guild 7 with officer level 3. -/
def officer : Player where
  id := 5
  guid := 5
  name := "Officer"
  sex := 0
  premium := false
  guild := some { id := 7, name := "Knights", motd := "" }
  party := none
  guildLevel := 3

/-- The registry after the officer has created and joined the channel of guild 7. -/
def guildChat : Chat :=
  ((Chat.new sampleConsts).step sampleConsts luaAllow
    (Op.createChannel officer sampleConsts.CHANNEL_GUILD)).step sampleConsts luaAllow
      (Op.addUserToChannel officer sampleConsts.CHANNEL_GUILD)

/-- A registry holding the invite-only channels 100 and 101 of the sessions 1 and 2. -/
def sampleChat : Chat :=
  (Chat.createPrivateEach sampleConsts luaAllow (Chat.new sampleConsts)
    [premiumPlayer 1, premiumPlayer 2]).2

/-- A registry loaded from a document with one static channel whose id is the reserved
private id. -/
def clashChat : Chat :=
  (Chat.new sampleConsts).load
    [{ id := 65535, name := "Lounge", isPublic := true, script := none }]

/-- The channel-closed signals among the deliveries of a call: receiving session and
channel id of every `sendClosePrivate`, in order. -/
def closeSignals : List Output → List (Player × Nat)
  | [] => []
  | Output.sendClosePrivate recipient channelId :: rest =>
    (recipient, channelId) :: closeSignals rest
  | _ :: rest => closeSignals rest

/-- A registry loaded from a document with two static channels: 5, public and without
script, and 6, restricted, whose script provides only `canJoin` (event 3). -/
def staticChat : Chat :=
  (Chat.new sampleConsts).load
    [{ id := 5, name := "General", isPublic := true, script := none },
     { id := 6, name := "Staff", isPublic := false, script := some (some (-1, 3, -1, -1)) }]

/-- An invite-only channel of session 1 in which session 2 is invited and both are
members. -/
def sampleChannel : PrivateChatChannel :=
  { newPrivateChannel 100 (premiumPlayer 1) with
    users := [(1, premiumPlayer 1), (2, freePlayer 2)]
    m_invites := [(2, freePlayer 2)] }

/-! ## More concrete data, tracked loops and invariants -/

/-- The restricted static channel 6 of `staticChat`: only a `canJoin` hook (event 3). -/
def staffChannel : ChatChannel where
  users := []
  name := "Staff"
  canJoinEvent := 3
  onJoinEvent := -1
  onLeaveEvent := -1
  onSpeakEvent := -1
  id := 6
  publicChannel := false

/-- The registry after session 1 has created the invite-only channel 100, joined it,
invited session 2, and session 2 has joined too. -/
def lobbyChat : Chat :=
  ((((Chat.new sampleConsts).step sampleConsts luaAllow
    (Op.createChannel (premiumPlayer 1) sampleConsts.CHANNEL_PRIVATE)).step sampleConsts
      luaAllow (Op.addUserToChannel (premiumPlayer 1) 100)).step sampleConsts luaAllow
        (Op.invitePlayer 100 (premiumPlayer 1) (freePlayer 2))).step sampleConsts luaAllow
          (Op.addUserToChannel (freePlayer 2) 100)

/-- The invite-only channel 100 as it is registered in `lobbyChat`. -/
def lobbyChannel : PrivateChatChannel :=
  { newPrivateChannel 100 (premiumPlayer 1) with
    users := [(1, premiumPlayer 1), (2, freePlayer 2)]
    m_invites := [(2, freePlayer 2)] }

/-- The loop of `Chat::removeUserFromAllChannels` over `privateChannels` with the loop
iterator tracked: it runs like `Chat.removeUserFromPrivate`, but the result is `none` as
soon as `deleteChannel` has erased the entry the iterator refers to, because the
range-for then advances an iterator of `std::map` whose element is gone, which is
undefined. -/
def Chat.removeUserFromPrivateChecked (k : Consts) (lua : LuaScriptInterface)
    (player : Player) : List Nat → Chat → Option (Chat × List Output)
  | [], c => some (c, [])
  | key :: rest, c =>
    match mapFind c.privateChannels key with
    | none => Chat.removeUserFromPrivateChecked k lua player rest c
    | some channel =>
      let r := channel.toChatChannel.removeUser lua player
      let c1 := c.setBase (ChannelPtr.priv key channel) r.2.1
      if channel.getOwner = player.guid then
        let d := c1.deleteChannel k player channel.id
        if (mapFind d.2.1.privateChannels key).isNone then none
        else
          (Chat.removeUserFromPrivateChecked k lua player rest d.2.1).map
            (fun rs => (rs.1, r.2.2 ++ d.2.2 ++ rs.2))
      else
        (Chat.removeUserFromPrivateChecked k lua player rest c1).map
          (fun rs => (rs.1, r.2.2 ++ rs.2))

/-- The method `Chat::removeUserFromAllChannels` with the iterator of its last loop
tracked: `none` when that loop erases the entry under its iterator. -/
def Chat.removeUserFromAllChannelsChecked (k : Consts) (lua : LuaScriptInterface) (c : Chat)
    (player : Player) : Option (Chat × List Output) :=
  let n := removeUserFromEach lua player c.normalChannels
  let p := removeUserFromEach lua player c.partyChannels
  let g := removeUserFromEach lua player c.guildChannels
  let c1 : Chat := { c with normalChannels := n.1, partyChannels := p.1, guildChannels := g.1 }
  (Chat.removeUserFromPrivateChecked k lua player (mapKeys c1.privateChannels) c1).map
    (fun r => (r.1, n.2 ++ p.2 ++ g.2 ++ r.2))

/-- A pointer refers to a live channel of the registry: the entry it names is in its
partition (or it is the placeholder). -/
def ChannelPtr.In (c : Chat) : ChannelPtr → Prop
  | ChannelPtr.normal i channel => (i, channel) ∈ c.normalChannels
  | ChannelPtr.guild g channel => (g, channel) ∈ c.guildChannels
  | ChannelPtr.party q channel => (q, channel) ∈ c.partyChannels
  | ChannelPtr.priv i channel => mapFind c.privateChannels i = some channel
  | ChannelPtr.dummy channel => channel = c.dummyPrivate

/-- How ids follow registration: a static or invite-only channel carries the key it is
registered under, a guild channel the reserved guild id, a party channel the reserved
party id. -/
def Chat.IdsRegistered (k : Consts) (c : Chat) : Prop :=
  (∀ it ∈ c.normalChannels, it.2.id = it.1) ∧
    (∀ it ∈ c.guildChannels, it.2.id = k.CHANNEL_GUILD) ∧
    (∀ it ∈ c.partyChannels, it.2.id = k.CHANNEL_PARTY) ∧
    ∀ it ∈ c.privateChannels, it.2.id = it.1

/-- A second session of another guild (guild 8). -/
def squire : Player where
  id := 6
  guid := 6
  name := "Squire"
  sex := 1
  premium := false
  guild := some { id := 8, name := "Rangers", motd := "" }
  party := none
  guildLevel := 1

/-- The registry after sessions of the guilds 7 and 8 have each created the channel of
their guild. -/
def twoGuildsChat : Chat :=
  (((Chat.new sampleConsts).load []).step sampleConsts luaAllow
    (Op.createChannel officer sampleConsts.CHANNEL_GUILD)).step sampleConsts luaAllow
      (Op.createChannel squire sampleConsts.CHANNEL_GUILD)

/-- The condition under which a call is made: an `excludePlayer` call names a player who
is the only session of its character in the channel registered under the id, that is,
every member of that channel who carries the `getGUID` of the excluded player is stored
under the `getID` of the excluded player.  Every other call meets the condition. -/
def Chat.ExcludesSoleSession (c : Chat) : Op → Prop
  | Op.excludePlayer channelId _ excluded =>
    ∀ it ∈ c.privateChannels, it.1 = channelId →
      ∀ m ∈ it.2.users, m.2.guid = excluded.guid → m.1 = excluded.id
  | _ => True

instance (c : Chat) (op : Op) : Decidable (c.ExcludesSoleSession op) :=
  match op with
  | Op.createChannel _ _ => isTrue trivial
  | Op.deleteChannel _ _ => isTrue trivial
  | Op.addUserToChannel _ _ => isTrue trivial
  | Op.removeUserFromChannel _ _ => isTrue trivial
  | Op.removeUserFromAllChannels _ => isTrue trivial
  | Op.getChannelList _ => isTrue trivial
  | Op.invitePlayer _ _ _ => isTrue trivial
  | Op.excludePlayer channelId _ excluded =>
    inferInstanceAs (Decidable (∀ it ∈ c.privateChannels, it.1 = channelId →
      ∀ m ∈ it.2.users, m.2.guid = excluded.guid → m.1 = excluded.id))

/-- The registries that a run of calls reaches from `c0` when every `excludePlayer` call of
the run names a player who is the only session of its character in the channel. -/
inductive ReachableSole (k : Consts) (c0 : Chat) : Chat → Prop where
  | start : ReachableSole k c0 c0
  | next (lua : LuaScriptInterface) (op : Op) (c : Chat) :
      ReachableSole k c0 c → c.ExcludesSoleSession op → ReachableSole k c0 (c.step k lua op)

/-- Every member of an invite-only channel passes `isInvited`. -/
def PrivateChatChannel.MembersInvited (channel : PrivateChatChannel) : Prop :=
  ∀ m ∈ channel.users, channel.isInvited m.2 = true

/-- The keys of `privateChannels` are pairwise different and the members of every
invite-only channel pass `isInvited`. -/
def PoolMembersInvited (pool : List (Nat × PrivateChatChannel)) : Prop :=
  (mapKeys pool).Nodup ∧ ∀ it ∈ pool, it.2.MembersInvited

/-- A second session of the character of session 2: the same `getGUID` 2 under the
`getID` 12. -/
def secondSession : Player :=
  { freePlayer 2 with id := 12 }

/-- The registry after session 1 has created channel 100 and invited character 2, and the
sessions 2 and 12 of that character have both joined. -/
def twoSessionsChat : Chat :=
  ((((Chat.new sampleConsts).step sampleConsts luaAllow
    (Op.createChannel (premiumPlayer 1) sampleConsts.CHANNEL_PRIVATE)).step sampleConsts
      luaAllow (Op.invitePlayer 100 (premiumPlayer 1) (freePlayer 2))).step sampleConsts
        luaAllow (Op.addUserToChannel (freePlayer 2) 100)).step sampleConsts luaAllow
          (Op.addUserToChannel secondSession 100)

/-- The registry after session 1 has excluded session 12 in `twoSessionsChat`. -/
def cloneChat : Chat :=
  twoSessionsChat.step sampleConsts luaAllow
    (Op.excludePlayer 100 (premiumPlayer 1) secondSession)

/-- The registry after session 1 has created channel 100 and invited character 2, and
that character has joined as session 2, left, and joined again as session 12. -/
def rejoinedChat : Chat :=
  (((((Chat.new sampleConsts).step sampleConsts luaAllow
    (Op.createChannel (premiumPlayer 1) sampleConsts.CHANNEL_PRIVATE)).step sampleConsts
      luaAllow (Op.invitePlayer 100 (premiumPlayer 1) (freePlayer 2))).step sampleConsts
        luaAllow (Op.addUserToChannel (freePlayer 2) 100)).step sampleConsts luaAllow
          (Op.removeUserFromChannel (freePlayer 2) 100)).step sampleConsts luaAllow
            (Op.addUserToChannel secondSession 100)

/-- The run that goes on from `rejoinedChat`: session 1 invites session 3, who joins, and
then excludes session 12. -/
def rejoinChat : Chat :=
  ((rejoinedChat.step sampleConsts luaAllow
    (Op.invitePlayer 100 (premiumPlayer 1) (freePlayer 3))).step sampleConsts luaAllow
      (Op.addUserToChannel (freePlayer 3) 100)).step sampleConsts luaAllow
        (Op.excludePlayer 100 (premiumPlayer 1) secondSession)

/-- The invite-only channel 100 as it is registered in `rejoinChat`. -/
def rejoinChannel : PrivateChatChannel :=
  { newPrivateChannel 100 (premiumPlayer 1) with
    users := [(3, freePlayer 3)]
    m_invites := [(3, freePlayer 3)] }

/-- A registry loaded from a document with one static channel whose id is the reserved
guild id. -/
def zeroChat : Chat :=
  (Chat.new sampleConsts).load [{ id := 0, name := "Zero", isPublic := true, script := none }]

/-- The channel `getChannelList` lists for a reserved id: the one registered under
`key`, or else the one `createChannel` makes with that id and name. -/
def listedOrNew (m : List (Nat × ChatChannel)) (key : Nat) (channelId : Nat)
    (name : String) : ChatChannel :=
  match mapFind m key with
  | some channel => channel
  | none => ChatChannel.new channelId name

/-- The guild part of the specified list: the channel of the guild of the session, if it
has a guild. -/
def Chat.listedGuild (k : Consts) (c : Chat) (s : Player) : List ChannelPtr :=
  match s.guild with
  | some guild =>
    [ChannelPtr.guild guild.id
      (listedOrNew c.guildChannels guild.id k.CHANNEL_GUILD guild.name)]
  | none => []

/-- The party part of the specified list: the channel of the party of the session, if it
has a party. -/
def Chat.listedParty (k : Consts) (c : Chat) (s : Player) : List ChannelPtr :=
  match s.party with
  | some party =>
    [ChannelPtr.party party (listedOrNew c.partyChannels party k.CHANNEL_PARTY "Party")]
  | none => []

/-- The list `getChannelList` is specified to return (the wording of the spec): the
placeholder if the session is premium and owns no invite-only channel; the channel of its
guild if it has one; the channel of its party if it has one; the static channels whose
`canJoin` allows the session, in key order; the invite-only channels that invite the
session, in key order. -/
def Chat.visibleChannels (k : Consts) (lua : LuaScriptInterface) (c : Chat) (s : Player) :
    List ChannelPtr :=
  (if s.premium = true ∧ ∀ it ∈ c.privateChannels, it.2.getOwner ≠ s.guid then
      [ChannelPtr.dummy c.dummyPrivate] else []) ++
    (c.listedGuild k s ++
      (c.listedParty k s ++
        ((c.normalChannels.filter (fun it => it.2.executeCanJoinEvent lua s)).map
            (fun it => ChannelPtr.normal it.1 it.2) ++
          (c.privateChannels.filter (fun it => it.2.isInvited s)).map
            (fun it => ChannelPtr.priv it.1 it.2))))

/-- The invite-only pool as the registry builds it: keys pairwise different, every channel
carrying its key as id, and no key being the reserved guild or party id. -/
def PoolWellFormed (k : Consts) (pool : List (Nat × PrivateChatChannel)) : Prop :=
  (mapKeys pool).Nodup ∧
    ∀ it ∈ pool, it.2.id = it.1 ∧ it.1 ≠ k.CHANNEL_GUILD ∧ it.1 ≠ k.CHANNEL_PARTY

/-- What `removeUserFromAllChannels` is to leave of an invite-only channel: nothing when
the player owns it, and else the channel without the player. -/
def PrivateChatChannel.afterLeave (lua : LuaScriptInterface) (player : Player)
    (channel : PrivateChatChannel) : Option PrivateChatChannel :=
  if channel.getOwner = player.guid then none
  else some { channel with toChatChannel := (channel.toChatChannel.removeUser lua player).2.1 }

/-! ## Facts about the ordered maps -/

theorem mapFind_mapInsert_self {α : Type} (m : List (Nat × α)) (k : Nat) (v : α) :
    mapFind (mapInsert m k v) k = some v := by
  induction m with
  | nil => simp [mapInsert, mapFind]
  | cons hd tl ih =>
    obtain ⟨k', v'⟩ := hd
    unfold mapInsert
    by_cases h1 : k < k'
    · simp [h1, mapFind]
    · by_cases h2 : k = k'
      · simp [h2, mapFind]
      · have h3 : ¬ k' = k := fun h => h2 h.symm
        simp [h1, h2, h3, mapFind, ih]

theorem mapFind_mapInsert_ne {α : Type} (m : List (Nat × α)) (k j : Nat) (v : α)
    (h : j ≠ k) : mapFind (mapInsert m k v) j = mapFind m j := by
  have hk : ¬ k = j := fun e => h e.symm
  induction m with
  | nil => simp [mapInsert, mapFind, hk]
  | cons hd tl ih =>
    obtain ⟨k', v'⟩ := hd
    unfold mapInsert
    by_cases h1 : k < k'
    · simp [h1, mapFind, hk]
    · by_cases h2 : k = k'
      · subst h2
        simp [mapFind, hk]
      · simp [h1, h2, mapFind, ih]

theorem mapFind_mapErase_self {α : Type} (m : List (Nat × α)) (k : Nat) :
    mapFind (mapErase m k) k = none := by
  induction m with
  | nil => simp [mapErase, mapFind]
  | cons hd tl ih =>
    obtain ⟨k', v'⟩ := hd
    by_cases h : k' = k
    · simpa [mapErase, h] using ih
    · have : (mapErase ((k', v') :: tl) k) = (k', v') :: mapErase tl k := by
        simp [mapErase, h]
      rw [this]
      simp [mapFind, h, ih]

theorem mapFind_mapErase_ne {α : Type} (m : List (Nat × α)) (k j : Nat) (h : j ≠ k) :
    mapFind (mapErase m k) j = mapFind m j := by
  induction m with
  | nil => simp [mapErase, mapFind]
  | cons hd tl ih =>
    obtain ⟨k', v'⟩ := hd
    by_cases h1 : k' = k
    · have h2 : ¬ k' = j := fun e => h (e.symm.trans h1)
      have : (mapErase ((k', v') :: tl) k) = mapErase tl k := by
        simp [mapErase, h1]
      rw [this, ih]
      simp [mapFind, h2]
    · have : (mapErase ((k', v') :: tl) k) = (k', v') :: mapErase tl k := by
        simp [mapErase, h1]
      rw [this]
      simp [mapFind, ih]

theorem mapFind_mapModify {α : Type} (m : List (Nat × α)) (k j : Nat) (f : α → α) :
    mapFind (mapModify m k f) j = if j = k then (mapFind m j).map f else mapFind m j := by
  induction m with
  | nil => simp [mapModify, mapFind]
  | cons hd tl ih =>
    obtain ⟨k', v'⟩ := hd
    by_cases h1 : k' = k
    · have hcons : mapModify ((k', v') :: tl) k f = (k', f v') :: mapModify tl k f := by
        simp [mapModify, h1]
      rw [hcons]
      subst h1
      by_cases h2 : k' = j
      · subst h2
        simp [mapFind]
      · have h3 : ¬ j = k' := fun e => h2 e.symm
        simp [mapFind, h2, h3, ih]
    · have hcons : mapModify ((k', v') :: tl) k f = (k', v') :: mapModify tl k f := by
        simp [mapModify, h1]
      rw [hcons]
      by_cases h2 : k' = j
      · subst h2
        simp [mapFind, h1]
      · simp [mapFind, h2, ih]

theorem mapFind_some_mem {α : Type} (m : List (Nat × α)) (k : Nat) (v : α)
    (h : mapFind m k = some v) : (k, v) ∈ m := by
  induction m with
  | nil => simp [mapFind] at h
  | cons hd tl ih =>
    obtain ⟨k', v'⟩ := hd
    by_cases h1 : k' = k
    · subst h1
      simp [mapFind] at h
      simp [h]
    · simp [mapFind, h1] at h
      exact List.mem_cons_of_mem _ (ih h)

theorem mapFind_eq_none_iff {α : Type} (m : List (Nat × α)) (k : Nat) :
    mapFind m k = none ↔ ∀ it ∈ m, it.1 ≠ k := by
  induction m with
  | nil => simp [mapFind]
  | cons hd tl ih =>
    obtain ⟨k', v'⟩ := hd
    by_cases h1 : k' = k
    · simp [mapFind, h1]
    · simp [mapFind, h1, ih]

theorem mapFind_isSome_iff {α : Type} (m : List (Nat × α)) (k : Nat) :
    (mapFind m k).isSome = true ↔ k ∈ mapKeys m := by
  induction m with
  | nil => simp [mapFind, mapKeys]
  | cons hd tl ih =>
    obtain ⟨k', v'⟩ := hd
    by_cases h1 : k' = k
    · simp [mapFind, mapKeys, h1]
    · have h2 : ¬ k = k' := fun e => h1 e.symm
      simp only [mapKeys] at ih
      simp [mapFind, mapKeys, h1, h2, ih]

theorem mem_mapInsert {α : Type} (m : List (Nat × α)) (k : Nat) (v : α) (it : Nat × α)
    (h : it ∈ mapInsert m k v) : it = (k, v) ∨ it ∈ m := by
  induction m with
  | nil => simpa [mapInsert] using h
  | cons hd tl ih =>
    obtain ⟨k', v'⟩ := hd
    unfold mapInsert at h
    by_cases h1 : k < k'
    · simp only [h1, if_true] at h
      simpa using h
    · by_cases h2 : k = k'
      · simp only [h1, h2, if_true, if_false, lt_self_iff_false] at h
        rcases List.mem_cons.1 h with h | h
        · exact Or.inl (by rw [h, h2])
        · exact Or.inr (List.mem_cons_of_mem _ h)
      · simp only [h1, h2, if_false] at h
        rcases List.mem_cons.1 h with h | h
        · exact Or.inr (by simp [h])
        · rcases ih h with h | h
          · exact Or.inl h
          · exact Or.inr (List.mem_cons_of_mem _ h)

theorem mapInsert_perm {α : Type} (m : List (Nat × α)) (k : Nat) (v : α)
    (h : mapFind m k = none) : (mapInsert m k v).Perm ((k, v) :: m) := by
  induction m with
  | nil => simp [mapInsert]
  | cons hd tl ih =>
    obtain ⟨k', v'⟩ := hd
    have h1 : ¬ k' = k := by
      intro e
      simp [mapFind, e] at h
    have h2 : mapFind tl k = none := by simpa [mapFind, h1] using h
    have h3 : ¬ k = k' := fun e => h1 e.symm
    unfold mapInsert
    by_cases h4 : k < k'
    · simp [h4]
    · simp only [h4, h3, if_false]
      exact ((ih h2).cons (k', v')).trans (List.Perm.swap _ _ _)

theorem mapErase_sublist {α : Type} (m : List (Nat × α)) (k : Nat) :
    (mapErase m k).Sublist m := by
  unfold mapErase
  exact List.filter_sublist m

theorem mapKeys_mapModify {α : Type} (m : List (Nat × α)) (k : Nat) (f : α → α) :
    mapKeys (mapModify m k f) = mapKeys m := by
  induction m with
  | nil => simp [mapModify, mapKeys]
  | cons hd tl ih =>
    obtain ⟨k', v'⟩ := hd
    simp only [mapModify, mapKeys] at ih
    by_cases h1 : k' = k <;> simp [mapModify, mapKeys, h1, ih]

/-! ## The slot search -/

theorem findFreeSlot_some (pc : List (Nat × PrivateChatChannel)) (fuel i j : Nat)
    (h : findFreeSlot pc fuel i = some j) :
    i ≤ j ∧ j < 10000 ∧ mapFind pc j = none ∧
      ∀ n, i ≤ n → n < j → (mapFind pc n).isSome = true := by
  induction fuel generalizing i with
  | zero => simp [findFreeSlot] at h
  | succ fuel ih =>
    unfold findFreeSlot at h
    by_cases h1 : i < 10000
    · simp only [h1, if_true] at h
      by_cases h2 : (mapFind pc i).isNone = true
      · simp only [h2, if_true, Option.some.injEq] at h
        subst h
        refine ⟨le_refl _, h1, ?_, ?_⟩
        · simpa using h2
        · intro n hn hn'
          omega
      · simp only [h2] at h
        obtain ⟨ha, hb, hc, hd⟩ := ih (i + 1) h
        refine ⟨by omega, hb, hc, ?_⟩
        intro n hn hn'
        by_cases hni : n = i
        · subst hni
          cases hf : mapFind pc n with
          | none => simp [hf] at h2
          | some v => rfl
        · exact hd n (by omega) hn'
    · simp [h1] at h

theorem findFreeSlot_none (pc : List (Nat × PrivateChatChannel)) (fuel i : Nat)
    (hfuel : 10000 ≤ i + fuel) (h : findFreeSlot pc fuel i = none) :
    ∀ n, i ≤ n → n < 10000 → (mapFind pc n).isSome = true := by
  induction fuel generalizing i with
  | zero =>
    intro n hn hn'
    omega
  | succ fuel ih =>
    unfold findFreeSlot at h
    by_cases h1 : i < 10000
    · simp only [h1, if_true] at h
      by_cases h2 : (mapFind pc i).isNone = true
      · simp [h2] at h
      · simp only [h2] at h
        intro n hn hn'
        by_cases hni : n = i
        · subst hni
          cases hf : mapFind pc n with
          | none => simp [hf] at h2
          | some v => rfl
        · exact ih (i + 1) (by omega) h n (by omega) hn'
    · intro n hn hn'
      omega

/-! ## Creating invite-only channels -/

theorem getPrivateChannel_eq_none_iff (c : Chat) (player : Player) :
    c.getPrivateChannel player = none ↔
      ∀ it ∈ c.privateChannels, it.2.getOwner ≠ player.guid := by
  simp [Chat.getPrivateChannel, List.find?_eq_none]

theorem getPrivateChannel_isSome_iff (c : Chat) (player : Player) :
    (c.getPrivateChannel player).isSome = true ↔
      ∃ it ∈ c.privateChannels, it.2.getOwner = player.guid := by
  rw [← not_iff_not]
  simp only [Bool.not_eq_true, Option.not_isSome, Option.isNone_iff_eq_none,
    getPrivateChannel_eq_none_iff]
  simp

/-- The invite-only channel `createChannel` builds for a player in slot `i`. -/
theorem createChannel_private_eq (k : Consts) (lua : LuaScriptInterface) (c : Chat)
    (player : Player) (hd : k.Distinct)
    (hres : c.getChannel k lua player k.CHANNEL_PRIVATE = none)
    (hprem : player.premium = true)
    (hown : ∀ it ∈ c.privateChannels, it.2.getOwner ≠ player.guid) :
    c.createChannel k lua player k.CHANNEL_PRIVATE =
      match findFreeSlot c.privateChannels (10000 - 100) 100 with
      | some i =>
        (some (ChannelPtr.priv i (newPrivateChannel i player)),
          { c with privateChannels :=
              mapInsert c.privateChannels i (newPrivateChannel i player) })
      | none => (none, c) := by
  obtain ⟨_, h2, h3⟩ := hd
  have hg : ¬ k.CHANNEL_PRIVATE = k.CHANNEL_GUILD := fun e => h2 e.symm
  have hp : ¬ k.CHANNEL_PRIVATE = k.CHANNEL_PARTY := fun e => h3 e.symm
  have hown' : c.getPrivateChannel player = none :=
    (getPrivateChannel_eq_none_iff c player).2 hown
  unfold Chat.createChannel
  simp only [hres, hg, hp, hprem, hown', Option.isSome_none, if_false, if_true,
    Bool.not_true, Bool.or_self, Bool.false_eq_true]

theorem createChannel_private_first_fit (k : Consts) (lua : LuaScriptInterface) (c : Chat)
    (player : Player) (hd : k.Distinct)
    (hres : c.getChannel k lua player k.CHANNEL_PRIVATE = none)
    (hprem : player.premium = true)
    (hown : ∀ it ∈ c.privateChannels, it.2.getOwner ≠ player.guid)
    (j : Nat) (hj : 100 ≤ j) (hj' : j < 10000) (hfree : mapFind c.privateChannels j = none)
    (hbelow : ∀ n, 100 ≤ n → n < j → (mapFind c.privateChannels n).isSome = true) :
    c.createChannel k lua player k.CHANNEL_PRIVATE =
      (some (ChannelPtr.priv j (newPrivateChannel j player)),
        { c with privateChannels :=
            mapInsert c.privateChannels j (newPrivateChannel j player) }) := by
  rw [createChannel_private_eq k lua c player hd hres hprem hown]
  cases hf : findFreeSlot c.privateChannels (10000 - 100) 100 with
  | none =>
    have := findFreeSlot_none c.privateChannels _ _ (by norm_num) hf j hj hj'
    simp [hfree] at this
  | some i =>
    obtain ⟨ha, hb, hc, he⟩ := findFreeSlot_some c.privateChannels _ _ _ hf
    have hij : i = j := by
      rcases Nat.lt_trichotomy i j with h | h | h
      · have := hbelow i ha h
        simp [hc] at this
      · exact h
      · have := he j hj h
        simp [hfree] at this
    subst hij
    rfl

/-! ## Single channels -/

theorem closeSignals_append (xs ys : List Output) :
    closeSignals (xs ++ ys) = closeSignals xs ++ closeSignals ys := by
  induction xs with
  | nil => rfl
  | cons x xs ih => cases x <;> simp [closeSignals, ih]

theorem closeSignals_channelEvents (users : List (Nat × Player)) (i : Nat) (n : String)
    (ev : ChannelEvent) :
    closeSignals (users.map (fun it => Output.sendChannelEvent it.2 i n ev)) = [] := by
  induction users with
  | nil => rfl
  | cons x xs ih => simpa [closeSignals] using ih

theorem removeUser_closeSignals (lua : LuaScriptInterface) (c : ChatChannel) (p : Player) :
    closeSignals (c.removeUser lua p).2.2 = [] := by
  unfold ChatChannel.removeUser
  by_cases h : (mapFind c.users p.id).isNone = true
  · simp [h, closeSignals]
  · by_cases hp : c.publicChannel = true
    · simp [h, hp, closeSignals]
    · simp [h, hp, closeSignals_channelEvents]

theorem removeUser_not_member (lua : LuaScriptInterface) (c : ChatChannel) (p : Player) :
    mapFind (c.removeUser lua p).2.1.users p.id = none := by
  unfold ChatChannel.removeUser
  by_cases h : (mapFind c.users p.id).isNone = true
  · simpa [h] using Option.isNone_iff_eq_none.1 h
  · simp [h, mapFind_mapErase_self]

theorem removeUser_fields (lua : LuaScriptInterface) (c : ChatChannel) (p : Player) :
    (c.removeUser lua p).2.1.id = c.id ∧
      (c.removeUser lua p).2.1.onSpeakEvent = c.onSpeakEvent := by
  unfold ChatChannel.removeUser
  by_cases h : (mapFind c.users p.id).isNone = true <;> simp [h]

theorem addUser_fields (k : Consts) (lua : LuaScriptInterface) (c : ChatChannel)
    (p : Player) :
    (c.addUser k lua p).2.1.id = c.id ∧
      (c.addUser k lua p).2.1.onSpeakEvent = c.onSpeakEvent := by
  unfold ChatChannel.addUser
  by_cases h : (mapFind c.users p.id).isSome = true
  · simp [h]
  · by_cases h2 : c.executeOnJoinEvent lua p = true <;> simp [h, h2]

/-- C4: `isInvited(s)` is true exactly when the identity of `s` is the owner of the channel
or a key of its invitation registry; in particular it is true for a session whose identity
is the owner, whatever the invitation registry holds (also when it is empty). -/
theorem C4_isInvited_iff_owner_or_invited (c : PrivateChatChannel) (s : Player) :
    (c.isInvited s = true ↔ s.guid = c.getOwner ∨ s.guid ∈ mapKeys c.m_invites) ∧
      (∀ o : Player, o.guid = c.getOwner → c.isInvited o = true) ∧
      (∀ o : Player, o.guid = c.getOwner →
        ({ c with m_invites := [] } : PrivateChatChannel).isInvited o = true) := by
  refine ⟨?_, ?_, ?_⟩
  · unfold PrivateChatChannel.isInvited
    by_cases h : s.guid = c.getOwner
    · simp [h]
    · simp [h, mapFind_isSome_iff]
  · intro o ho
    simp [PrivateChatChannel.isInvited, ho]
  · intro o ho
    simp only [PrivateChatChannel.isInvited, PrivateChatChannel.getOwner] at ho ⊢
    simp [ho]

/-- C5: on every channel, restricted ones included, when `addUser(s)` returns true, `s`
is a member afterwards; a second `addUser(s)` right after it returns false, leaves the channel (so
its member map) as it was and delivers nothing, hence no JOIN event; and the same holds
in every later state of the channel in which `s` is still a member. -/
theorem C5_addUser_member_then_refused (k : Consts) (lua : LuaScriptInterface)
    (c : ChatChannel) (s : Player) (h : (c.addUser k lua s).1 = true) :
    mapFind (c.addUser k lua s).2.1.users s.id = some s ∧
      (c.addUser k lua s).2.1.addUser k lua s = (false, (c.addUser k lua s).2.1, []) ∧
      ∀ c1 : ChatChannel, (mapFind c1.users s.id).isSome = true →
        c1.addUser k lua s = (false, c1, []) := by
  have hgen : ∀ c1 : ChatChannel, (mapFind c1.users s.id).isSome = true →
      c1.addUser k lua s = (false, c1, []) := by
    intro c1 h1
    simp [ChatChannel.addUser, h1]
  have hmem : mapFind (c.addUser k lua s).2.1.users s.id = some s := by
    unfold ChatChannel.addUser at h ⊢
    by_cases h1 : (mapFind c.users s.id).isSome = true
    · simp [h1] at h
    · by_cases h2 : c.executeOnJoinEvent lua s = true
      · simp [h1, h2, mapFind_mapInsert_self]
      · simp [h1, h2] at h
  exact ⟨hmem, hgen _ (by simp [hmem]), hgen⟩

/-- C5 instantiated: session 3 joins the restricted channel of session 1. -/
theorem C5_addUser_member_then_refused_witness :
    sampleChannel.publicChannel = false ∧
    mapFind (sampleChannel.toChatChannel.addUser sampleConsts luaAllow
        (premiumPlayer 3)).2.1.users (premiumPlayer 3).id = some (premiumPlayer 3) ∧
      (sampleChannel.toChatChannel.addUser sampleConsts luaAllow
          (premiumPlayer 3)).2.1.addUser sampleConsts luaAllow (premiumPlayer 3) =
        (false, (sampleChannel.toChatChannel.addUser sampleConsts luaAllow
          (premiumPlayer 3)).2.1, []) ∧
      ∀ c1 : ChatChannel, (mapFind c1.users (premiumPlayer 3).id).isSome = true →
        c1.addUser sampleConsts luaAllow (premiumPlayer 3) = (false, c1, []) :=
  ⟨rfl, C5_addUser_member_then_refused sampleConsts luaAllow sampleChannel.toChatChannel
    (premiumPlayer 3) (by decide)⟩

/-- C6: when `b` is a member of the invite-only channel and holds an invitation (its
identity is a key of the invitation registry), `excludePlayer(a, b)` leaves `b` neither a
member nor invited, and the channel-closed signals of the call are exactly one: the one
sent to `b` for the id of the channel. -/
theorem C6_excludePlayer_removes_and_closes (k : Consts) (lua : LuaScriptInterface)
    (c : PrivateChatChannel) (a b : Player)
    (hm : (mapFind c.users b.id).isSome = true)
    (hi : (mapFind c.m_invites b.guid).isSome = true) :
    mapFind (c.excludePlayer k lua a b).1.users b.id = none ∧
      mapFind (c.excludePlayer k lua a b).1.m_invites b.guid = none ∧
      closeSignals (c.excludePlayer k lua a b).2 = [(b, c.id)] ∧
      (c.toChatChannel.removeUser lua b).1 = true := by
  have hi' : (mapFind c.m_invites b.guid).isNone = false := by
    cases hx : mapFind c.m_invites b.guid with
    | none => simp [hx] at hi
    | some v => rfl
  have hm' : (mapFind c.users b.id).isNone = false := by
    cases hx : mapFind c.users b.id with
    | none => simp [hx] at hm
    | some v => rfl
  have hrem : c.removeInvited b =
      (true, { c with m_invites := mapErase c.m_invites b.guid }) := by
    simp [PrivateChatChannel.removeInvited, hi']
  unfold PrivateChatChannel.excludePlayer
  rw [hrem]
  refine ⟨?_, ?_, ?_, ?_⟩
  · exact removeUser_not_member lua c.toChatChannel b
  · exact mapFind_mapErase_self _ _
  · simp only [closeSignals_append, removeUser_closeSignals, closeSignals_channelEvents,
      closeSignals, (removeUser_fields lua c.toChatChannel b).1, List.nil_append,
      List.append_nil]
  · simp [ChatChannel.removeUser, hm']

/-- C6 instantiated: session 1 excludes session 2, an invited member. -/
theorem C6_excludePlayer_removes_and_closes_witness :
    mapFind (sampleChannel.excludePlayer sampleConsts luaAllow (premiumPlayer 1)
        (freePlayer 2)).1.users 2 = none ∧
      mapFind (sampleChannel.excludePlayer sampleConsts luaAllow (premiumPlayer 1)
        (freePlayer 2)).1.m_invites 2 = none ∧
      closeSignals (sampleChannel.excludePlayer sampleConsts luaAllow (premiumPlayer 1)
        (freePlayer 2)).2 = [(freePlayer 2, 100)] ∧
      (sampleChannel.toChatChannel.removeUser luaAllow (freePlayer 2)).1 = true :=
  C6_excludePlayer_removes_and_closes sampleConsts luaAllow sampleChannel (premiumPlayer 1)
    (freePlayer 2) (by decide) (by decide)

/-- C7: `talk(s, t, m)` returns false and delivers nothing when `s` is not a member;
otherwise it returns true and its deliveries are one `sendToChannel` (sender `s`, class
`t`, text `m`, the id of the channel) per entry of the member map, in key order, the entry
of `s` included; when no session is stored twice every member receives it exactly once.
The call returns no new channel state: `talk` does not touch the member map. -/
theorem C7_talk_members_only (c : ChatChannel) (s : Player) (t : Nat) (m : String) :
    (mapFind c.users s.id = none → c.talk s t m = (false, [])) ∧
      (∀ p, mapFind c.users s.id = some p →
        c.talk s t m =
            (true, c.users.map (fun it => Output.sendToChannel it.2 s t m c.id)) ∧
          Output.sendToChannel p s t m c.id ∈ (c.talk s t m).2 ∧
          ((c.users.map Prod.snd).Nodup → ∀ it ∈ c.users,
            (c.talk s t m).2.count (Output.sendToChannel it.2 s t m c.id) = 1)) := by
  refine ⟨?_, ?_⟩
  · intro h
    simp [ChatChannel.talk, h]
  · intro p hp
    have htalk : c.talk s t m =
        (true, c.users.map (fun it => Output.sendToChannel it.2 s t m c.id)) := by
      simp [ChatChannel.talk, hp]
    refine ⟨htalk, ?_, ?_⟩
    · rw [htalk]
      exact List.mem_map.2 ⟨(s.id, p), mapFind_some_mem _ _ _ hp, rfl⟩
    · intro hnd it hit
      rw [htalk]
      have hmap : c.users.map (fun it => Output.sendToChannel it.2 s t m c.id) =
          (c.users.map Prod.snd).map (fun q => Output.sendToChannel q s t m c.id) := by
        simp [List.map_map, Function.comp]
      have hinj : Function.Injective (fun q : Player => Output.sendToChannel q s t m c.id) := by
        intro x y hxy
        simpa using hxy
      show List.count (Output.sendToChannel it.2 s t m c.id)
        (c.users.map (fun it => Output.sendToChannel it.2 s t m c.id)) = 1
      rw [hmap, List.count_map_of_injective _ _ hinj]
      exact List.count_eq_one_of_mem hnd (List.mem_map.2 ⟨it, hit, rfl⟩)

/-! ## Owners of the invite-only channels along a run -/

theorem poolOwners_mapModify (pool : List (Nat × PrivateChatChannel)) (k : Nat)
    (f : PrivateChatChannel → PrivateChatChannel)
    (hf : ∀ channel, (f channel).getOwner = channel.getOwner) :
    poolOwners (mapModify pool k f) = poolOwners pool := by
  induction pool with
  | nil => rfl
  | cons hd tl ih =>
    simp only [poolOwners, mapModify, List.map_cons, List.map_map] at ih ⊢
    rw [ih]
    by_cases h : hd.1 = k <;> simp [h, hf]

theorem sublist_of_eq {l1 l2 : List Nat} (h : l1 = l2) : l1.Sublist l2 :=
  h ▸ List.Sublist.refl _

theorem poolOwners_mapErase (pool : List (Nat × PrivateChatChannel)) (k : Nat) :
    (poolOwners (mapErase pool k)).Sublist (poolOwners pool) :=
  (mapErase_sublist pool k).map _

theorem setBase_poolOwners (c : Chat) (p : ChannelPtr) (channel : ChatChannel) :
    poolOwners (c.setBase p channel).privateChannels = poolOwners c.privateChannels := by
  cases p with
  | priv i old =>
    exact poolOwners_mapModify c.privateChannels i
      (fun old => { old with toChatChannel := channel }) (fun _ => rfl)
  | _ => rfl

theorem deleteChannel_poolOwners (k : Consts) (c : Chat) (player : Player) (id : Nat) :
    (poolOwners (c.deleteChannel k player id).2.1.privateChannels).Sublist
      (poolOwners c.privateChannels) := by
  unfold Chat.deleteChannel
  repeat' split
  all_goals first
    | exact List.Sublist.refl _
    | exact poolOwners_mapErase _ _

/-- What `createChannel` does to `privateChannels`: nothing, or it registers the new channel
of the player under a key that was free, the player owning no channel before. -/
theorem createChannel_pool (k : Consts) (lua : LuaScriptInterface) (c : Chat)
    (player : Player) (id : Nat) :
    (c.createChannel k lua player id).2.privateChannels = c.privateChannels ∨
      ∃ i, mapFind c.privateChannels i = none ∧ c.getPrivateChannel player = none ∧
        (c.createChannel k lua player id).2.privateChannels =
          mapInsert c.privateChannels i (newPrivateChannel i player) := by
  unfold Chat.createChannel
  by_cases hres : (c.getChannel k lua player id).isSome = true
  · rw [if_pos hres]
    exact Or.inl rfl
  rw [if_neg hres]
  by_cases hg : id = k.CHANNEL_GUILD
  · rw [if_pos hg]
    cases player.guild <;> exact Or.inl rfl
  rw [if_neg hg]
  by_cases hp : id = k.CHANNEL_PARTY
  · rw [if_pos hp]
    cases player.party <;> exact Or.inl rfl
  rw [if_neg hp]
  by_cases hq : id = k.CHANNEL_PRIVATE
  · rw [if_pos hq]
    by_cases hcond : (!player.premium || (c.getPrivateChannel player).isSome) = true
    · rw [if_pos hcond]
      exact Or.inl rfl
    rw [if_neg hcond]
    cases hf : findFreeSlot c.privateChannels (10000 - 100) 100 with
    | none => exact Or.inl rfl
    | some i =>
      obtain ⟨_, _, hfree, _⟩ := findFreeSlot_some _ _ _ _ hf
      have hnone : c.getPrivateChannel player = none := by
        cases hx : c.getPrivateChannel player with
        | none => rfl
        | some v => simp [hx] at hcond
      exact Or.inr ⟨i, hfree, hnone, rfl⟩
  · rw [if_neg hq]
    exact Or.inl rfl

theorem createChannel_ownersDistinct (k : Consts) (lua : LuaScriptInterface) (c : Chat)
    (player : Player) (id : Nat) (h : c.OwnersDistinct) :
    (c.createChannel k lua player id).2.OwnersDistinct := by
  unfold Chat.OwnersDistinct at h ⊢
  rcases createChannel_pool k lua c player id with he | ⟨i, hfree, hnone, he⟩
  · rw [he]
    exact h
  · rw [he]
    have hown := (getPrivateChannel_eq_none_iff c player).1 hnone
    have hperm := (mapInsert_perm c.privateChannels i
      (newPrivateChannel i player) hfree).map (fun it => it.2.getOwner)
    unfold poolOwners at h ⊢
    rw [hperm.nodup_iff]
    simp only [List.map_cons, List.nodup_cons]
    refine ⟨?_, h⟩
    intro hmem
    obtain ⟨it, hit, e⟩ := List.mem_map.1 hmem
    exact hown it hit e

theorem invitePlayer_getOwner (k : Consts) (c : PrivateChatChannel) (a b : Player) :
    (c.invitePlayer k a b).1.getOwner = c.getOwner := by
  unfold PrivateChatChannel.invitePlayer PrivateChatChannel.addInvited
  by_cases h : (mapFind c.m_invites b.guid).isSome = true <;> simp [h, PrivateChatChannel.getOwner]

theorem excludePlayer_getOwner (k : Consts) (lua : LuaScriptInterface)
    (c : PrivateChatChannel) (a b : Player) :
    (c.excludePlayer k lua a b).1.getOwner = c.getOwner := by
  unfold PrivateChatChannel.excludePlayer PrivateChatChannel.removeInvited
  by_cases h : (mapFind c.m_invites b.guid).isNone = true <;>
    simp [h, PrivateChatChannel.getOwner]

theorem removeUserFromPrivate_poolOwners (k : Consts) (lua : LuaScriptInterface)
    (player : Player) (keys : List Nat) :
    ∀ c : Chat,
      (poolOwners (Chat.removeUserFromPrivate k lua player keys c).1.privateChannels).Sublist
        (poolOwners c.privateChannels) := by
  induction keys with
  | nil =>
    intro c
    exact List.Sublist.refl _
  | cons key rest ih =>
    intro c
    unfold Chat.removeUserFromPrivate
    dsimp only
    repeat' split
    · exact ih c
    · refine (ih _).trans ?_
      refine (deleteChannel_poolOwners k _ player _).trans ?_
      exact sublist_of_eq (setBase_poolOwners _ _ _)
    · refine (ih _).trans ?_
      exact sublist_of_eq (setBase_poolOwners _ _ _)

theorem getOrCreate_ownersDistinct (k : Consts) (lua : LuaScriptInterface) (c : Chat)
    (player : Player) (id : Nat) (h : c.OwnersDistinct) :
    (c.getOrCreate k lua player id).2.OwnersDistinct := by
  have hc := createChannel_ownersDistinct k lua c player id h
  unfold Chat.getOrCreate
  repeat' split
  all_goals first
    | exact h
    | (rename_i heq; rw [heq] at hc; exact hc)

theorem addUserToChannel_poolOwners (k : Consts) (lua : LuaScriptInterface) (c : Chat)
    (player : Player) (id : Nat) :
    poolOwners (c.addUserToChannel k lua player id).2.1.privateChannels =
      poolOwners c.privateChannels := by
  unfold Chat.addUserToChannel
  dsimp only
  repeat' split
  all_goals first
    | rfl
    | exact setBase_poolOwners _ _ _

theorem removeUserFromChannel_poolOwners (k : Consts) (lua : LuaScriptInterface) (c : Chat)
    (player : Player) (id : Nat) :
    (poolOwners (c.removeUserFromChannel k lua player id).2.1.privateChannels).Sublist
      (poolOwners c.privateChannels) := by
  unfold Chat.removeUserFromChannel
  dsimp only
  repeat' split
  all_goals first
    | exact List.Sublist.refl _
    | exact sublist_of_eq (setBase_poolOwners _ _ _)
    | exact (deleteChannel_poolOwners k _ player id).trans
        (sublist_of_eq (setBase_poolOwners _ _ _))

theorem getChannelList_ownersDistinct (k : Consts) (lua : LuaScriptInterface) (c : Chat)
    (player : Player) (h : c.OwnersDistinct) :
    (c.getChannelList k lua player).2.OwnersDistinct := by
  have hg : (if player.guild.isSome = true then c.getOrCreate k lua player k.CHANNEL_GUILD
      else ([], c)).2.OwnersDistinct := by
    split
    · exact getOrCreate_ownersDistinct k lua c player _ h
    · exact h
  show (if player.party.isSome = true then
      (if player.guild.isSome = true then c.getOrCreate k lua player k.CHANNEL_GUILD
        else ([], c)).2.getOrCreate k lua player k.CHANNEL_PARTY
    else ([], (if player.guild.isSome = true then c.getOrCreate k lua player k.CHANNEL_GUILD
        else ([], c)).2)).2.OwnersDistinct
  split
  · exact getOrCreate_ownersDistinct k lua _ player _ hg
  · exact hg

theorem step_ownersDistinct (k : Consts) (lua : LuaScriptInterface) (c : Chat) (op : Op)
    (h : c.OwnersDistinct) : (c.step k lua op).OwnersDistinct := by
  cases op with
  | createChannel player id => exact createChannel_ownersDistinct k lua c player id h
  | deleteChannel player id =>
    exact List.Nodup.sublist (deleteChannel_poolOwners k c player id) h
  | addUserToChannel player id =>
    show (poolOwners (c.addUserToChannel k lua player id).2.1.privateChannels).Nodup
    rw [addUserToChannel_poolOwners]
    exact h
  | removeUserFromChannel player id =>
    exact List.Nodup.sublist (removeUserFromChannel_poolOwners k lua c player id) h
  | removeUserFromAllChannels player =>
    show (c.removeUserFromAllChannels k lua player).1.OwnersDistinct
    unfold Chat.removeUserFromAllChannels
    exact List.Nodup.sublist (removeUserFromPrivate_poolOwners k lua player _ _) h
  | getChannelList player => exact getChannelList_ownersDistinct k lua c player h
  | invitePlayer id a b =>
    show (poolOwners (mapModify c.privateChannels id
      (fun channel => (channel.invitePlayer k a b).1))).Nodup
    rw [poolOwners_mapModify _ _ _ (fun channel => invitePlayer_getOwner k channel a b)]
    exact h
  | excludePlayer id a b =>
    show (poolOwners (mapModify c.privateChannels id
      (fun channel => (channel.excludePlayer k lua a b).1))).Nodup
    rw [poolOwners_mapModify _ _ _ (fun channel => excludePlayer_getOwner k lua channel a b)]
    exact h

theorem reachable_ownersDistinct (k : Consts) (c0 c : Chat) (h0 : c0.OwnersDistinct)
    (h : Reachable k c0 c) : c.OwnersDistinct := by
  induction h with
  | start => exact h0
  | next lua op c _ ih => exact step_ownersDistinct k lua c op ih

/-! ## Guild channels carry no `onSpeak` hook along a run -/

theorem mem_mapModify {α : Type} (m : List (Nat × α)) (k : Nat) (f : α → α) (it : Nat × α)
    (h : it ∈ mapModify m k f) : it ∈ m ∨ ∃ v, (k, v) ∈ m ∧ it = (k, f v) := by
  unfold mapModify at h
  obtain ⟨it0, h0, he⟩ := List.mem_map.1 h
  by_cases hk : it0.1 = k
  · rw [if_pos hk] at he
    refine Or.inr ⟨it0.2, ?_, ?_⟩
    · rw [← hk]
      exact h0
    · rw [← he, hk]
  · rw [if_neg hk] at he
    exact Or.inl (he ▸ h0)

theorem getChannel_guild_mem (k : Consts) (lua : LuaScriptInterface) (c : Chat)
    (player : Player) (id g : Nat) (channel : ChatChannel)
    (h : c.getChannel k lua player id = some (ChannelPtr.guild g channel)) :
    (g, channel) ∈ c.guildChannels := by
  unfold Chat.getChannel at h
  by_cases hg : id = k.CHANNEL_GUILD
  · rw [if_pos hg] at h
    cases hgd : player.guild with
    | none => simp [hgd] at h
    | some guild =>
      cases hf : mapFind c.guildChannels guild.id with
      | none => simp [hgd, hf] at h
      | some ch =>
        simp only [hgd, hf, Option.some.injEq, ChannelPtr.guild.injEq] at h
        obtain ⟨h1, h2⟩ := h
        subst h1 h2
        exact mapFind_some_mem _ _ _ hf
  · rw [if_neg hg] at h
    by_cases hp : id = k.CHANNEL_PARTY
    · rw [if_pos hp] at h
      cases hpd : player.party with
      | none => simp [hpd] at h
      | some party =>
        cases hf : mapFind c.partyChannels party <;> simp [hpd, hf] at h
    · rw [if_neg hp] at h
      cases hn : mapFind c.normalChannels id with
      | some ch =>
        by_cases hc : ch.executeCanJoinEvent lua player = true <;> simp [hn, hc] at h
      | none =>
        cases hq : mapFind c.privateChannels id with
        | none => simp [hn, hq] at h
        | some pc =>
          by_cases hi : pc.isInvited player = true <;> simp [hn, hq, hi] at h

theorem setBase_guildNoSpeakHook (c : Chat) (p : ChannelPtr) (channel : ChatChannel)
    (h : c.GuildNoSpeakHook)
    (hp : ∀ g old, p = ChannelPtr.guild g old → channel.onSpeakEvent = -1) :
    (c.setBase p channel).GuildNoSpeakHook := by
  cases p with
  | guild g old =>
    intro it hit
    have hit' : it ∈ mapModify c.guildChannels g (fun _ => channel) := hit
    rcases mem_mapModify _ _ _ _ hit' with h1 | ⟨v, _, h2⟩
    · exact h it h1
    · rw [h2]
      exact hp g old rfl
  | _ => exact h

theorem deleteChannel_guildNoSpeakHook (k : Consts) (c : Chat) (player : Player) (id : Nat)
    (h : c.GuildNoSpeakHook) : (c.deleteChannel k player id).2.1.GuildNoSpeakHook := by
  unfold Chat.deleteChannel
  repeat' split
  all_goals first
    | exact h
    | exact fun it hit => h it ((mapErase_sublist _ _).subset hit)

theorem createChannel_guildNoSpeakHook (k : Consts) (lua : LuaScriptInterface) (c : Chat)
    (player : Player) (id : Nat) (h : c.GuildNoSpeakHook) :
    (c.createChannel k lua player id).2.GuildNoSpeakHook := by
  unfold Chat.createChannel
  dsimp only
  repeat' split
  all_goals first
    | exact h
    | (intro it hit
       rcases mem_mapInsert _ _ _ _ hit with h1 | h1
       · rw [h1]
         rfl
       · exact h it h1)

theorem getOrCreate_guildNoSpeakHook (k : Consts) (lua : LuaScriptInterface) (c : Chat)
    (player : Player) (id : Nat) (h : c.GuildNoSpeakHook) :
    (c.getOrCreate k lua player id).2.GuildNoSpeakHook := by
  have hc := createChannel_guildNoSpeakHook k lua c player id h
  unfold Chat.getOrCreate
  repeat' split
  all_goals first
    | exact h
    | (rename_i heq; rw [heq] at hc; exact hc)

theorem getChannelList_guildNoSpeakHook (k : Consts) (lua : LuaScriptInterface) (c : Chat)
    (player : Player) (h : c.GuildNoSpeakHook) :
    (c.getChannelList k lua player).2.GuildNoSpeakHook := by
  have hg : (if player.guild.isSome = true then c.getOrCreate k lua player k.CHANNEL_GUILD
      else ([], c)).2.GuildNoSpeakHook := by
    split
    · exact getOrCreate_guildNoSpeakHook k lua c player _ h
    · exact h
  show (if player.party.isSome = true then
      (if player.guild.isSome = true then c.getOrCreate k lua player k.CHANNEL_GUILD
        else ([], c)).2.getOrCreate k lua player k.CHANNEL_PARTY
    else ([], (if player.guild.isSome = true then c.getOrCreate k lua player k.CHANNEL_GUILD
        else ([], c)).2)).2.GuildNoSpeakHook
  split
  · exact getOrCreate_guildNoSpeakHook k lua _ player _ hg
  · exact hg

theorem addUserToChannel_guildNoSpeakHook (k : Consts) (lua : LuaScriptInterface) (c : Chat)
    (player : Player) (id : Nat) (h : c.GuildNoSpeakHook) :
    (c.addUserToChannel k lua player id).2.1.GuildNoSpeakHook := by
  unfold Chat.addUserToChannel
  cases hget : c.getChannel k lua player id with
  | none => exact h
  | some p =>
    have hset : (c.setBase p (p.base.addUser k lua player).2.1).GuildNoSpeakHook := by
      apply setBase_guildNoSpeakHook c p _ h
      intro g old hp
      subst hp
      rw [(addUser_fields k lua _ player).2]
      exact h _ (getChannel_guild_mem k lua c player id g old hget)
    dsimp only
    split <;> exact hset

theorem removeUserFromChannel_guildNoSpeakHook (k : Consts) (lua : LuaScriptInterface)
    (c : Chat) (player : Player) (id : Nat) (h : c.GuildNoSpeakHook) :
    (c.removeUserFromChannel k lua player id).2.1.GuildNoSpeakHook := by
  unfold Chat.removeUserFromChannel
  cases hget : c.getChannel k lua player id with
  | none => exact h
  | some p =>
    have hset : (c.setBase p (p.base.removeUser lua player).2.1).GuildNoSpeakHook := by
      apply setBase_guildNoSpeakHook c p _ h
      intro g old hp
      subst hp
      rw [(removeUser_fields lua _ player).2]
      exact h _ (getChannel_guild_mem k lua c player id g old hget)
    dsimp only
    repeat' split
    all_goals first
      | exact hset
      | exact deleteChannel_guildNoSpeakHook k _ player id hset

theorem removeUserFromEach_onSpeakEvent (lua : LuaScriptInterface) (player : Player)
    (m : List (Nat × ChatChannel)) (h : ∀ it ∈ m, it.2.onSpeakEvent = -1) :
    ∀ it ∈ (removeUserFromEach lua player m).1, it.2.onSpeakEvent = -1 := by
  induction m with
  | nil =>
    intro it hit
    simp [removeUserFromEach] at hit
  | cons hd tl ih =>
    intro it hit
    unfold removeUserFromEach at hit
    dsimp only at hit
    rcases List.mem_cons.1 hit with h1 | h1
    · rw [h1]
      show (hd.2.removeUser lua player).2.1.onSpeakEvent = -1
      rw [(removeUser_fields lua _ player).2]
      exact h hd (List.mem_cons_self _ _)
    · exact ih (fun x hx => h x (List.mem_cons_of_mem _ hx)) it h1

theorem removeUserFromPrivate_guildNoSpeakHook (k : Consts) (lua : LuaScriptInterface)
    (player : Player) (keys : List Nat) :
    ∀ c : Chat, c.GuildNoSpeakHook →
      (Chat.removeUserFromPrivate k lua player keys c).1.GuildNoSpeakHook := by
  induction keys with
  | nil =>
    intro c h
    exact h
  | cons key rest ih =>
    intro c h
    unfold Chat.removeUserFromPrivate
    dsimp only
    repeat' split
    · exact ih c h
    · apply ih
      apply deleteChannel_guildNoSpeakHook
      exact setBase_guildNoSpeakHook c _ _ h (fun g old hp => by cases hp)
    · apply ih
      exact setBase_guildNoSpeakHook c _ _ h (fun g old hp => by cases hp)

theorem step_guildNoSpeakHook (k : Consts) (lua : LuaScriptInterface) (c : Chat) (op : Op)
    (h : c.GuildNoSpeakHook) : (c.step k lua op).GuildNoSpeakHook := by
  cases op with
  | createChannel player id => exact createChannel_guildNoSpeakHook k lua c player id h
  | deleteChannel player id => exact deleteChannel_guildNoSpeakHook k c player id h
  | addUserToChannel player id => exact addUserToChannel_guildNoSpeakHook k lua c player id h
  | removeUserFromChannel player id =>
    exact removeUserFromChannel_guildNoSpeakHook k lua c player id h
  | removeUserFromAllChannels player =>
    show (c.removeUserFromAllChannels k lua player).1.GuildNoSpeakHook
    unfold Chat.removeUserFromAllChannels
    apply removeUserFromPrivate_guildNoSpeakHook
    exact removeUserFromEach_onSpeakEvent lua player c.guildChannels h
  | getChannelList player => exact getChannelList_guildNoSpeakHook k lua c player h
  | invitePlayer id a b => exact h
  | excludePlayer id a b => exact h

theorem reachable_guildNoSpeakHook (k : Consts) (c0 c : Chat) (h0 : c0.GuildNoSpeakHook)
    (h : Reachable k c0 c) : c.GuildNoSpeakHook := by
  induction h with
  | start => exact h0
  | next lua op c _ ih => exact step_guildNoSpeakHook k lua c op ih

theorem getChannel_private_none (k : Consts) (lua : LuaScriptInterface) (c0 c : Chat)
    (player : Player) (hd : k.Distinct) (hn : c.normalChannels = c0.normalChannels)
    (h0 : c0.getChannel k lua player k.CHANNEL_PRIVATE = none)
    (hinv : ∀ it ∈ c.privateChannels, it.2.isInvited player = false) :
    c.getChannel k lua player k.CHANNEL_PRIVATE = none := by
  obtain ⟨_, h2, h3⟩ := hd
  have hg : ¬ k.CHANNEL_PRIVATE = k.CHANNEL_GUILD := fun e => h2 e.symm
  have hp : ¬ k.CHANNEL_PRIVATE = k.CHANNEL_PARTY := fun e => h3 e.symm
  unfold Chat.getChannel at h0 ⊢
  simp only [hg, hp, if_false, hn] at h0 ⊢
  cases hs : mapFind c0.normalChannels k.CHANNEL_PRIVATE with
  | some channel =>
    simp only [hs] at h0 ⊢
    exact h0
  | none =>
    simp only [hs]
    cases hq : mapFind c.privateChannels k.CHANNEL_PRIVATE with
    | none => rfl
    | some channel =>
      have := hinv _ (mapFind_some_mem _ _ _ hq)
      simp at this
      simp [this]

theorem isInvited_false_of (channel : PrivateChatChannel) (player : Player)
    (h1 : channel.m_invites = []) (h2 : channel.getOwner ≠ player.guid) :
    channel.isInvited player = false := by
  have h3 : ¬ player.guid = channel.getOwner := fun e => h2 e.symm
  simp [PrivateChatChannel.isInvited, h1, h3, mapFind]

theorem poolFilled_insert (n : Nat) (guids : List Nat)
    (pool : List (Nat × PrivateChatChannel)) (player : Player)
    (h : PoolFilled n guids pool) :
    PoolFilled (n + 1) (guids ++ [player.guid])
      (mapInsert pool (100 + n) (newPrivateChannel (100 + n) player)) := by
  obtain ⟨ha, hb⟩ := h
  constructor
  · intro i
    by_cases hi : i = 100 + n
    · subst hi
      rw [mapFind_mapInsert_self]
      simp
    · rw [mapFind_mapInsert_ne _ _ _ _ hi, ha]
      omega
  · intro it hit
    rcases mem_mapInsert _ _ _ _ hit with h | h
    · subst h
      simp [newPrivateChannel, PrivateChatChannel.setOwner, PrivateChatChannel.new,
        PrivateChatChannel.getOwner]
    · obtain ⟨h1, h2⟩ := hb it h
      exact ⟨h1, List.mem_append_left _ h2⟩

theorem createPrivateEach_filled (k : Consts) (lua : LuaScriptInterface) (c0 : Chat)
    (hd : k.Distinct) (players : List Player) :
    ∀ (c : Chat) (n : Nat) (guids : List Nat),
      c.normalChannels = c0.normalChannels →
      PoolFilled n guids c.privateChannels →
      n + players.length ≤ 9900 →
      (∀ p ∈ players, p.premium = true) →
      (∀ p ∈ players, c0.getChannel k lua p k.CHANNEL_PRIVATE = none) →
      (guids ++ players.map Player.guid).Nodup →
      (Chat.createPrivateEach k lua c players).1 =
          (List.range' (100 + n) players.length).map some ∧
        (Chat.createPrivateEach k lua c players).2.normalChannels = c0.normalChannels ∧
        PoolFilled (n + players.length) (guids ++ players.map Player.guid)
          (Chat.createPrivateEach k lua c players).2.privateChannels := by
  induction players with
  | nil =>
    intro c n guids hn hf _ _ _ _
    simpa [Chat.createPrivateEach, hn] using hf
  | cons p rest ih =>
    intro c n guids hn hf hlen hprem hres hnd
    have hpg : p.guid ∉ guids := by
      intro hmem
      have := (List.nodup_append.1 hnd).2.2
      exact this hmem (by simp)
    have hown : ∀ it ∈ c.privateChannels, it.2.getOwner ≠ p.guid := by
      intro it hit e
      exact hpg (e ▸ (hf.2 it hit).2)
    have hinv : ∀ it ∈ c.privateChannels, it.2.isInvited p = false := fun it hit =>
      isInvited_false_of _ _ (hf.2 it hit).1 (hown it hit)
    have hres' := getChannel_private_none k lua c0 c p hd hn
      (hres p (List.mem_cons_self _ _)) hinv
    have hlen' : n + (rest.length + 1) ≤ 9900 := by simpa using hlen
    have hfree : mapFind c.privateChannels (100 + n) = none := by
      cases hm : mapFind c.privateChannels (100 + n) with
      | none => rfl
      | some v =>
        have := (hf.1 (100 + n)).1 (by simp [hm])
        omega
    have hbelow : ∀ m, 100 ≤ m → m < 100 + n →
        (mapFind c.privateChannels m).isSome = true := fun m h1 h2 => (hf.1 m).2 ⟨h1, h2⟩
    have hcreate := createChannel_private_first_fit k lua c p hd hres'
      (hprem p (List.mem_cons_self _ _)) hown (100 + n) (by omega) (by omega) hfree hbelow
    have hnd' : ((guids ++ [p.guid]) ++ rest.map Player.guid).Nodup := by
      simpa [List.append_assoc] using hnd
    have hrec := ih _ (n + 1) (guids ++ [p.guid])
      (show (c.createChannel k lua p k.CHANNEL_PRIVATE).2.normalChannels = c0.normalChannels by
        rw [hcreate]; exact hn)
      (by rw [hcreate]; exact poolFilled_insert n guids c.privateChannels p hf)
      (by omega)
      (fun q hq => hprem q (List.mem_cons_of_mem _ hq))
      (fun q hq => hres q (List.mem_cons_of_mem _ hq))
      hnd'
    obtain ⟨r1, r2, r3⟩ := hrec
    refine ⟨?_, ?_, ?_⟩
    · simp only [Chat.createPrivateEach, List.length_cons]
      rw [r1, hcreate]
      simp [List.range'_succ, ChannelPtr.getId, ChannelPtr.base, newPrivateChannel,
        PrivateChatChannel.setOwner, PrivateChatChannel.new, ChatChannel.new,
        Nat.add_assoc]
    · simpa [Chat.createPrivateEach] using r2
    · have e1 : n + (p :: rest).length = n + 1 + rest.length := by
        simp [List.length_cons]; omega
      have e2 : guids ++ (p :: rest).map Player.guid =
          (guids ++ [p.guid]) ++ rest.map Player.guid := by simp
      rw [e1, e2]
      simpa [Chat.createPrivateEach] using r3

theorem poolFilled_empty : PoolFilled 0 [] ([] : List (Nat × PrivateChatChannel)) := by
  constructor
  · intro i
    simp [mapFind]
  · intro it hit
    cases hit

/-- C1 (as stated, refuted): the pool of `clashChat` is empty and session 1 is premium,
yet `createChannel(session, CHANNEL_PRIVATE)` returns no channel instead of channel 100,
because the reserved private id resolves to a static channel. -/
theorem C1_counterexample :
    clashChat.privateChannels = [] ∧ (premiumPlayer 1).premium = true ∧
      (Chat.createPrivateEach sampleConsts luaAllow clashChat [premiumPlayer 1]).1 = [none] ∧
      (Chat.createPrivateEach sampleConsts luaAllow clashChat [premiumPlayer 1]).1 ≠
        [some 100] := by
  decide

/-- C1 (amended): from a registry with an empty invite-only pool, `N <= 9900` premium
sessions with pairwise distinct identities, for none of whom the reserved private id
resolves, create channels with the ids 100, 101, ..., 99+N in that order; and when
channel 101 is then deleted (N >= 2, 101 not being the reserved guild or party id) and a
premium session that owns no channel, for whom the private id does not resolve either,
creates a channel, that channel has id 101. -/
theorem C1_sequential_ids (k : Consts) (lua : LuaScriptInterface) (c0 : Chat)
    (players : List Player) (hd : k.Distinct) (hpool : c0.privateChannels = [])
    (hN : players.length ≤ 9900) (hprem : ∀ p ∈ players, p.premium = true)
    (hdist : (players.map Player.guid).Nodup)
    (hres : ∀ p ∈ players, c0.getChannel k lua p k.CHANNEL_PRIVATE = none) :
    (Chat.createPrivateEach k lua c0 players).1 =
        (List.range' 100 players.length).map some ∧
      ∀ (deleter further : Player), 2 ≤ players.length →
        k.CHANNEL_GUILD ≠ 101 → k.CHANNEL_PARTY ≠ 101 →
        further.premium = true →
        (∀ it ∈ ((Chat.createPrivateEach k lua c0 players).2.deleteChannel k deleter
            101).2.1.privateChannels, it.2.getOwner ≠ further.guid) →
        c0.getChannel k lua further k.CHANNEL_PRIVATE = none →
        ((Chat.createPrivateEach k lua c0 players).2.deleteChannel k deleter 101).1 = true ∧
          ((((Chat.createPrivateEach k lua c0 players).2.deleteChannel k deleter
            101).2.1.createChannel k lua further k.CHANNEL_PRIVATE).1.map
              ChannelPtr.getId) = some 101 := by
  have hfill := createPrivateEach_filled k lua c0 hd players c0 0 [] rfl
    (by rw [hpool]; exact poolFilled_empty) (by omega) hprem hres (by simpa using hdist)
  obtain ⟨r1, r2, r3⟩ := hfill
  refine ⟨by simpa using r1, ?_⟩
  intro deleter further h2 hg hp hfp hfown hfres
  generalize (Chat.createPrivateEach k lua c0 players).2 = c1 at r2 r3 hfown ⊢
  simp only [Nat.zero_add, List.nil_append] at r3
  obtain ⟨ha, hb⟩ := r3
  have h101 : (mapFind c1.privateChannels 101).isSome = true := (ha 101).2 ⟨by omega, by omega⟩
  have h100 : (mapFind c1.privateChannels 100).isSome = true := (ha 100).2 ⟨by omega, by omega⟩
  obtain ⟨ch, hch⟩ := Option.isSome_iff_exists.1 h101
  have hg' : ¬ (101 : Nat) = k.CHANNEL_GUILD := fun e => hg e.symm
  have hp' : ¬ (101 : Nat) = k.CHANNEL_PARTY := fun e => hp e.symm
  have hdel : c1.deleteChannel k deleter 101 =
      (true, { c1 with privateChannels := mapErase c1.privateChannels 101 },
        ch.closeChannel) := by
    simp [Chat.deleteChannel, hg', hp', hch]
  rw [hdel] at hfown ⊢
  refine ⟨rfl, ?_⟩
  simp only at hfown ⊢
  have hinv : ∀ it ∈ mapErase c1.privateChannels 101, it.2.isInvited further = false := by
    intro it hit
    exact isInvited_false_of _ _ (hb it ((mapErase_sublist _ _).subset hit)).1 (hfown it hit)
  have hres' := getChannel_private_none k lua c0
    { c1 with privateChannels := mapErase c1.privateChannels 101 } further hd r2 hfres hinv
  have hcreate := createChannel_private_first_fit k lua
    { c1 with privateChannels := mapErase c1.privateChannels 101 } further hd hres' hfp
    hfown 101 (by omega) (by omega) (mapFind_mapErase_self _ _)
    (by
      intro n hn1 hn2
      have : n = 100 := by omega
      subst this
      show (mapFind (mapErase c1.privateChannels 101) 100).isSome = true
      rw [mapFind_mapErase_ne _ _ _ (by omega)]
      exact h100)
  rw [hcreate]
  simp [ChannelPtr.getId, ChannelPtr.base, newPrivateChannel, PrivateChatChannel.setOwner,
    PrivateChatChannel.new, ChatChannel.new]

/-- C1 (amended) instantiated: sessions 1, 2 and 3 create the channels 100, 101 and 102 on
a fresh registry; session 9 deletes channel 101 and session 4 then gets id 101. -/
theorem C1_sequential_ids_witness :
    (Chat.createPrivateEach sampleConsts luaAllow (Chat.new sampleConsts)
        [premiumPlayer 1, premiumPlayer 2, premiumPlayer 3]).1 =
        [some 100, some 101, some 102] ∧
      ((Chat.createPrivateEach sampleConsts luaAllow (Chat.new sampleConsts)
          [premiumPlayer 1, premiumPlayer 2, premiumPlayer 3]).2.deleteChannel sampleConsts
            (freePlayer 9) 101).1 = true ∧
      ((((Chat.createPrivateEach sampleConsts luaAllow (Chat.new sampleConsts)
          [premiumPlayer 1, premiumPlayer 2, premiumPlayer 3]).2.deleteChannel sampleConsts
            (freePlayer 9) 101).2.1.createChannel sampleConsts luaAllow (premiumPlayer 4)
              sampleConsts.CHANNEL_PRIVATE).1.map ChannelPtr.getId) = some 101 :=
  have h := C1_sequential_ids sampleConsts luaAllow (Chat.new sampleConsts)
    [premiumPlayer 1, premiumPlayer 2, premiumPlayer 3] (by decide) rfl (by decide)
    (by decide) (by decide) (by decide)
  ⟨h.1, h.2 (freePlayer 9) (premiumPlayer 4) (by decide) (by decide) (by decide) rfl
    (by decide) rfl⟩

/-- C2: for a premium session that owns no invite-only channel and for which the reserved
private id does not resolve, `createChannel(session, CHANNEL_PRIVATE)` returns absent
exactly when every id of `[100, 10000)` is a key of `privateChannels`; otherwise it returns
an invite-only channel whose id is the smallest id of that range that was not a key, whose
owner is the session, and which is registered under that id afterwards. -/
theorem C2_createChannel_lowest_free_id (k : Consts) (lua : LuaScriptInterface) (c : Chat)
    (player : Player) (hd : k.Distinct) (hprem : player.premium = true)
    (hown : ∀ it ∈ c.privateChannels, it.2.getOwner ≠ player.guid)
    (hres : c.getChannel k lua player k.CHANNEL_PRIVATE = none) :
    ((c.createChannel k lua player k.CHANNEL_PRIVATE).1 = none ↔
        ∀ i, 100 ≤ i → i < 10000 → (mapFind c.privateChannels i).isSome = true) ∧
      ∀ ptr, (c.createChannel k lua player k.CHANNEL_PRIVATE).1 = some ptr →
        ∃ i channel, ptr = ChannelPtr.priv i channel ∧ channel.id = i ∧
          100 ≤ i ∧ i < 10000 ∧ mapFind c.privateChannels i = none ∧
          (∀ n, 100 ≤ n → n < i → (mapFind c.privateChannels n).isSome = true) ∧
          channel.getOwner = player.guid ∧
          mapFind (c.createChannel k lua player k.CHANNEL_PRIVATE).2.privateChannels i =
            some channel := by
  rw [createChannel_private_eq k lua c player hd hres hprem hown]
  cases hf : findFreeSlot c.privateChannels (10000 - 100) 100 with
  | none =>
    refine ⟨⟨fun _ => findFreeSlot_none c.privateChannels _ _ (by norm_num) hf, fun _ => rfl⟩,
      ?_⟩
    intro ptr h
    simp at h
  | some i =>
    obtain ⟨ha, hb, hc, he⟩ := findFreeSlot_some c.privateChannels _ _ _ hf
    refine ⟨⟨fun h => by simp at h, fun h => ?_⟩, ?_⟩
    · have := h i ha hb
      simp [hc] at this
    · intro ptr h
      simp only [Option.some.injEq] at h
      refine ⟨i, newPrivateChannel i player, h.symm, rfl, ha, hb, hc, he, rfl, ?_⟩
      exact mapFind_mapInsert_self _ _ _

/-- C2 instantiated: session 3 on the registry holding the channels 100 and 101. -/
theorem C2_createChannel_lowest_free_id_witness :
    ((sampleChat.createChannel sampleConsts luaAllow (premiumPlayer 3)
          sampleConsts.CHANNEL_PRIVATE).1 = none ↔
        ∀ i, 100 ≤ i → i < 10000 → (mapFind sampleChat.privateChannels i).isSome = true) ∧
      ∀ ptr, (sampleChat.createChannel sampleConsts luaAllow (premiumPlayer 3)
          sampleConsts.CHANNEL_PRIVATE).1 = some ptr →
        ∃ i channel, ptr = ChannelPtr.priv i channel ∧ channel.id = i ∧
          100 ≤ i ∧ i < 10000 ∧ mapFind sampleChat.privateChannels i = none ∧
          (∀ n, 100 ≤ n → n < i → (mapFind sampleChat.privateChannels n).isSome = true) ∧
          channel.getOwner = (premiumPlayer 3).guid ∧
          mapFind (sampleChat.createChannel sampleConsts luaAllow (premiumPlayer 3)
            sampleConsts.CHANNEL_PRIVATE).2.privateChannels i = some channel :=
  C2_createChannel_lowest_free_id sampleConsts luaAllow sampleChat (premiumPlayer 3)
    (by decide) rfl (by decide) (by decide)

/-- C9: for a session that is not premium, or that already owns an invite-only channel,
`createChannel(session, CHANNEL_PRIVATE)` returns absent and the registry afterwards is
the registry before; in particular the keys of `privateChannels` are the same. -/
theorem C9_createChannel_refused_unchanged (k : Consts) (lua : LuaScriptInterface) (c : Chat)
    (player : Player) (hd : k.Distinct)
    (h : player.premium = false ∨ ∃ it ∈ c.privateChannels, it.2.getOwner = player.guid) :
    c.createChannel k lua player k.CHANNEL_PRIVATE = (none, c) ∧
      mapKeys (c.createChannel k lua player k.CHANNEL_PRIVATE).2.privateChannels =
        mapKeys c.privateChannels := by
  obtain ⟨_, h2, h3⟩ := hd
  have hg : ¬ k.CHANNEL_PRIVATE = k.CHANNEL_GUILD := fun e => h2 e.symm
  have hp : ¬ k.CHANNEL_PRIVATE = k.CHANNEL_PARTY := fun e => h3 e.symm
  have hcond : (!player.premium || (c.getPrivateChannel player).isSome) = true := by
    rcases h with h | h
    · simp [h]
    · simp [(getPrivateChannel_isSome_iff c player).2 h]
  have hmain : c.createChannel k lua player k.CHANNEL_PRIVATE = (none, c) := by
    unfold Chat.createChannel
    by_cases hres : (c.getChannel k lua player k.CHANNEL_PRIVATE).isSome = true
    · simp only [hres, if_true]
    · simp [hres, hg, hp, hcond]
  exact ⟨hmain, by rw [hmain]⟩

/-- C9 instantiated: a session without premium, and session 1 who already owns
channel 100, on the registry holding the channels 100 and 101. -/
theorem C9_createChannel_refused_unchanged_witness :
    (sampleChat.createChannel sampleConsts luaAllow (freePlayer 7)
        sampleConsts.CHANNEL_PRIVATE = (none, sampleChat) ∧
      mapKeys (sampleChat.createChannel sampleConsts luaAllow (freePlayer 7)
        sampleConsts.CHANNEL_PRIVATE).2.privateChannels = [100, 101]) ∧
    (sampleChat.createChannel sampleConsts luaAllow (premiumPlayer 1)
        sampleConsts.CHANNEL_PRIVATE = (none, sampleChat) ∧
      mapKeys (sampleChat.createChannel sampleConsts luaAllow (premiumPlayer 1)
        sampleConsts.CHANNEL_PRIVATE).2.privateChannels = [100, 101]) :=
  ⟨C9_createChannel_refused_unchanged sampleConsts luaAllow sampleChat (freePlayer 7)
      (by decide) (Or.inl rfl),
    C9_createChannel_refused_unchanged sampleConsts luaAllow sampleChat (premiumPlayer 1)
      (by decide) (Or.inr (by decide))⟩

/-- C10: for an id other than the reserved guild and party ids, `getChannel(s, id)` is the
static channel with that id when one exists and its `canJoin` evaluation allows `s` (a
channel without `canJoin` hook allows everybody) and absent when it rejects `s`; when no
static channel has the id, it is the invite-only channel registered under the id when
`isInvited(s)` holds for it, and absent otherwise.  With the static channels 5 (no hooks)
and 6 (`canJoin` rejecting session 42), resolving 6 for session 42 is absent and
resolving 5 gives channel 5. -/
theorem C10_getChannel_static_then_invite_only (k : Consts) (lua : LuaScriptInterface)
    (c : Chat) (s : Player) (id : Nat) (hg : id ≠ k.CHANNEL_GUILD)
    (hp : id ≠ k.CHANNEL_PARTY) :
    (∀ channel, mapFind c.normalChannels id = some channel →
        (channel.executeCanJoinEvent lua s = true →
          c.getChannel k lua s id = some (ChannelPtr.normal id channel)) ∧
        (channel.executeCanJoinEvent lua s = false → c.getChannel k lua s id = none) ∧
        (channel.canJoinEvent = -1 → channel.executeCanJoinEvent lua s = true)) ∧
      (mapFind c.normalChannels id = none →
        (∀ channel, mapFind c.privateChannels id = some channel →
          (channel.isInvited s = true →
            c.getChannel k lua s id = some (ChannelPtr.priv id channel)) ∧
          (channel.isInvited s = false → c.getChannel k lua s id = none)) ∧
        (mapFind c.privateChannels id = none → c.getChannel k lua s id = none)) ∧
      (staticChat.getChannel sampleConsts luaReject42 (freePlayer 42) 6 = none ∧
        (staticChat.getChannel sampleConsts luaReject42 (freePlayer 42) 5).map
          ChannelPtr.getId = some 5 ∧
        staticChat.getChannel sampleConsts luaReject42 (freePlayer 42) 5 =
          (mapFind staticChat.normalChannels 5).map (ChannelPtr.normal 5)) := by
  refine ⟨?_, ?_, by decide⟩
  · intro channel hch
    refine ⟨?_, ?_, ?_⟩
    · intro h
      simp [Chat.getChannel, hg, hp, hch, h]
    · intro h
      simp [Chat.getChannel, hg, hp, hch, h]
    · intro h
      simp [ChatChannel.executeCanJoinEvent, h]
  · intro hn
    refine ⟨?_, ?_⟩
    · intro channel hch
      refine ⟨?_, ?_⟩
      · intro h
        simp [Chat.getChannel, hg, hp, hn, hch, h]
      · intro h
        simp [Chat.getChannel, hg, hp, hn, hch, h]
    · intro h
      simp [Chat.getChannel, hg, hp, hn, h]

/-- C10 instantiated: channel 6 for session 42 under a `canJoin` hook that rejects 42. -/
theorem C10_getChannel_static_then_invite_only_witness :
    6 ≠ sampleConsts.CHANNEL_GUILD ∧ 6 ≠ sampleConsts.CHANNEL_PARTY ∧
      staticChat.getChannel sampleConsts luaReject42 (freePlayer 42) 6 = none :=
  ⟨by decide, by decide,
    ((C10_getChannel_static_then_invite_only sampleConsts luaReject42 staticChat
      (freePlayer 42) 6 (by decide) (by decide)).1
        { users := [], name := "Staff", canJoinEvent := 3, onJoinEvent := -1,
          onLeaveEvent := -1, onSpeakEvent := -1, id := 6, publicChannel := false }
        (by decide)).2.1 (by decide)⟩

/-- C3: in every registry reached from one with an empty invite-only pool by calls of
`createChannel`, `deleteChannel`, `addUserToChannel`, `removeUserFromChannel`,
`removeUserFromAllChannels` (and `getChannelList`, `invitePlayer`, `excludePlayer`), the
owners of the entries of `privateChannels` are pairwise different: two entries with the
same owner are the same entry, and two keys whose channels have the same owner are the
same key. -/
theorem C3_one_invite_only_channel_per_owner (k : Consts) (c0 c : Chat)
    (h0 : c0.privateChannels = []) (h : Reachable k c0 c) :
    (poolOwners c.privateChannels).Nodup ∧
      (∀ a ∈ c.privateChannels, ∀ b ∈ c.privateChannels,
        a.2.getOwner = b.2.getOwner → a = b) ∧
      ∀ i j ci cj, mapFind c.privateChannels i = some ci →
        mapFind c.privateChannels j = some cj → ci.getOwner = cj.getOwner → i = j := by
  have hnd : (poolOwners c.privateChannels).Nodup :=
    reachable_ownersDistinct k c0 c (by simp [Chat.OwnersDistinct, poolOwners, h0]) h
  have hinj : ∀ a ∈ c.privateChannels, ∀ b ∈ c.privateChannels,
      a.2.getOwner = b.2.getOwner → a = b := by
    intro a ha b hb hab
    exact List.inj_on_of_nodup_map hnd ha hb hab
  refine ⟨hnd, hinj, ?_⟩
  intro i j ci cj hi hj hij
  have := hinj _ (mapFind_some_mem _ _ _ hi) _ (mapFind_some_mem _ _ _ hj) hij
  exact congrArg Prod.fst this

/-- C3 instantiated: the registry after sessions 1 and 2 created their channels and
session 1 tried to create a second one. -/
theorem C3_one_invite_only_channel_per_owner_witness :
    poolOwners ((((Chat.new sampleConsts).step sampleConsts luaAllow
        (Op.createChannel (premiumPlayer 1) 65535)).step sampleConsts luaAllow
        (Op.createChannel (premiumPlayer 2) 65535)).step sampleConsts luaAllow
        (Op.createChannel (premiumPlayer 1) 65535)).privateChannels = [1, 2] ∧
      (poolOwners ((((Chat.new sampleConsts).step sampleConsts luaAllow
        (Op.createChannel (premiumPlayer 1) 65535)).step sampleConsts luaAllow
        (Op.createChannel (premiumPlayer 2) 65535)).step sampleConsts luaAllow
        (Op.createChannel (premiumPlayer 1) 65535)).privateChannels).Nodup :=
  ⟨by decide,
    (C3_one_invite_only_channel_per_owner sampleConsts (Chat.new sampleConsts) _ rfl
      (Reachable.next luaAllow (Op.createChannel (premiumPlayer 1) 65535) _
        (Reachable.next luaAllow (Op.createChannel (premiumPlayer 2) 65535) _
          (Reachable.next luaAllow (Op.createChannel (premiumPlayer 1) 65535) _
            Reachable.start)))).1⟩

/-- C8: in every registry reached from one without guild channels, when a session with
guild level above 1 is a member of the channel of its guild, `talkToChannel` on the
reserved guild id succeeds and every delivery (one per member) carries the class
`SPEAK_CHANNEL_O`, whatever class `t` was requested. -/
theorem C8_guild_officer_class (k : Consts) (lua : LuaScriptInterface) (c0 c : Chat)
    (s : Player) (t : Nat) (text : String) (g : Guild) (channel : ChatChannel)
    (h0 : c0.guildChannels = []) (hreach : Reachable k c0 c) (hlevel : s.guildLevel > 1)
    (hguild : s.guild = some g) (hch : mapFind c.guildChannels g.id = some channel)
    (hmem : (mapFind channel.users s.id).isSome = true) :
    c.talkToChannel k lua s t text k.CHANNEL_GUILD =
      (true, channel.users.map
        (fun it => Output.sendToChannel it.2 s k.SPEAK_CHANNEL_O text channel.id)) := by
  have hinv : c.GuildNoSpeakHook :=
    reachable_guildNoSpeakHook k c0 c (by intro it hit; rw [h0] at hit; cases hit) hreach
  have hhook : channel.onSpeakEvent = -1 := hinv _ (mapFind_some_mem _ _ _ hch)
  have hget : c.getChannel k lua s k.CHANNEL_GUILD = some (ChannelPtr.guild g.id channel) := by
    simp [Chat.getChannel, hguild, hch]
  have hmem' : (mapFind channel.users s.id).isNone = false := by
    cases hx : mapFind channel.users s.id with
    | none => simp [hx] at hmem
    | some v => rfl
  unfold Chat.talkToChannel
  rw [hget]
  simp [ChannelPtr.base, ChatChannel.executeOnSpeakEvent, hhook, hlevel, ChatChannel.talk,
    hmem']

/-- C8 instantiated: the officer of guild 7 asks for class 1 in the channel of the guild. -/
theorem C8_guild_officer_class_witness :
    guildChat.talkToChannel sampleConsts luaAllow officer 1 "hello"
        sampleConsts.CHANNEL_GUILD =
      (true, [Output.sendToChannel officer officer 8 "hello" 0]) :=
  C8_guild_officer_class sampleConsts luaAllow (Chat.new sampleConsts) guildChat officer 1
    "hello" { id := 7, name := "Knights", motd := "" }
    { users := [(5, officer)], name := "Knights", canJoinEvent := -1, onJoinEvent := -1,
      onLeaveEvent := -1, onSpeakEvent := -1, id := 0, publicChannel := false }
    rfl (Reachable.next luaAllow _ _ (Reachable.next luaAllow _ _ Reachable.start))
    (by decide) rfl (by decide) (by decide)

/-! ## Joining, leaving and inviting -/

theorem removeUser_users_ne (lua : LuaScriptInterface) (c : ChatChannel) (p : Player)
    (j : Nat) (h : j ≠ p.id) :
    mapFind (c.removeUser lua p).2.1.users j = mapFind c.users j := by
  unfold ChatChannel.removeUser
  by_cases hm : (mapFind c.users p.id).isNone = true
  · simp [hm]
  · simp [hm, mapFind_mapErase_ne _ _ _ h]

theorem closeSignals_closePrivate (users : List (Nat × Player)) (i : Nat) :
    closeSignals (users.map (fun it => Output.sendClosePrivate it.2 i)) =
      users.map (fun it => (it.2, i)) := by
  induction users with
  | nil => rfl
  | cons x xs ih => simp [closeSignals, ih]

theorem getChannel_normal_canJoin (k : Consts) (lua : LuaScriptInterface) (c : Chat)
    (player : Player) (id i : Nat) (ch : ChatChannel)
    (h : c.getChannel k lua player id = some (ChannelPtr.normal i ch)) :
    i = id ∧ mapFind c.normalChannels i = some ch ∧
      ch.executeCanJoinEvent lua player = true := by
  unfold Chat.getChannel at h
  by_cases hg : id = k.CHANNEL_GUILD
  · rw [if_pos hg] at h
    cases hgd : player.guild with
    | none => simp [hgd] at h
    | some guild =>
      cases hf : mapFind c.guildChannels guild.id <;> simp [hgd, hf] at h
  · rw [if_neg hg] at h
    by_cases hp : id = k.CHANNEL_PARTY
    · rw [if_pos hp] at h
      cases hpd : player.party with
      | none => simp [hpd] at h
      | some party =>
        cases hf : mapFind c.partyChannels party <;> simp [hpd, hf] at h
    · rw [if_neg hp] at h
      cases hn : mapFind c.normalChannels id with
      | some ch0 =>
        by_cases hc : ch0.executeCanJoinEvent lua player = true
        · simp only [hn, hc, Bool.not_true, Bool.false_eq_true, if_false,
            Option.some.injEq, ChannelPtr.normal.injEq] at h
          rw [← h.1, ← h.2]
          exact ⟨rfl, hn, hc⟩
        · simp [hn, hc] at h
      | none =>
        cases hq : mapFind c.privateChannels id with
        | none => simp [hn, hq] at h
        | some pc =>
          by_cases hi : pc.isInvited player = true <;> simp [hn, hq, hi] at h

/-- C11 (as stated, refuted): the `canJoin` hook of the static channel 6 rejects
session 42, who is not a member, and yet `addUser` returns true and stores the session. -/
theorem C11_counterexample :
    mapFind staticChat.normalChannels 6 = some staffChannel ∧
      staffChannel.executeCanJoinEvent luaReject42 (freePlayer 42) = false ∧
      (staffChannel.addUser sampleConsts luaReject42 (freePlayer 42)).1 = true ∧
      mapFind (staffChannel.addUser sampleConsts luaReject42 (freePlayer 42)).2.1.users 42 =
        some (freePlayer 42) := by
  decide

/-- C11 (amended): `addUser(s)` returns false, leaves the channel as it was and delivers
nothing whenever `s` is already a member or the `onJoin` hook rejects `s`; the `canJoin`
hook is not evaluated by `addUser` but by `Chat::getChannel` when it resolves an id in the
static channels.  So for a static channel whose `canJoin` rejects `s` and which is
registered under an id that is neither the reserved guild id nor the reserved party id,
`Chat::addUserToChannel(s, id)` returns absent and leaves the registry as it was; and
whatever id `Chat::addUserToChannel` is called with, it leaves every static channel whose
`canJoin` rejects `s` as it was, so `s` does not become a member of it. -/
theorem C11_addUser_refusals (k : Consts) (lua : LuaScriptInterface) (c : ChatChannel)
    (s : Player) :
    ((mapFind c.users s.id).isSome = true → c.addUser k lua s = (false, c, [])) ∧
      (c.executeOnJoinEvent lua s = false → c.addUser k lua s = (false, c, [])) ∧
      (∀ (reg : Chat) (id : Nat), id ≠ k.CHANNEL_GUILD → id ≠ k.CHANNEL_PARTY →
        mapFind reg.normalChannels id = some c → c.executeCanJoinEvent lua s = false →
        reg.addUserToChannel k lua s id = (none, reg, [])) ∧
      ∀ (reg : Chat) (id i : Nat), mapFind reg.normalChannels i = some c →
        c.executeCanJoinEvent lua s = false →
        mapFind (reg.addUserToChannel k lua s id).2.1.normalChannels i = some c := by
  refine ⟨?_, ?_, ?_, ?_⟩
  · intro h
    simp [ChatChannel.addUser, h]
  · intro h
    unfold ChatChannel.addUser
    by_cases hm : (mapFind c.users s.id).isSome = true
    · rw [if_pos hm]
    · rw [if_neg hm]
      simp [h]
  · intro reg id hg hp hc hj
    have hget : reg.getChannel k lua s id = none := by
      simp [Chat.getChannel, hg, hp, hc, hj]
    unfold Chat.addUserToChannel
    rw [hget]
  · intro reg id i hc hj
    unfold Chat.addUserToChannel
    cases hget : reg.getChannel k lua s id with
    | none => exact hc
    | some ptr =>
      have hreg : mapFind (reg.setBase ptr (ptr.base.addUser k lua s).2.1).normalChannels i =
          some c := by
        cases ptr with
        | normal j ch =>
          obtain ⟨_, hfind, hjoin⟩ := getChannel_normal_canJoin k lua reg s id j ch hget
          have hne : i ≠ j := by
            intro e
            rw [e, hfind] at hc
            rw [Option.some.inj hc, hj] at hjoin
            cases hjoin
          show mapFind (mapModify reg.normalChannels j
            (fun _ => (ch.addUser k lua s).2.1)) i = some c
          rw [mapFind_mapModify, if_neg hne]
          exact hc
        | guild g ch => exact hc
        | party q ch => exact hc
        | priv j ch => exact hc
        | dummy ch => exact hc
      dsimp only
      split <;> exact hreg

/-- C12: `removeUser(s)` returns true exactly when `s` was a member; then `s` is no longer
a member and the entry of every other member is kept; when it returns false the channel
is as it was; and nothing of this depends on the interpreter, so not on what the
`onLeave` hook returns or on whether it can run. -/
theorem C12_removeUser_iff_member (lua : LuaScriptInterface) (c : ChatChannel)
    (s : Player) :
    ((c.removeUser lua s).1 = true ↔ (mapFind c.users s.id).isSome = true) ∧
      ((c.removeUser lua s).1 = true →
        mapFind (c.removeUser lua s).2.1.users s.id = none ∧
          ∀ j, j ≠ s.id → mapFind (c.removeUser lua s).2.1.users j = mapFind c.users j) ∧
      ((c.removeUser lua s).1 = false → (c.removeUser lua s).2.1 = c) ∧
      ∀ lua1 : LuaScriptInterface, c.removeUser lua1 s = c.removeUser lua s := by
  refine ⟨?_, ?_, ?_, ?_⟩
  · unfold ChatChannel.removeUser
    cases hm : mapFind c.users s.id <;> simp
  · intro _
    exact ⟨removeUser_not_member lua c s, fun j hj => removeUser_users_ne lua c s j hj⟩
  · unfold ChatChannel.removeUser
    cases hm : mapFind c.users s.id <;> simp
  · intro lua1
    rfl

/-- C13: when `b` is not in the invitation registry, `invitePlayer(a, b)` stores `b` in it
(so `isInvited(b)` holds), leaves the members as they were, and delivers, in this order,
one info text to `b`, one confirmation to `a`, and one INVITE event per member; when `b`
is in the registry already, `addInvited` returns false, the channel is as it was and
nothing is delivered. -/
theorem C13_invitePlayer_once (k : Consts) (c : PrivateChatChannel) (a b : Player) :
    (mapFind c.m_invites b.guid = none →
        mapFind (c.invitePlayer k a b).1.m_invites b.guid = some b ∧
        (c.invitePlayer k a b).1.isInvited b = true ∧
        (c.invitePlayer k a b).1.users = c.users ∧
        (c.invitePlayer k a b).2 =
          [Output.sendTextMessage b k.MSG_INFO_DESCR
              (a.name ++ " invites you to " ++
                (if a.sex = k.PLAYERSEX_FEMALE then "her" else "his") ++
                " private chat channel."),
            Output.sendTextMessage a k.MSG_INFO_DESCR (b.name ++ " has been invited.")] ++
          c.users.map (fun it =>
            Output.sendChannelEvent it.2 c.id b.name ChannelEvent.CHANNELEVENT_INVITE)) ∧
      ((mapFind c.m_invites b.guid).isSome = true →
        c.addInvited b = (false, c) ∧ c.invitePlayer k a b = (c, [])) := by
  refine ⟨?_, ?_⟩
  · intro h
    have hadd : c.addInvited b =
        (true, { c with m_invites := mapInsert c.m_invites b.guid b }) := by
      simp [PrivateChatChannel.addInvited, h]
    unfold PrivateChatChannel.invitePlayer
    rw [hadd]
    refine ⟨mapFind_mapInsert_self _ _ _, ?_, rfl, rfl⟩
    simp [PrivateChatChannel.isInvited, mapFind_mapInsert_self]
  · intro h
    have hadd : c.addInvited b = (false, c) := by
      simp [PrivateChatChannel.addInvited, h]
    refine ⟨hadd, ?_⟩
    unfold PrivateChatChannel.invitePlayer
    rw [hadd]

/-- C20: for an id that is neither the reserved guild id nor the reserved party id,
`deleteChannel` gives the same result, registry and deliveries for any two acting
sessions; when the id is a key of `privateChannels` it returns true and the id is no
longer a key afterwards; and the static channels are never altered. -/
theorem C20_deleteChannel_ignores_session (k : Consts) (c : Chat) (id : Nat) (p q : Player)
    (hg : id ≠ k.CHANNEL_GUILD) (hp : id ≠ k.CHANNEL_PARTY) :
    c.deleteChannel k p id = c.deleteChannel k q id ∧
      ((mapFind c.privateChannels id).isSome = true →
        (c.deleteChannel k p id).1 = true ∧
          mapFind (c.deleteChannel k p id).2.1.privateChannels id = none) ∧
      (c.deleteChannel k p id).2.1.normalChannels = c.normalChannels := by
  unfold Chat.deleteChannel
  rw [if_neg hg, if_neg hp, if_neg hg, if_neg hp]
  refine ⟨rfl, ?_, ?_⟩
  · intro h
    cases hc : mapFind c.privateChannels id with
    | none => simp [hc] at h
    | some channel => exact ⟨rfl, mapFind_mapErase_self _ _⟩
  · cases mapFind c.privateChannels id <;> rfl

/-- C20 instantiated: channel 101 of session 2, deleted by session 9 (neither owner nor
invited) and by its owner. -/
theorem C20_deleteChannel_ignores_session_witness :
    sampleChat.deleteChannel sampleConsts (freePlayer 9) 101 =
        sampleChat.deleteChannel sampleConsts (premiumPlayer 2) 101 ∧
      (sampleChat.deleteChannel sampleConsts (freePlayer 9) 101).1 = true ∧
      mapFind (sampleChat.deleteChannel sampleConsts (freePlayer 9) 101).2.1.privateChannels
        101 = none ∧
      (sampleChat.deleteChannel sampleConsts (freePlayer 9) 101).2.1.normalChannels =
        sampleChat.normalChannels :=
  have h := C20_deleteChannel_ignores_session sampleConsts sampleChat 101 (freePlayer 9)
    (premiumPlayer 2) (by decide) (by decide)
  ⟨h.1, (h.2.1 (by decide)).1, (h.2.1 (by decide)).2, h.2.2⟩

/-! ## Leaving and talking through the registry -/

theorem getChannel_private_of_invited (k : Consts) (lua : LuaScriptInterface) (c : Chat)
    (s : Player) (i : Nat) (ch : PrivateChatChannel) (hg : i ≠ k.CHANNEL_GUILD)
    (hp : i ≠ k.CHANNEL_PARTY) (hn : mapFind c.normalChannels i = none)
    (hc : mapFind c.privateChannels i = some ch) :
    c.getChannel k lua s i = if ch.isInvited s = true then some (ChannelPtr.priv i ch)
      else none := by
  simp [Chat.getChannel, hg, hp, hn, hc]

/-- C14: when the owner `o` of the invite-only channel registered under `i` (no static
channel having that id, `i` not being a reserved id) is a member, `removeUserFromChannel(o,
i)` returns true, `i` is no longer a key of `privateChannels`, and the channel-closed
signals of the call are exactly one for every member that remained after the removal of
`o`; for a session that is not the owner the channel stays registered under `i` with the
same owner and invitations and with the entries of all other members, and no
channel-closed signal is sent. -/
theorem C14_owner_leave_deletes_channel (k : Consts) (lua : LuaScriptInterface) (c : Chat)
    (o : Player) (i : Nat) (ch : PrivateChatChannel) (hg : i ≠ k.CHANNEL_GUILD)
    (hp : i ≠ k.CHANNEL_PARTY) (hn : mapFind c.normalChannels i = none)
    (hc : mapFind c.privateChannels i = some ch) (ho : o.guid = ch.getOwner)
    (hm : (mapFind ch.users o.id).isSome = true) :
    (c.removeUserFromChannel k lua o i).1 = true ∧
      mapFind (c.removeUserFromChannel k lua o i).2.1.privateChannels i = none ∧
      closeSignals (c.removeUserFromChannel k lua o i).2.2 =
        (mapErase ch.users o.id).map (fun it => (it.2, ch.id)) ∧
      ∀ m : Player, m.guid ≠ ch.getOwner →
        ∃ ch1, mapFind (c.removeUserFromChannel k lua m i).2.1.privateChannels i = some ch1 ∧
          ch1.getOwner = ch.getOwner ∧ ch1.m_invites = ch.m_invites ∧
          (∀ j, j ≠ m.id → mapFind ch1.users j = mapFind ch.users j) ∧
          closeSignals (c.removeUserFromChannel k lua m i).2.2 = [] := by
  have hmod : ∀ base : ChatChannel,
      mapFind (c.setBase (ChannelPtr.priv i ch) base).privateChannels i =
        some { ch with toChatChannel := base } := by
    intro base
    show mapFind (mapModify c.privateChannels i
      (fun old => ({ old with toChatChannel := base } : PrivateChatChannel))) i = _
    rw [mapFind_mapModify, if_pos rfl, hc]
    rfl
  have hinv : ch.isInvited o = true := by simp [PrivateChatChannel.isInvited, ho]
  have hget : c.getChannel k lua o i = some (ChannelPtr.priv i ch) := by
    rw [getChannel_private_of_invited k lua c o i ch hg hp hn hc, if_pos hinv]
  have hm' : (mapFind ch.users o.id).isNone = false := by
    cases hx : mapFind ch.users o.id with
    | none => simp [hx] at hm
    | some v => rfl
  have hrem : (ch.toChatChannel.removeUser lua o).1 = true := by
    simp [ChatChannel.removeUser, hm']
  have hown : (ChannelPtr.priv i ch).getOwner = o.guid := by
    simp [ChannelPtr.getOwner, ho]
  have hrun : c.removeUserFromChannel k lua o i =
      (true,
        ((c.setBase (ChannelPtr.priv i ch)
          (ch.toChatChannel.removeUser lua o).2.1).deleteChannel k o i).2.1,
        (ch.toChatChannel.removeUser lua o).2.2 ++
          ((c.setBase (ChannelPtr.priv i ch)
            (ch.toChatChannel.removeUser lua o).2.1).deleteChannel k o i).2.2) := by
    unfold Chat.removeUserFromChannel
    rw [hget]
    simp only [ChannelPtr.base, hrem, hown, Bool.not_true, Bool.false_eq_true, if_false,
      if_true]
  have hdel : (c.setBase (ChannelPtr.priv i ch)
        (ch.toChatChannel.removeUser lua o).2.1).deleteChannel k o i =
      (true,
        { (c.setBase (ChannelPtr.priv i ch) (ch.toChatChannel.removeUser lua o).2.1) with
          privateChannels := mapErase (c.setBase (ChannelPtr.priv i ch)
            (ch.toChatChannel.removeUser lua o).2.1).privateChannels i },
        ({ ch with toChatChannel := (ch.toChatChannel.removeUser lua o).2.1 } :
          PrivateChatChannel).closeChannel) := by
    unfold Chat.deleteChannel
    rw [if_neg hg, if_neg hp, hmod]
  refine ⟨?_, ?_, ?_, ?_⟩
  · rw [hrun]
  · rw [hrun, hdel]
    exact mapFind_mapErase_self _ _
  · rw [hrun, hdel]
    simp only [closeSignals_append, removeUser_closeSignals, List.nil_append,
      PrivateChatChannel.closeChannel, closeSignals_closePrivate,
      (removeUser_fields lua ch.toChatChannel o).1]
    simp [ChatChannel.removeUser, hm']
  · intro m hmo
    by_cases hinvm : ch.isInvited m = true
    · have hgetm : c.getChannel k lua m i = some (ChannelPtr.priv i ch) := by
        rw [getChannel_private_of_invited k lua c m i ch hg hp hn hc, if_pos hinvm]
      have hownm : ¬ (ChannelPtr.priv i ch).getOwner = m.guid := by
        intro e
        exact hmo (by simpa [ChannelPtr.getOwner] using e.symm)
      have hstate : (c.removeUserFromChannel k lua m i).2.1 =
            c.setBase (ChannelPtr.priv i ch) (ch.toChatChannel.removeUser lua m).2.1 ∧
          (c.removeUserFromChannel k lua m i).2.2 =
            (ch.toChatChannel.removeUser lua m).2.2 := by
        unfold Chat.removeUserFromChannel
        rw [hgetm]
        dsimp only [ChannelPtr.base]
        by_cases hr : (ch.toChatChannel.removeUser lua m).1 = true
        · simp [hr, hownm]
        · simp [hr]
      refine ⟨{ ch with toChatChannel := (ch.toChatChannel.removeUser lua m).2.1 }, ?_, rfl,
        rfl, ?_, ?_⟩
      · rw [hstate.1]
        exact hmod _
      · intro j hj
        exact removeUser_users_ne lua ch.toChatChannel m j hj
      · rw [hstate.2]
        exact removeUser_closeSignals lua _ m
    · have hgetm : c.getChannel k lua m i = none := by
        rw [getChannel_private_of_invited k lua c m i ch hg hp hn hc, if_neg hinvm]
      have hrunm : c.removeUserFromChannel k lua m i = (false, c, []) := by
        unfold Chat.removeUserFromChannel
        rw [hgetm]
      rw [hrunm]
      exact ⟨ch, hc, rfl, rfl, fun _ _ => rfl, rfl⟩

/-- C14 instantiated: session 1 leaves its channel 100, in which session 2 is a member. -/
theorem C14_owner_leave_deletes_channel_witness :
    (lobbyChat.removeUserFromChannel sampleConsts luaAllow (premiumPlayer 1) 100).1 = true ∧
      mapFind (lobbyChat.removeUserFromChannel sampleConsts luaAllow (premiumPlayer 1)
        100).2.1.privateChannels 100 = none ∧
      closeSignals (lobbyChat.removeUserFromChannel sampleConsts luaAllow (premiumPlayer 1)
        100).2.2 = [(freePlayer 2, 100)] :=
  have h := C14_owner_leave_deletes_channel sampleConsts luaAllow lobbyChat (premiumPlayer 1)
    100 lobbyChannel
    (by decide) (by decide) (by decide) (by decide) (by decide) (by decide)
  ⟨h.1, h.2.1, h.2.2.1⟩

/-- What `talkToChannel` does for an id that is none of the three reserved ids, on a channel
without `onSpeak` hook: the requested class is delivered as it is. -/
theorem talkToChannel_plain_id (k : Consts) (lua : LuaScriptInterface) (c : Chat)
    (s : Player) (t : Nat) (text : String) (i : Nat) (ptr : ChannelPtr)
    (hg : i ≠ k.CHANNEL_GUILD) (hp : i ≠ k.CHANNEL_PARTY) (hq : i ≠ k.CHANNEL_PRIVATE)
    (hget : c.getChannel k lua s i = some ptr) (hhook : ptr.base.onSpeakEvent = -1)
    (hm : (mapFind ptr.base.users s.id).isSome = true) :
    c.talkToChannel k lua s t text i =
      (true, ptr.base.users.map (fun it => Output.sendToChannel it.2 s t text ptr.base.id)) := by
  have hm' : (mapFind ptr.base.users s.id).isNone = false := by
    cases hx : mapFind ptr.base.users s.id with
    | none => simp [hx] at hm
    | some v => rfl
  unfold Chat.talkToChannel
  rw [hget]
  simp [hg, hp, hq, ChatChannel.executeOnSpeakEvent, hhook, ChatChannel.talk, hm']

/-- What `talkToChannel` does for the reserved party id on a channel without `onSpeak`
hook: every delivery carries `SPEAK_CHANNEL_Y`. -/
theorem talkToChannel_party_id (k : Consts) (lua : LuaScriptInterface) (c : Chat)
    (s : Player) (t : Nat) (text : String) (ptr : ChannelPtr)
    (hg : k.CHANNEL_PARTY ≠ k.CHANNEL_GUILD)
    (hget : c.getChannel k lua s k.CHANNEL_PARTY = some ptr)
    (hhook : ptr.base.onSpeakEvent = -1)
    (hm : (mapFind ptr.base.users s.id).isSome = true) :
    c.talkToChannel k lua s t text k.CHANNEL_PARTY =
      (true, ptr.base.users.map
        (fun it => Output.sendToChannel it.2 s k.SPEAK_CHANNEL_Y text ptr.base.id)) := by
  have hm' : (mapFind ptr.base.users s.id).isNone = false := by
    cases hx : mapFind ptr.base.users s.id with
    | none => simp [hx] at hm
    | some v => rfl
  unfold Chat.talkToChannel
  rw [hget]
  by_cases ht : t = k.SPEAK_CHANNEL_Y
  · simp [hg, ht, ChatChannel.executeOnSpeakEvent, hhook, ChatChannel.talk, hm']
  · simp [hg, ht, ChatChannel.executeOnSpeakEvent, hhook, ChatChannel.talk, hm']

/-- C18 (the code at the failing input): session 1 is a member of its invite-only channel
100, which has no `onSpeak` hook, and asks for class 1, which is not `SPEAK_CHANNEL_Y`;
`talkToChannel` delivers the message to both members with class 1.  The test
`channelId == CHANNEL_PRIVATE` never holds for the id of a registered invite-only
channel. -/
theorem C18_invite_only_class_not_forced :
    (mapFind lobbyChat.privateChannels 100).map
        (fun ch => ((mapFind ch.users 1).isSome, ch.onSpeakEvent)) = some (true, -1) ∧
      1 ≠ sampleConsts.SPEAK_CHANNEL_Y ∧
      lobbyChat.talkToChannel sampleConsts luaAllow (premiumPlayer 1) 1 "hi" 100 =
        (true, [Output.sendToChannel (premiumPlayer 1) (premiumPlayer 1) 1 "hi" 100,
          Output.sendToChannel (freePlayer 2) (premiumPlayer 1) 1 "hi" 100]) := by
  decide

/-! ## What one call does to the registry -/

theorem createChannel_cases (k : Consts) (lua : LuaScriptInterface) (c : Chat)
    (player : Player) (id : Nat) :
    (c.createChannel k lua player id).2 = c ∨
      (∃ g name, (c.createChannel k lua player id).2 =
        { c with guildChannels :=
            mapInsert c.guildChannels g (ChatChannel.new k.CHANNEL_GUILD name) }) ∨
      (∃ q, (c.createChannel k lua player id).2 =
        { c with partyChannels :=
            mapInsert c.partyChannels q (ChatChannel.new k.CHANNEL_PARTY "Party") }) ∨
      ∃ i, mapFind c.privateChannels i = none ∧ c.getPrivateChannel player = none ∧
        (c.createChannel k lua player id).2 =
          { c with privateChannels :=
              mapInsert c.privateChannels i (newPrivateChannel i player) } := by
  unfold Chat.createChannel
  by_cases hres : (c.getChannel k lua player id).isSome = true
  · rw [if_pos hres]
    exact Or.inl rfl
  rw [if_neg hres]
  by_cases hg : id = k.CHANNEL_GUILD
  · rw [if_pos hg]
    cases player.guild with
    | none => exact Or.inl rfl
    | some guild => exact Or.inr (Or.inl ⟨guild.id, guild.name, by rw [hg]⟩)
  rw [if_neg hg]
  by_cases hp : id = k.CHANNEL_PARTY
  · rw [if_pos hp]
    cases player.party with
    | none => exact Or.inl rfl
    | some party => exact Or.inr (Or.inr (Or.inl ⟨party, by rw [hp]⟩))
  rw [if_neg hp]
  by_cases hq : id = k.CHANNEL_PRIVATE
  · rw [if_pos hq]
    by_cases hcond : (!player.premium || (c.getPrivateChannel player).isSome) = true
    · rw [if_pos hcond]
      exact Or.inl rfl
    rw [if_neg hcond]
    cases hf : findFreeSlot c.privateChannels (10000 - 100) 100 with
    | none => exact Or.inl rfl
    | some i =>
      obtain ⟨_, _, hfree, _⟩ := findFreeSlot_some _ _ _ _ hf
      have hnone : c.getPrivateChannel player = none := by
        cases hx : c.getPrivateChannel player with
        | none => rfl
        | some v => simp [hx] at hcond
      exact Or.inr (Or.inr (Or.inr ⟨i, hfree, hnone, rfl⟩))
  · rw [if_neg hq]
    exact Or.inl rfl

theorem deleteChannel_cases (k : Consts) (c : Chat) (player : Player) (id : Nat) :
    (c.deleteChannel k player id).2.1 = c ∨
      (∃ g, (c.deleteChannel k player id).2.1 =
        { c with guildChannels := mapErase c.guildChannels g }) ∨
      (∃ q, (c.deleteChannel k player id).2.1 =
        { c with partyChannels := mapErase c.partyChannels q }) ∨
      (c.deleteChannel k player id).2.1 =
        { c with privateChannels := mapErase c.privateChannels id } := by
  unfold Chat.deleteChannel
  by_cases hg : id = k.CHANNEL_GUILD
  · rw [if_pos hg]
    cases player.guild with
    | none => exact Or.inl rfl
    | some guild =>
      cases hf : mapFind c.guildChannels guild.id with
      | none => exact Or.inl (by simp [hf])
      | some v => exact Or.inr (Or.inl ⟨guild.id, by simp [hf]⟩)
  rw [if_neg hg]
  by_cases hp : id = k.CHANNEL_PARTY
  · rw [if_pos hp]
    cases player.party with
    | none => exact Or.inl rfl
    | some party =>
      cases hf : mapFind c.partyChannels party with
      | none => exact Or.inl (by simp [hf])
      | some v => exact Or.inr (Or.inr (Or.inl ⟨party, by simp [hf]⟩))
  rw [if_neg hp]
  cases hf : mapFind c.privateChannels id with
  | none => exact Or.inl rfl
  | some v => exact Or.inr (Or.inr (Or.inr rfl))

theorem addUserToChannel_cases (k : Consts) (lua : LuaScriptInterface) (c : Chat)
    (player : Player) (id : Nat) :
    (c.addUserToChannel k lua player id).2.1 = c ∨
      ∃ ptr, c.getChannel k lua player id = some ptr ∧
        (c.addUserToChannel k lua player id).2.1 =
          c.setBase ptr (ptr.base.addUser k lua player).2.1 := by
  unfold Chat.addUserToChannel
  cases hget : c.getChannel k lua player id with
  | none => exact Or.inl rfl
  | some ptr =>
    refine Or.inr ⟨ptr, rfl, ?_⟩
    dsimp only
    split <;> rfl

theorem removeUserFromChannel_cases (k : Consts) (lua : LuaScriptInterface) (c : Chat)
    (player : Player) (id : Nat) :
    (c.removeUserFromChannel k lua player id).2.1 = c ∨
      ∃ ptr, c.getChannel k lua player id = some ptr ∧
        ((c.removeUserFromChannel k lua player id).2.1 =
            c.setBase ptr (ptr.base.removeUser lua player).2.1 ∨
          (c.removeUserFromChannel k lua player id).2.1 =
            ((c.setBase ptr (ptr.base.removeUser lua player).2.1).deleteChannel k player
              id).2.1) := by
  unfold Chat.removeUserFromChannel
  cases hget : c.getChannel k lua player id with
  | none => exact Or.inl rfl
  | some ptr =>
    refine Or.inr ⟨ptr, rfl, ?_⟩
    dsimp only
    repeat' split
    all_goals first
      | exact Or.inl rfl
      | exact Or.inr rfl

theorem removeUserFromEach_eq_map (lua : LuaScriptInterface) (player : Player)
    (m : List (Nat × ChatChannel)) :
    (removeUserFromEach lua player m).1 =
      m.map (fun it => (it.1, (it.2.removeUser lua player).2.1)) := by
  induction m with
  | nil => rfl
  | cons hd tl ih =>
    unfold removeUserFromEach
    simp [ih]

theorem getChannel_in (k : Consts) (lua : LuaScriptInterface) (c : Chat) (player : Player)
    (id : Nat) (ptr : ChannelPtr) (h : c.getChannel k lua player id = some ptr) :
    ptr.In c := by
  unfold Chat.getChannel at h
  by_cases hg : id = k.CHANNEL_GUILD
  · rw [if_pos hg] at h
    cases hgd : player.guild with
    | none => simp [hgd] at h
    | some guild =>
      cases hf : mapFind c.guildChannels guild.id with
      | none => simp [hgd, hf] at h
      | some ch =>
        simp only [hgd, hf, Option.some.injEq] at h
        subst h
        exact mapFind_some_mem _ _ _ hf
  · rw [if_neg hg] at h
    by_cases hp : id = k.CHANNEL_PARTY
    · rw [if_pos hp] at h
      cases hpd : player.party with
      | none => simp [hpd] at h
      | some party =>
        cases hf : mapFind c.partyChannels party with
        | none => simp [hpd, hf] at h
        | some ch =>
          simp only [hpd, hf, Option.some.injEq] at h
          subst h
          exact mapFind_some_mem _ _ _ hf
    · rw [if_neg hp] at h
      cases hn : mapFind c.normalChannels id with
      | some ch =>
        by_cases hc : ch.executeCanJoinEvent lua player = true
        · simp only [hn, hc, Bool.not_true, Bool.false_eq_true, if_false,
            Option.some.injEq] at h
          subst h
          exact mapFind_some_mem _ _ _ hn
        · simp [hn, hc] at h
      | none =>
        cases hq : mapFind c.privateChannels id with
        | none => simp [hn, hq] at h
        | some pc =>
          by_cases hi : pc.isInvited player = true
          · simp only [hn, hq, hi, if_true, Option.some.injEq] at h
            subst h
            exact hq
          · simp [hn, hq, hi] at h

theorem getChannel_priv_invited (k : Consts) (lua : LuaScriptInterface) (c : Chat)
    (player : Player) (id i : Nat) (ch : PrivateChatChannel)
    (h : c.getChannel k lua player id = some (ChannelPtr.priv i ch)) :
    ch.isInvited player = true := by
  unfold Chat.getChannel at h
  by_cases hg : id = k.CHANNEL_GUILD
  · rw [if_pos hg] at h
    cases hgd : player.guild with
    | none => simp [hgd] at h
    | some guild =>
      cases hf : mapFind c.guildChannels guild.id <;> simp [hgd, hf] at h
  · rw [if_neg hg] at h
    by_cases hp : id = k.CHANNEL_PARTY
    · rw [if_pos hp] at h
      cases hpd : player.party with
      | none => simp [hpd] at h
      | some party =>
        cases hf : mapFind c.partyChannels party <;> simp [hpd, hf] at h
    · rw [if_neg hp] at h
      cases hn : mapFind c.normalChannels id with
      | some ch0 =>
        by_cases hc : ch0.executeCanJoinEvent lua player = true <;> simp [hn, hc] at h
      | none =>
        cases hq : mapFind c.privateChannels id with
        | none => simp [hn, hq] at h
        | some pc =>
          by_cases hi : pc.isInvited player = true
          · simp only [hn, hq, hi, if_true, Option.some.injEq, ChannelPtr.priv.injEq] at h
            rw [← h.2]
            exact hi
          · simp [hn, hq, hi] at h

/-! ## Ids along a run -/

theorem idsRegistered_setBase (k : Consts) (c : Chat) (ptr : ChannelPtr)
    (channel : ChatChannel) (h : c.IdsRegistered k) (hin : ptr.In c)
    (hid : channel.id = ptr.base.id) : (c.setBase ptr channel).IdsRegistered k := by
  obtain ⟨h1, h2, h3, h4⟩ := h
  cases ptr with
  | normal i old =>
    refine ⟨?_, h2, h3, h4⟩
    intro it hit
    have hit' : it ∈ mapModify c.normalChannels i (fun _ => channel) := hit
    rcases mem_mapModify _ _ _ _ hit' with hm | ⟨v, _, he⟩
    · exact h1 it hm
    · rw [he]
      exact hid.trans (h1 _ hin)
  | guild g old =>
    refine ⟨h1, ?_, h3, h4⟩
    intro it hit
    have hit' : it ∈ mapModify c.guildChannels g (fun _ => channel) := hit
    rcases mem_mapModify _ _ _ _ hit' with hm | ⟨v, _, he⟩
    · exact h2 it hm
    · rw [he]
      exact hid.trans (h2 _ hin)
  | party q old =>
    refine ⟨h1, h2, ?_, h4⟩
    intro it hit
    have hit' : it ∈ mapModify c.partyChannels q (fun _ => channel) := hit
    rcases mem_mapModify _ _ _ _ hit' with hm | ⟨v, _, he⟩
    · exact h3 it hm
    · rw [he]
      exact hid.trans (h3 _ hin)
  | priv i old =>
    refine ⟨h1, h2, h3, ?_⟩
    intro it hit
    have hit' : it ∈ mapModify c.privateChannels i
        (fun o => ({ o with toChatChannel := channel } : PrivateChatChannel)) := hit
    rcases mem_mapModify _ _ _ _ hit' with hm | ⟨v, _, he⟩
    · exact h4 it hm
    · rw [he]
      exact hid.trans (h4 _ (mapFind_some_mem _ _ _ hin))
  | dummy old => exact ⟨h1, h2, h3, h4⟩

theorem idsRegistered_createChannel (k : Consts) (lua : LuaScriptInterface) (c : Chat)
    (player : Player) (id : Nat) (h : c.IdsRegistered k) :
    (c.createChannel k lua player id).2.IdsRegistered k := by
  obtain ⟨h1, h2, h3, h4⟩ := h
  rcases createChannel_cases k lua c player id with he | ⟨g, name, he⟩ | ⟨q, he⟩ |
    ⟨i, _, _, he⟩
  · rw [he]
    exact ⟨h1, h2, h3, h4⟩
  · rw [he]
    refine ⟨h1, ?_, h3, h4⟩
    intro it hit
    rcases mem_mapInsert _ _ _ _ hit with hm | hm
    · rw [hm]
      rfl
    · exact h2 it hm
  · rw [he]
    refine ⟨h1, h2, ?_, h4⟩
    intro it hit
    rcases mem_mapInsert _ _ _ _ hit with hm | hm
    · rw [hm]
      rfl
    · exact h3 it hm
  · rw [he]
    refine ⟨h1, h2, h3, ?_⟩
    intro it hit
    rcases mem_mapInsert _ _ _ _ hit with hm | hm
    · rw [hm]
      rfl
    · exact h4 it hm

theorem idsRegistered_deleteChannel (k : Consts) (c : Chat) (player : Player) (id : Nat)
    (h : c.IdsRegistered k) : (c.deleteChannel k player id).2.1.IdsRegistered k := by
  obtain ⟨h1, h2, h3, h4⟩ := h
  rcases deleteChannel_cases k c player id with he | ⟨g, he⟩ | ⟨q, he⟩ | he
  · rw [he]
    exact ⟨h1, h2, h3, h4⟩
  · rw [he]
    exact ⟨h1, fun it hit => h2 it ((mapErase_sublist _ _).subset hit), h3, h4⟩
  · rw [he]
    exact ⟨h1, h2, fun it hit => h3 it ((mapErase_sublist _ _).subset hit), h4⟩
  · rw [he]
    exact ⟨h1, h2, h3, fun it hit => h4 it ((mapErase_sublist _ _).subset hit)⟩

theorem idsRegistered_addUserToChannel (k : Consts) (lua : LuaScriptInterface) (c : Chat)
    (player : Player) (id : Nat) (h : c.IdsRegistered k) :
    (c.addUserToChannel k lua player id).2.1.IdsRegistered k := by
  rcases addUserToChannel_cases k lua c player id with he | ⟨ptr, hget, he⟩
  · rw [he]
    exact h
  · rw [he]
    exact idsRegistered_setBase k c ptr _ h (getChannel_in k lua c player id ptr hget)
      (addUser_fields k lua _ player).1

theorem idsRegistered_removeUserFromChannel (k : Consts) (lua : LuaScriptInterface)
    (c : Chat) (player : Player) (id : Nat) (h : c.IdsRegistered k) :
    (c.removeUserFromChannel k lua player id).2.1.IdsRegistered k := by
  rcases removeUserFromChannel_cases k lua c player id with he | ⟨ptr, hget, he | he⟩
  · rw [he]
    exact h
  · rw [he]
    exact idsRegistered_setBase k c ptr _ h (getChannel_in k lua c player id ptr hget)
      (removeUser_fields lua _ player).1
  · rw [he]
    exact idsRegistered_deleteChannel k _ player id
      (idsRegistered_setBase k c ptr _ h (getChannel_in k lua c player id ptr hget)
        (removeUser_fields lua _ player).1)

theorem idsRegistered_removeUserFromPrivate (k : Consts) (lua : LuaScriptInterface)
    (player : Player) (keys : List Nat) :
    ∀ c : Chat, c.IdsRegistered k →
      (Chat.removeUserFromPrivate k lua player keys c).1.IdsRegistered k := by
  induction keys with
  | nil =>
    intro c h
    exact h
  | cons key rest ih =>
    intro c h
    unfold Chat.removeUserFromPrivate
    cases hf : mapFind c.privateChannels key with
    | none => exact ih c h
    | some channel =>
      have hset := idsRegistered_setBase k c (ChannelPtr.priv key channel)
        (channel.toChatChannel.removeUser lua player).2.1 h hf
        (removeUser_fields lua _ player).1
      dsimp only
      split
      · exact ih _ (idsRegistered_deleteChannel k _ player _ hset)
      · exact ih _ hset

theorem idsRegistered_removeUserFromAllChannels (k : Consts) (lua : LuaScriptInterface)
    (c : Chat) (player : Player) (h : c.IdsRegistered k) :
    (c.removeUserFromAllChannels k lua player).1.IdsRegistered k := by
  obtain ⟨h1, h2, h3, h4⟩ := h
  unfold Chat.removeUserFromAllChannels
  apply idsRegistered_removeUserFromPrivate
  refine ⟨?_, ?_, ?_, h4⟩
  · intro it hit
    have hit' : it ∈ (removeUserFromEach lua player c.normalChannels).1 := hit
    rw [removeUserFromEach_eq_map] at hit'
    obtain ⟨it0, h0, he⟩ := List.mem_map.1 hit'
    rw [← he]
    exact (removeUser_fields lua _ player).1.trans (h1 it0 h0)
  · intro it hit
    have hit' : it ∈ (removeUserFromEach lua player c.guildChannels).1 := hit
    rw [removeUserFromEach_eq_map] at hit'
    obtain ⟨it0, h0, he⟩ := List.mem_map.1 hit'
    rw [← he]
    exact (removeUser_fields lua _ player).1.trans (h2 it0 h0)
  · intro it hit
    have hit' : it ∈ (removeUserFromEach lua player c.partyChannels).1 := hit
    rw [removeUserFromEach_eq_map] at hit'
    obtain ⟨it0, h0, he⟩ := List.mem_map.1 hit'
    rw [← he]
    exact (removeUser_fields lua _ player).1.trans (h3 it0 h0)

theorem idsRegistered_getOrCreate (k : Consts) (lua : LuaScriptInterface) (c : Chat)
    (player : Player) (id : Nat) (h : c.IdsRegistered k) :
    (c.getOrCreate k lua player id).2.IdsRegistered k := by
  have hc := idsRegistered_createChannel k lua c player id h
  unfold Chat.getOrCreate
  repeat' split
  all_goals first
    | exact h
    | (rename_i heq; rw [heq] at hc; exact hc)

theorem idsRegistered_getChannelList (k : Consts) (lua : LuaScriptInterface) (c : Chat)
    (player : Player) (h : c.IdsRegistered k) :
    (c.getChannelList k lua player).2.IdsRegistered k := by
  have hg : (if player.guild.isSome = true then c.getOrCreate k lua player k.CHANNEL_GUILD
      else ([], c)).2.IdsRegistered k := by
    split
    · exact idsRegistered_getOrCreate k lua c player _ h
    · exact h
  show (if player.party.isSome = true then
      (if player.guild.isSome = true then c.getOrCreate k lua player k.CHANNEL_GUILD
        else ([], c)).2.getOrCreate k lua player k.CHANNEL_PARTY
    else ([], (if player.guild.isSome = true then c.getOrCreate k lua player k.CHANNEL_GUILD
        else ([], c)).2)).2.IdsRegistered k
  split
  · exact idsRegistered_getOrCreate k lua _ player _ hg
  · exact hg

theorem invitePlayer_id (k : Consts) (c : PrivateChatChannel) (a b : Player) :
    (c.invitePlayer k a b).1.id = c.id := by
  unfold PrivateChatChannel.invitePlayer PrivateChatChannel.addInvited
  by_cases h : (mapFind c.m_invites b.guid).isSome = true <;> simp [h]

theorem excludePlayer_id (k : Consts) (lua : LuaScriptInterface) (c : PrivateChatChannel)
    (a b : Player) : (c.excludePlayer k lua a b).1.id = c.id := by
  unfold PrivateChatChannel.excludePlayer PrivateChatChannel.removeInvited
  by_cases h : (mapFind c.m_invites b.guid).isNone = true
  · simp [h]
  · simp only [h]
    exact (removeUser_fields lua _ b).1

theorem idsRegistered_mapModify (k : Consts) (c : Chat) (i : Nat)
    (f : PrivateChatChannel → PrivateChatChannel) (hf : ∀ ch, (f ch).id = ch.id)
    (h : c.IdsRegistered k) :
    ({ c with privateChannels := mapModify c.privateChannels i f } : Chat).IdsRegistered k := by
  obtain ⟨h1, h2, h3, h4⟩ := h
  refine ⟨h1, h2, h3, ?_⟩
  intro it hit
  rcases mem_mapModify _ _ _ _ hit with hm | ⟨v, hv, he⟩
  · exact h4 it hm
  · rw [he]
    exact (hf v).trans (h4 _ hv)

theorem idsRegistered_step (k : Consts) (lua : LuaScriptInterface) (c : Chat) (op : Op)
    (h : c.IdsRegistered k) : (c.step k lua op).IdsRegistered k := by
  cases op with
  | createChannel player id => exact idsRegistered_createChannel k lua c player id h
  | deleteChannel player id => exact idsRegistered_deleteChannel k c player id h
  | addUserToChannel player id => exact idsRegistered_addUserToChannel k lua c player id h
  | removeUserFromChannel player id =>
    exact idsRegistered_removeUserFromChannel k lua c player id h
  | removeUserFromAllChannels player =>
    exact idsRegistered_removeUserFromAllChannels k lua c player h
  | getChannelList player => exact idsRegistered_getChannelList k lua c player h
  | invitePlayer id a b =>
    exact idsRegistered_mapModify k c id _ (fun ch => invitePlayer_id k ch a b) h
  | excludePlayer id a b =>
    exact idsRegistered_mapModify k c id _ (fun ch => excludePlayer_id k lua ch a b) h

theorem channelNode_channel_id (n : ChannelNode) : n.channel.id = n.id := by
  unfold ChannelNode.channel
  split <;> rfl

theorem idsRegistered_load (k : Consts) (nodes : List ChannelNode) :
    ∀ c : Chat, c.IdsRegistered k → (c.load nodes).IdsRegistered k := by
  induction nodes with
  | nil =>
    intro c h
    exact h
  | cons n rest ih =>
    intro c h
    obtain ⟨h1, h2, h3, h4⟩ := h
    show (Chat.load _ rest).IdsRegistered k
    apply ih
    refine ⟨?_, h2, h3, h4⟩
    intro it hit
    rcases mem_mapInsert _ _ _ _ hit with hm | hm
    · rw [hm]
      exact channelNode_channel_id n
    · exact h1 it hm

theorem idsRegistered_reachable (k : Consts) (c0 c : Chat) (h0 : c0.IdsRegistered k)
    (h : Reachable k c0 c) : c.IdsRegistered k := by
  induction h with
  | start => exact h0
  | next lua op c _ ih => exact idsRegistered_step k lua c op ih

/-- C17 (as stated, refuted): after sessions of the guilds 7 and 8 have each created the
channel of their guild, two live channels are registered whose id is the same (the
reserved guild id 0). -/
theorem C17_counterexample :
    Reachable sampleConsts ((Chat.new sampleConsts).load []) twoGuildsChat ∧
      twoGuildsChat.guildChannels.map (fun it => (it.1, it.2.id)) = [(7, 0), (8, 0)] :=
  ⟨Reachable.next luaAllow _ _ (Reachable.next luaAllow _ _ Reachable.start), by decide⟩

/-- C17 (amended): in every registry reached from a loaded one, a static or invite-only
channel carries the key it is registered under as its id, so within each of these two
partitions channels registered under different keys have different ids; every guild
channel carries the reserved guild id and every party channel the reserved party id; and
whatever the next call is, a channel that stays registered under its key keeps its id. -/
theorem C17_ids_follow_registration (k : Consts) (nodes : List ChannelNode) (c : Chat)
    (h : Reachable k ((Chat.new k).load nodes) c) :
    c.IdsRegistered k ∧
      (∀ a ∈ c.normalChannels, ∀ b ∈ c.normalChannels, a.1 ≠ b.1 → a.2.id ≠ b.2.id) ∧
      (∀ a ∈ c.privateChannels, ∀ b ∈ c.privateChannels, a.1 ≠ b.1 → a.2.id ≠ b.2.id) ∧
      ∀ (lua : LuaScriptInterface) (op : Op),
        (∀ key ch ch1, mapFind c.normalChannels key = some ch →
          mapFind (c.step k lua op).normalChannels key = some ch1 → ch1.id = ch.id) ∧
        (∀ key ch ch1, mapFind c.guildChannels key = some ch →
          mapFind (c.step k lua op).guildChannels key = some ch1 → ch1.id = ch.id) ∧
        (∀ key ch ch1, mapFind c.partyChannels key = some ch →
          mapFind (c.step k lua op).partyChannels key = some ch1 → ch1.id = ch.id) ∧
        (∀ key ch ch1, mapFind c.privateChannels key = some ch →
          mapFind (c.step k lua op).privateChannels key = some ch1 → ch1.id = ch.id) := by
  have hnew : (Chat.new k).IdsRegistered k := by
    refine ⟨?_, ?_, ?_, ?_⟩ <;> intro it hit <;> cases hit
  have hinv := idsRegistered_reachable k _ c (idsRegistered_load k nodes _ hnew) h
  refine ⟨hinv, ?_, ?_, ?_⟩
  · intro a ha b hb hab e
    exact hab ((hinv.1 a ha).symm.trans (e.trans (hinv.1 b hb)))
  · intro a ha b hb hab e
    exact hab ((hinv.2.2.2 a ha).symm.trans (e.trans (hinv.2.2.2 b hb)))
  · intro lua op
    have hnext := idsRegistered_step k lua c op hinv
    refine ⟨?_, ?_, ?_, ?_⟩
    · intro key ch ch1 h1 h2
      exact (hnext.1 _ (mapFind_some_mem _ _ _ h2)).trans
        (hinv.1 _ (mapFind_some_mem _ _ _ h1)).symm
    · intro key ch ch1 h1 h2
      exact (hnext.2.1 _ (mapFind_some_mem _ _ _ h2)).trans
        (hinv.2.1 _ (mapFind_some_mem _ _ _ h1)).symm
    · intro key ch ch1 h1 h2
      exact (hnext.2.2.1 _ (mapFind_some_mem _ _ _ h2)).trans
        (hinv.2.2.1 _ (mapFind_some_mem _ _ _ h1)).symm
    · intro key ch ch1 h1 h2
      exact (hnext.2.2.2 _ (mapFind_some_mem _ _ _ h2)).trans
        (hinv.2.2.2 _ (mapFind_some_mem _ _ _ h1)).symm

/-- C17 (amended) instantiated: the registry with the channels of the guilds 7 and 8. -/
theorem C17_ids_follow_registration_witness : twoGuildsChat.IdsRegistered sampleConsts :=
  (C17_ids_follow_registration sampleConsts [] twoGuildsChat
    (Reachable.next luaAllow _ _ (Reachable.next luaAllow _ _ Reachable.start))).1

/-- C15 (the code at the failing input): session 1 owns the invite-only channel 100 of
`sampleChat`.  In `removeUserFromAllChannels` the loop over `privateChannels` reaches
that channel and calls `deleteChannel`, which erases the very entry the loop iterator
refers to, so the run is undefined from there (`none`); for a session that owns no
channel the loop is defined. -/
theorem C15_owner_entry_erased_under_iterator :
    (sampleChat.getPrivateChannel (premiumPlayer 1)).map Prod.fst = some 100 ∧
      sampleChat.removeUserFromAllChannelsChecked sampleConsts luaAllow (premiumPlayer 1) =
        none ∧
      (sampleChat.removeUserFromAllChannelsChecked sampleConsts luaAllow
        (freePlayer 9)).isSome = true := by
  decide

/-! ## Members of invite-only channels along a run -/

theorem isInvited_withBase (ch : PrivateChatChannel) (base : ChatChannel) (p : Player) :
    ({ ch with toChatChannel := base } : PrivateChatChannel).isInvited p = ch.isInvited p :=
  rfl

theorem membersInvited_new (i : Nat) (player : Player) :
    (newPrivateChannel i player).MembersInvited := by
  intro m hm
  cases hm

theorem membersInvited_addUser (k : Consts) (lua : LuaScriptInterface)
    (ch : PrivateChatChannel) (s : Player) (h : ch.MembersInvited)
    (hinv : ch.isInvited s = true) :
    ({ ch with toChatChannel := (ch.toChatChannel.addUser k lua s).2.1 } :
      PrivateChatChannel).MembersInvited := by
  intro m hm
  have hm' : m ∈ (ch.toChatChannel.addUser k lua s).2.1.users := hm
  rw [isInvited_withBase]
  unfold ChatChannel.addUser at hm'
  by_cases h1 : (mapFind ch.users s.id).isSome = true
  · rw [if_pos h1] at hm'
    exact h m hm'
  · rw [if_neg h1] at hm'
    by_cases h2 : (!ch.toChatChannel.executeOnJoinEvent lua s) = true
    · rw [if_pos h2] at hm'
      exact h m hm'
    · rw [if_neg h2] at hm'
      rcases mem_mapInsert _ _ _ _ hm' with he | he
      · rw [he]
        exact hinv
      · exact h m he

theorem removeUser_users_subset (lua : LuaScriptInterface) (c : ChatChannel) (p : Player)
    (m : Nat × Player) (hm : m ∈ (c.removeUser lua p).2.1.users) :
    m ∈ c.users ∧ m.1 ≠ p.id := by
  unfold ChatChannel.removeUser at hm
  by_cases h1 : (mapFind c.users p.id).isNone = true
  · rw [if_pos h1] at hm
    exact ⟨hm, (mapFind_eq_none_iff _ _).1 (Option.isNone_iff_eq_none.1 h1) m hm⟩
  · rw [if_neg h1] at hm
    have hm' : m ∈ mapErase c.users p.id := hm
    unfold mapErase at hm'
    have := List.mem_filter.1 hm'
    exact ⟨this.1, by simpa using this.2⟩

theorem membersInvited_removeUser (lua : LuaScriptInterface)
    (ch : PrivateChatChannel) (s : Player) (h : ch.MembersInvited) :
    ({ ch with toChatChannel := (ch.toChatChannel.removeUser lua s).2.1 } :
      PrivateChatChannel).MembersInvited := by
  intro m hm
  rw [isInvited_withBase]
  exact h m (removeUser_users_subset lua _ s m hm).1

theorem invitePlayer_channel (k : Consts) (ch : PrivateChatChannel) (a b : Player) :
    (ch.invitePlayer k a b).1 =
      if (mapFind ch.m_invites b.guid).isSome = true then ch
      else { ch with m_invites := mapInsert ch.m_invites b.guid b } := by
  unfold PrivateChatChannel.invitePlayer PrivateChatChannel.addInvited
  by_cases h : (mapFind ch.m_invites b.guid).isSome = true <;> simp [h]

theorem excludePlayer_channel (k : Consts) (lua : LuaScriptInterface)
    (ch : PrivateChatChannel) (a b : Player) :
    (ch.excludePlayer k lua a b).1 =
      if (mapFind ch.m_invites b.guid).isNone = true then ch
      else { ch with m_invites := mapErase ch.m_invites b.guid,
                     toChatChannel := (ch.toChatChannel.removeUser lua b).2.1 } := by
  unfold PrivateChatChannel.excludePlayer PrivateChatChannel.removeInvited
  by_cases h : (mapFind ch.m_invites b.guid).isNone = true <;> simp [h]

theorem membersInvited_invitePlayer (k : Consts)
    (ch : PrivateChatChannel) (a b : Player) (h : ch.MembersInvited) :
    (ch.invitePlayer k a b).1.MembersInvited := by
  rw [invitePlayer_channel]
  by_cases h1 : (mapFind ch.m_invites b.guid).isSome = true
  · rw [if_pos h1]
    exact h
  · rw [if_neg h1]
    intro m hm
    have hinv := h m hm
    unfold PrivateChatChannel.isInvited at hinv ⊢
    show (if m.2.guid = ch.getOwner then true
      else (mapFind (mapInsert ch.m_invites b.guid b) m.2.guid).isSome) = true
    by_cases ho : m.2.guid = ch.getOwner
    · rw [if_pos ho]
    · rw [if_neg ho]
      rw [if_neg ho] at hinv
      by_cases hg : m.2.guid = b.guid
      · rw [hg, mapFind_mapInsert_self]
        rfl
      · rw [mapFind_mapInsert_ne _ _ _ _ hg]
        exact hinv

theorem membersInvited_excludePlayer (k : Consts)
    (lua : LuaScriptInterface) (ch : PrivateChatChannel) (a b : Player)
    (hsole : ∀ m ∈ ch.users, m.2.guid = b.guid → m.1 = b.id)
    (h : ch.MembersInvited) : (ch.excludePlayer k lua a b).1.MembersInvited := by
  rw [excludePlayer_channel]
  by_cases h1 : (mapFind ch.m_invites b.guid).isNone = true
  · rw [if_pos h1]
    exact h
  · rw [if_neg h1]
    intro m hm
    have hm' : m ∈ (ch.toChatChannel.removeUser lua b).2.1.users := hm
    obtain ⟨hmem, hne⟩ := removeUser_users_subset lua _ b m hm'
    have hinv := h m hmem
    have hguid : m.2.guid ≠ b.guid := fun e => hne (hsole m hmem e)
    unfold PrivateChatChannel.isInvited at hinv ⊢
    show (if m.2.guid = ch.getOwner then true
      else (mapFind (mapErase ch.m_invites b.guid) m.2.guid).isSome) = true
    by_cases ho : m.2.guid = ch.getOwner
    · rw [if_pos ho]
    · rw [if_neg ho]
      rw [if_neg ho] at hinv
      rw [mapFind_mapErase_ne _ _ _ hguid]
      exact hinv

theorem mapKeys_mapErase_sublist {α : Type} (m : List (Nat × α)) (k : Nat) :
    (mapKeys (mapErase m k)).Sublist (mapKeys m) :=
  (mapErase_sublist m k).map _

theorem mapKeys_mapInsert_nodup {α : Type} (m : List (Nat × α)) (k : Nat) (v : α)
    (hfree : mapFind m k = none) (h : (mapKeys m).Nodup) :
    (mapKeys (mapInsert m k v)).Nodup := by
  have hperm := (mapInsert_perm m k v hfree).map Prod.fst
  unfold mapKeys at h ⊢
  rw [hperm.nodup_iff]
  simp only [List.map_cons, List.nodup_cons]
  refine ⟨?_, h⟩
  intro hmem
  have := (mapFind_isSome_iff m k).2 hmem
  simp [hfree] at this

theorem map_entry_unique {α : Type} (m : List (Nat × α)) (h : (mapKeys m).Nodup) (i : Nat)
    (a b : α) (ha : (i, a) ∈ m) (hb : (i, b) ∈ m) : a = b := by
  have := List.inj_on_of_nodup_map h ha hb rfl
  exact congrArg Prod.snd this

theorem poolMembersInvited_setBase (pool : List (Nat × PrivateChatChannel))
    (i : Nat) (ch : PrivateChatChannel) (base : ChatChannel)
    (h : PoolMembersInvited pool) (hf : mapFind pool i = some ch)
    (hok : ({ ch with toChatChannel := base } : PrivateChatChannel).MembersInvited) :
    PoolMembersInvited
      (mapModify pool i (fun o => ({ o with toChatChannel := base } : PrivateChatChannel))) := by
  obtain ⟨hk, hm⟩ := h
  refine ⟨by rw [mapKeys_mapModify]; exact hk, ?_⟩
  intro it hit
  rcases mem_mapModify _ _ _ _ hit with h1 | ⟨v, hv, he⟩
  · exact hm it h1
  · have : v = ch := map_entry_unique pool hk i v ch hv (mapFind_some_mem _ _ _ hf)
    rw [he, this]
    exact hok

theorem poolMembersInvited_mapModify (pool : List (Nat × PrivateChatChannel)) (i : Nat)
    (f : PrivateChatChannel → PrivateChatChannel)
    (hf : ∀ ch, ch.MembersInvited → (f ch).MembersInvited)
    (h : PoolMembersInvited pool) : PoolMembersInvited (mapModify pool i f) := by
  obtain ⟨hk, hm⟩ := h
  refine ⟨by rw [mapKeys_mapModify]; exact hk, ?_⟩
  intro it hit
  rcases mem_mapModify _ _ _ _ hit with h1 | ⟨v, hv, he⟩
  · exact hm it h1
  · rw [he]
    exact hf v (hm _ hv)

theorem poolMembersInvited_mapErase (pool : List (Nat × PrivateChatChannel)) (i : Nat)
    (h : PoolMembersInvited pool) :
    PoolMembersInvited (mapErase pool i) :=
  ⟨h.1.sublist (mapKeys_mapErase_sublist pool i),
    fun it hit => h.2 it ((mapErase_sublist _ _).subset hit)⟩

theorem poolMembersInvited_createChannel (k : Consts)
    (lua : LuaScriptInterface) (c : Chat) (player : Player) (id : Nat)
    (h : PoolMembersInvited c.privateChannels) :
    PoolMembersInvited (c.createChannel k lua player id).2.privateChannels := by
  rcases createChannel_cases k lua c player id with he | ⟨g, name, he⟩ | ⟨q, he⟩ |
    ⟨i, hfree, _, he⟩
  · rw [he]
    exact h
  · rw [he]
    exact h
  · rw [he]
    exact h
  · rw [he]
    refine ⟨mapKeys_mapInsert_nodup _ _ _ hfree h.1, ?_⟩
    intro it hit
    rcases mem_mapInsert _ _ _ _ hit with hm | hm
    · rw [hm]
      exact membersInvited_new i player
    · exact h.2 it hm

theorem poolMembersInvited_deleteChannel (k : Consts) (c : Chat)
    (player : Player) (id : Nat) (h : PoolMembersInvited c.privateChannels) :
    PoolMembersInvited (c.deleteChannel k player id).2.1.privateChannels := by
  rcases deleteChannel_cases k c player id with he | ⟨g, he⟩ | ⟨q, he⟩ | he
  · rw [he]
    exact h
  · rw [he]
    exact h
  · rw [he]
    exact h
  · rw [he]
    exact poolMembersInvited_mapErase _ id h

theorem poolMembersInvited_chat_setBase (c : Chat) (ptr : ChannelPtr)
    (base : ChatChannel) (h : PoolMembersInvited c.privateChannels) (hin : ptr.In c)
    (hok : ∀ i ch, ptr = ChannelPtr.priv i ch →
      ({ ch with toChatChannel := base } : PrivateChatChannel).MembersInvited) :
    PoolMembersInvited (c.setBase ptr base).privateChannels := by
  cases ptr with
  | priv i ch => exact poolMembersInvited_setBase _ i ch base h hin (hok i ch rfl)
  | _ => exact h

theorem poolMembersInvited_addUserToChannel (k : Consts)
    (lua : LuaScriptInterface) (c : Chat) (player : Player) (id : Nat)
    (h : PoolMembersInvited c.privateChannels) :
    PoolMembersInvited (c.addUserToChannel k lua player id).2.1.privateChannels := by
  rcases addUserToChannel_cases k lua c player id with he | ⟨ptr, hget, he⟩
  · rw [he]
    exact h
  · rw [he]
    have hin := getChannel_in k lua c player id ptr hget
    apply poolMembersInvited_chat_setBase c ptr _ h hin
    intro i ch hptr
    subst hptr
    exact membersInvited_addUser k lua ch player
      (h.2 _ (mapFind_some_mem _ _ _ hin))
      (getChannel_priv_invited k lua c player id i ch hget)

theorem poolMembersInvited_removeUserFromChannel (k : Consts)
    (lua : LuaScriptInterface) (c : Chat) (player : Player) (id : Nat)
    (h : PoolMembersInvited c.privateChannels) :
    PoolMembersInvited (c.removeUserFromChannel k lua player id).2.1.privateChannels := by
  rcases removeUserFromChannel_cases k lua c player id with he | ⟨ptr, hget, he⟩
  · rw [he]
    exact h
  · have hin := getChannel_in k lua c player id ptr hget
    have hset : PoolMembersInvited
        (c.setBase ptr (ptr.base.removeUser lua player).2.1).privateChannels := by
      apply poolMembersInvited_chat_setBase c ptr _ h hin
      intro i ch hptr
      subst hptr
      exact membersInvited_removeUser lua ch player (h.2 _ (mapFind_some_mem _ _ _ hin))
    rcases he with he | he
    · rw [he]
      exact hset
    · rw [he]
      exact poolMembersInvited_deleteChannel k _ player id hset

theorem poolMembersInvited_removeUserFromPrivate (k : Consts)
    (lua : LuaScriptInterface) (player : Player) (keys : List Nat) :
    ∀ c : Chat, PoolMembersInvited c.privateChannels →
      PoolMembersInvited (Chat.removeUserFromPrivate k lua player keys c).1.privateChannels := by
  induction keys with
  | nil =>
    intro c h
    exact h
  | cons key rest ih =>
    intro c h
    unfold Chat.removeUserFromPrivate
    cases hf : mapFind c.privateChannels key with
    | none => exact ih c h
    | some channel =>
      have hset : PoolMembersInvited
          (c.setBase (ChannelPtr.priv key channel)
            (channel.toChatChannel.removeUser lua player).2.1).privateChannels :=
        poolMembersInvited_setBase _ key channel _ h hf
          (membersInvited_removeUser lua channel player
            (h.2 _ (mapFind_some_mem _ _ _ hf)))
      dsimp only
      split
      · exact ih _ (poolMembersInvited_deleteChannel k _ player _ hset)
      · exact ih _ hset

theorem poolMembersInvited_getOrCreate (k : Consts)
    (lua : LuaScriptInterface) (c : Chat) (player : Player) (id : Nat)
    (h : PoolMembersInvited c.privateChannels) :
    PoolMembersInvited (c.getOrCreate k lua player id).2.privateChannels := by
  have hc := poolMembersInvited_createChannel k lua c player id h
  unfold Chat.getOrCreate
  repeat' split
  all_goals first
    | exact h
    | (rename_i heq; rw [heq] at hc; exact hc)

theorem poolMembersInvited_getChannelList (k : Consts)
    (lua : LuaScriptInterface) (c : Chat) (player : Player)
    (h : PoolMembersInvited c.privateChannels) :
    PoolMembersInvited (c.getChannelList k lua player).2.privateChannels := by
  have hg : PoolMembersInvited
      (if player.guild.isSome = true then c.getOrCreate k lua player k.CHANNEL_GUILD
        else ([], c)).2.privateChannels := by
    split
    · exact poolMembersInvited_getOrCreate k lua c player _ h
    · exact h
  show PoolMembersInvited (if player.party.isSome = true then
      (if player.guild.isSome = true then c.getOrCreate k lua player k.CHANNEL_GUILD
        else ([], c)).2.getOrCreate k lua player k.CHANNEL_PARTY
    else ([], (if player.guild.isSome = true then c.getOrCreate k lua player k.CHANNEL_GUILD
        else ([], c)).2)).2.privateChannels
  split
  · exact poolMembersInvited_getOrCreate k lua _ player _ hg
  · exact hg

theorem poolMembersInvited_exclude (k : Consts) (lua : LuaScriptInterface)
    (pool : List (Nat × PrivateChatChannel)) (id : Nat) (a b : Player)
    (hsole : ∀ it ∈ pool, it.1 = id → ∀ m ∈ it.2.users, m.2.guid = b.guid → m.1 = b.id)
    (h : PoolMembersInvited pool) :
    PoolMembersInvited (mapModify pool id (fun ch => (ch.excludePlayer k lua a b).1)) := by
  obtain ⟨hk, hm⟩ := h
  refine ⟨by rw [mapKeys_mapModify]; exact hk, ?_⟩
  intro it hit
  rcases mem_mapModify _ _ _ _ hit with h1 | ⟨v, hv, he⟩
  · exact hm it h1
  · rw [he]
    exact membersInvited_excludePlayer k lua v a b (hsole (id, v) hv rfl) (hm _ hv)

theorem poolMembersInvited_step (k : Consts) (lua : LuaScriptInterface)
    (c : Chat) (op : Op) (hop : c.ExcludesSoleSession op)
    (h : PoolMembersInvited c.privateChannels) :
    PoolMembersInvited (c.step k lua op).privateChannels := by
  cases op with
  | createChannel player id => exact poolMembersInvited_createChannel k lua c player id h
  | deleteChannel player id => exact poolMembersInvited_deleteChannel k c player id h
  | addUserToChannel player id =>
    exact poolMembersInvited_addUserToChannel k lua c player id h
  | removeUserFromChannel player id =>
    exact poolMembersInvited_removeUserFromChannel k lua c player id h
  | removeUserFromAllChannels player =>
    show PoolMembersInvited (c.removeUserFromAllChannels k lua player).1.privateChannels
    unfold Chat.removeUserFromAllChannels
    exact poolMembersInvited_removeUserFromPrivate k lua player _ _ h
  | getChannelList player => exact poolMembersInvited_getChannelList k lua c player h
  | invitePlayer id a b =>
    exact poolMembersInvited_mapModify _ id _
      (fun ch hch => membersInvited_invitePlayer k ch a b hch) h
  | excludePlayer id a b => exact poolMembersInvited_exclude k lua _ id a b hop h

/-- C19 (as stated, refuted): a run through `createChannel`, `invitePlayer`,
`addUserToChannel` and `excludePlayer` only.  Session 1 creates channel 100 and invites
character 2; the sessions 2 and 12 of that character (same `getGUID`, different `getID`)
join; session 1 excludes session 12.  The invitation of character 2 is gone (`m_invites`
is keyed by `getGUID`) and only the entry 12 of `users` (keyed by `getID`) is erased, so
session 2 is still a member and does not pass `isInvited`: it is not the owner and holds
no invitation.  Before the exclusion both sessions are members and pass `isInvited`, and
session 12 is not the only session of its character in the channel. -/
theorem C19_counterexample :
    (mapFind twoSessionsChat.privateChannels 100).map
        (fun ch => (ch.users, ch.getOwner, mapKeys ch.m_invites,
          ch.isInvited (freePlayer 2), ch.isInvited secondSession)) =
        some ([(2, freePlayer 2), (12, secondSession)], 1, [2], true, true) ∧
      ¬ twoSessionsChat.ExcludesSoleSession
        (Op.excludePlayer 100 (premiumPlayer 1) secondSession) ∧
      (mapFind cloneChat.privateChannels 100).map
        (fun ch => (ch.users, ch.getOwner, mapKeys ch.m_invites)) =
        some ([(2, freePlayer 2)], 1, []) ∧
      (mapFind cloneChat.privateChannels 100).map (fun ch => ch.isInvited (freePlayer 2)) =
        some false := by
  decide

/-- C19 (amended): along every run in which each `excludePlayer` call names a player who
is the only session of its character in the channel (every member carrying the `getGUID`
of the excluded player is stored under the `getID` of the excluded player), in every
registry reached from one whose invite-only channels are freshly created (no members
yet), by `addUserToChannel`, `removeUserFromChannel`, `invitePlayer`, `excludePlayer` and
the other calls of the registry, every member of every invite-only channel passes
`isInvited`: its identity is the owner or a key of the invitation registry. -/
theorem C19_members_pass_isInvited (k : Consts) (c0 c : Chat)
    (hkeys : (mapKeys c0.privateChannels).Nodup)
    (hfresh : ∀ it ∈ c0.privateChannels, it.2.users = []) (h : ReachableSole k c0 c) :
    ∀ it ∈ c.privateChannels, ∀ m ∈ it.2.users,
      it.2.isInvited m.2 = true ∧
        (m.2.guid = it.2.getOwner ∨ m.2.guid ∈ mapKeys it.2.m_invites) := by
  have hinv : PoolMembersInvited c.privateChannels := by
    induction h with
    | start =>
      refine ⟨hkeys, ?_⟩
      intro it hit m hm
      rw [hfresh it hit] at hm
      cases hm
    | next lua op c _ hop ih => exact poolMembersInvited_step k lua c op hop ih
  intro it hit m hm
  have h1 := hinv.2 it hit m hm
  refine ⟨h1, ?_⟩
  unfold PrivateChatChannel.isInvited at h1
  by_cases ho : m.2.guid = it.2.getOwner
  · exact Or.inl ho
  · rw [if_neg ho] at h1
    exact Or.inr ((mapFind_isSome_iff _ _).1 h1)

/-- C19 (amended) instantiated on a run in which character 2 joins channel 100 as
session 2, leaves, joins again as session 12 and is then excluded as session 12, the only
session of the character in the channel at that point: session 3, the member that is
left, passes `isInvited`. -/
theorem C19_members_pass_isInvited_witness :
    rejoinChat.privateChannels = [(100, rejoinChannel)] ∧
      rejoinChannel.isInvited (freePlayer 3) = true ∧
      ((freePlayer 3).guid = rejoinChannel.getOwner ∨
        (freePlayer 3).guid ∈ mapKeys rejoinChannel.m_invites) :=
  ⟨by decide,
    C19_members_pass_isInvited sampleConsts (Chat.new sampleConsts) rejoinChat (by decide)
      (fun it hit => by cases hit)
      (ReachableSole.next luaAllow _ _
        (ReachableSole.next luaAllow _ _
          (ReachableSole.next luaAllow _ _
            (ReachableSole.next luaAllow _ _
              (ReachableSole.next luaAllow _ _
                (ReachableSole.next luaAllow _ _
                  (ReachableSole.next luaAllow _ _
                    (ReachableSole.next luaAllow _ _ ReachableSole.start trivial) trivial)
                  trivial) trivial) trivial) trivial) trivial) (by decide))
      (100, rejoinChannel) (by decide) (3, freePlayer 3) (by decide)⟩

/-! ## The channel list -/

theorem filterMap_if_some {α β : Type} (p : α → Bool) (f : α → β) (l : List α) :
    l.filterMap (fun a => if p a = true then some (f a) else none) = (l.filter p).map f := by
  induction l with
  | nil => rfl
  | cons a l ih =>
    by_cases h : p a = true
    · simp [List.filterMap_cons, List.filter_cons, h, ih]
    · simp [List.filterMap_cons, List.filter_cons, h, ih]

theorem mapSorted_nodup {α : Type} (m : List (Nat × α)) (h : MapSorted m) :
    (mapKeys m).Nodup :=
  List.Pairwise.imp (fun hab => Nat.ne_of_lt hab) h

theorem mapSorted_filter {α : Type} (m : List (Nat × α)) (p : Nat × α → Bool)
    (h : MapSorted m) : MapSorted (m.filter p) :=
  List.Pairwise.sublist ((List.filter_sublist m).map Prod.fst) h

theorem mapFind_of_mem {α : Type} (m : List (Nat × α)) (h : (mapKeys m).Nodup)
    (it : Nat × α) (hit : it ∈ m) : mapFind m it.1 = some it.2 := by
  cases hf : mapFind m it.1 with
  | none => exact absurd rfl ((mapFind_eq_none_iff m it.1).1 hf it hit)
  | some v =>
    have := map_entry_unique m h it.1 v it.2 (mapFind_some_mem _ _ _ hf) hit
    rw [this]

theorem getOrCreate_guild (k : Consts) (lua : LuaScriptInterface) (c : Chat) (s : Player)
    (guild : Guild) (hs : s.guild = some guild) :
    (c.getOrCreate k lua s k.CHANNEL_GUILD).1 =
        [ChannelPtr.guild guild.id
          (listedOrNew c.guildChannels guild.id k.CHANNEL_GUILD guild.name)] ∧
      (c.getOrCreate k lua s k.CHANNEL_GUILD).2.normalChannels = c.normalChannels ∧
      (c.getOrCreate k lua s k.CHANNEL_GUILD).2.partyChannels = c.partyChannels ∧
      (c.getOrCreate k lua s k.CHANNEL_GUILD).2.privateChannels = c.privateChannels ∧
      (c.getOrCreate k lua s k.CHANNEL_GUILD).2.dummyPrivate = c.dummyPrivate ∧
      mapFind (c.getOrCreate k lua s k.CHANNEL_GUILD).2.guildChannels guild.id =
        some (listedOrNew c.guildChannels guild.id k.CHANNEL_GUILD guild.name) := by
  unfold Chat.getOrCreate listedOrNew
  cases hf : mapFind c.guildChannels guild.id with
  | some ch =>
    have hget : c.getChannel k lua s k.CHANNEL_GUILD = some (ChannelPtr.guild guild.id ch) := by
      simp [Chat.getChannel, hs, hf]
    rw [hget]
    simp [hf]
  | none =>
    have hget : c.getChannel k lua s k.CHANNEL_GUILD = none := by
      simp [Chat.getChannel, hs, hf]
    have hcreate : c.createChannel k lua s k.CHANNEL_GUILD =
        (some (ChannelPtr.guild guild.id (ChatChannel.new k.CHANNEL_GUILD guild.name)),
          { c with guildChannels := mapInsert c.guildChannels guild.id (ChatChannel.new k.CHANNEL_GUILD guild.name) }) := by
      simp [Chat.createChannel, hget, hs]
    rw [hget, hcreate]
    simp [mapFind_mapInsert_self]

theorem getOrCreate_party (k : Consts) (lua : LuaScriptInterface) (c : Chat) (s : Player)
    (party : Nat) (hd : k.CHANNEL_PARTY ≠ k.CHANNEL_GUILD) (hs : s.party = some party) :
    (c.getOrCreate k lua s k.CHANNEL_PARTY).1 =
        [ChannelPtr.party party (listedOrNew c.partyChannels party k.CHANNEL_PARTY "Party")] ∧
      (c.getOrCreate k lua s k.CHANNEL_PARTY).2.normalChannels = c.normalChannels ∧
      (c.getOrCreate k lua s k.CHANNEL_PARTY).2.guildChannels = c.guildChannels ∧
      (c.getOrCreate k lua s k.CHANNEL_PARTY).2.privateChannels = c.privateChannels ∧
      (c.getOrCreate k lua s k.CHANNEL_PARTY).2.dummyPrivate = c.dummyPrivate ∧
      mapFind (c.getOrCreate k lua s k.CHANNEL_PARTY).2.partyChannels party =
        some (listedOrNew c.partyChannels party k.CHANNEL_PARTY "Party") := by
  unfold Chat.getOrCreate listedOrNew
  cases hf : mapFind c.partyChannels party with
  | some ch =>
    have hget : c.getChannel k lua s k.CHANNEL_PARTY = some (ChannelPtr.party party ch) := by
      simp [Chat.getChannel, hd, hs, hf]
    rw [hget]
    simp [hf]
  | none =>
    have hget : c.getChannel k lua s k.CHANNEL_PARTY = none := by
      simp [Chat.getChannel, hd, hs, hf]
    have hcreate : c.createChannel k lua s k.CHANNEL_PARTY =
        (some (ChannelPtr.party party (ChatChannel.new k.CHANNEL_PARTY "Party")),
          { c with partyChannels := mapInsert c.partyChannels party (ChatChannel.new k.CHANNEL_PARTY "Party") }) := by
      simp [Chat.createChannel, hget, hd, hs]
    rw [hget, hcreate]
    simp [mapFind_mapInsert_self]

/-- The first block of `getChannelList`: what it lists and the registry it leaves. -/
theorem guildBlock (k : Consts) (lua : LuaScriptInterface) (c : Chat) (s : Player) :
    (if s.guild.isSome = true then c.getOrCreate k lua s k.CHANNEL_GUILD else ([], c)).1 =
        c.listedGuild k s ∧
      (if s.guild.isSome = true then c.getOrCreate k lua s k.CHANNEL_GUILD
        else ([], c)).2.normalChannels = c.normalChannels ∧
      (if s.guild.isSome = true then c.getOrCreate k lua s k.CHANNEL_GUILD
        else ([], c)).2.partyChannels = c.partyChannels ∧
      (if s.guild.isSome = true then c.getOrCreate k lua s k.CHANNEL_GUILD
        else ([], c)).2.privateChannels = c.privateChannels ∧
      (if s.guild.isSome = true then c.getOrCreate k lua s k.CHANNEL_GUILD
        else ([], c)).2.dummyPrivate = c.dummyPrivate ∧
      ∀ guild, s.guild = some guild →
        mapFind (if s.guild.isSome = true then c.getOrCreate k lua s k.CHANNEL_GUILD
          else ([], c)).2.guildChannels guild.id =
          some (listedOrNew c.guildChannels guild.id k.CHANNEL_GUILD guild.name) := by
  cases hs : s.guild with
  | none =>
    refine ⟨?_, rfl, rfl, rfl, rfl, ?_⟩
    · simp [Chat.listedGuild, hs]
    · intro guild hg
      cases hg
  | some guild =>
    obtain ⟨h1, h2, h3, h4, h5, h6⟩ := getOrCreate_guild k lua c s guild hs
    rw [Option.isSome_some, if_pos rfl]
    refine ⟨?_, h2, h3, h4, h5, ?_⟩
    · rw [h1]
      simp [Chat.listedGuild, hs]
    · intro g hg
      cases hg
      exact h6

/-- The second block of `getChannelList`: what it lists and the registry it leaves. -/
theorem partyBlock (k : Consts) (lua : LuaScriptInterface) (c : Chat) (s : Player)
    (hd : k.CHANNEL_PARTY ≠ k.CHANNEL_GUILD) :
    (if s.party.isSome = true then c.getOrCreate k lua s k.CHANNEL_PARTY else ([], c)).1 =
        c.listedParty k s ∧
      (if s.party.isSome = true then c.getOrCreate k lua s k.CHANNEL_PARTY
        else ([], c)).2.normalChannels = c.normalChannels ∧
      (if s.party.isSome = true then c.getOrCreate k lua s k.CHANNEL_PARTY
        else ([], c)).2.guildChannels = c.guildChannels ∧
      (if s.party.isSome = true then c.getOrCreate k lua s k.CHANNEL_PARTY
        else ([], c)).2.privateChannels = c.privateChannels ∧
      (if s.party.isSome = true then c.getOrCreate k lua s k.CHANNEL_PARTY
        else ([], c)).2.dummyPrivate = c.dummyPrivate ∧
      ∀ party, s.party = some party →
        mapFind (if s.party.isSome = true then c.getOrCreate k lua s k.CHANNEL_PARTY
          else ([], c)).2.partyChannels party =
          some (listedOrNew c.partyChannels party k.CHANNEL_PARTY "Party") := by
  cases hs : s.party with
  | none =>
    refine ⟨?_, rfl, rfl, rfl, rfl, ?_⟩
    · simp [Chat.listedParty, hs]
    · intro party hg
      cases hg
  | some party =>
    obtain ⟨h1, h2, h3, h4, h5, h6⟩ := getOrCreate_party k lua c s party hd hs
    rw [Option.isSome_some, if_pos rfl]
    refine ⟨?_, h2, h3, h4, h5, ?_⟩
    · rw [h1]
      simp [Chat.listedParty, hs]
    · intro g hg
      cases hg
      exact h6

theorem listedParty_congr (k : Consts) (c c1 : Chat) (s : Player)
    (h : c1.partyChannels = c.partyChannels) : c1.listedParty k s = c.listedParty k s := by
  unfold Chat.listedParty
  rw [h]

theorem normals_eq (k : Consts) (lua : LuaScriptInterface) (c : Chat) (s : Player)
    (hn : (mapKeys c.normalChannels).Nodup)
    (hres : ∀ it ∈ c.normalChannels, it.1 ≠ k.CHANNEL_GUILD ∧ it.1 ≠ k.CHANNEL_PARTY) :
    c.normalChannels.filterMap (fun it => c.getChannel k lua s it.1) =
      (c.normalChannels.filter (fun it => it.2.executeCanJoinEvent lua s)).map
        (fun it => ChannelPtr.normal it.1 it.2) := by
  rw [← filterMap_if_some]
  apply List.filterMap_congr
  intro it hit
  have hf := mapFind_of_mem c.normalChannels hn it hit
  obtain ⟨hg, hp⟩ := hres it hit
  unfold Chat.getChannel
  rw [if_neg hg, if_neg hp, hf]
  by_cases hc : it.2.executeCanJoinEvent lua s = true <;> simp [hc]

theorem getChannel_normal_congr (k : Consts) (lua : LuaScriptInterface) (c c1 : Chat)
    (s : Player) (i : Nat) (hi : i ≠ k.CHANNEL_GUILD ∧ i ≠ k.CHANNEL_PARTY)
    (h1 : c1.normalChannels = c.normalChannels)
    (h2 : c1.privateChannels = c.privateChannels) :
    c1.getChannel k lua s i = c.getChannel k lua s i := by
  unfold Chat.getChannel
  rw [if_neg hi.1, if_neg hi.2, if_neg hi.1, if_neg hi.2, h1, h2]

theorem hasPrivate_iff (c : Chat) (s : Player) :
    ((!c.privateChannels.any (fun it => it.2.getOwner == s.guid) && s.premium) = true) ↔
      (s.premium = true ∧ ∀ it ∈ c.privateChannels, it.2.getOwner ≠ s.guid) := by
  simp only [Bool.and_eq_true, Bool.not_eq_true', List.any_eq_false, beq_iff_eq]
  constructor
  · intro ⟨h1, h2⟩
    exact ⟨h2, fun it hit => h1 it hit⟩
  · intro ⟨h1, h2⟩
    exact ⟨fun it hit => h2 it hit, h1⟩

/-- C16 (as stated, refuted): the static channel registered under the reserved guild id 0
has no `canJoin` hook, so it allows session 9, and yet the list for session 9 (no guild, no
party, not premium) is empty. -/
theorem C16_counterexample :
    (mapFind zeroChat.normalChannels 0).map
        (fun ch => ch.executeCanJoinEvent luaAllow (freePlayer 9)) = some true ∧
      (zeroChat.getChannelList sampleConsts luaAllow (freePlayer 9)).1 = [] := by
  decide

/-- C16 (amended): in a registry in which no static channel is registered under the
reserved guild or party id, `getChannelList(s)` returns, in this order: the placeholder
exactly when `s` is premium and owns no invite-only channel; the channel of the guild of
`s` when it has one and the channel of its party when it has one (the registered one, or
the one made on demand, which is registered afterwards); the static channels whose
`canJoin` allows `s`, in ascending key order; the invite-only channels for which
`isInvited(s)` holds, in ascending key order; and nothing else. -/
theorem C16_getChannelList_order (k : Consts) (lua : LuaScriptInterface) (c : Chat)
    (s : Player) (hd : k.Distinct) (hn : MapSorted c.normalChannels)
    (hq : MapSorted c.privateChannels)
    (hres : ∀ it ∈ c.normalChannels, it.1 ≠ k.CHANNEL_GUILD ∧ it.1 ≠ k.CHANNEL_PARTY) :
    (c.getChannelList k lua s).1 = c.visibleChannels k lua s ∧
      MapSorted (c.normalChannels.filter (fun it => it.2.executeCanJoinEvent lua s)) ∧
      MapSorted (c.privateChannels.filter (fun it => it.2.isInvited s)) ∧
      (∀ guild, s.guild = some guild →
        mapFind (c.getChannelList k lua s).2.guildChannels guild.id =
          some (listedOrNew c.guildChannels guild.id k.CHANNEL_GUILD guild.name)) ∧
      ∀ party, s.party = some party →
        mapFind (c.getChannelList k lua s).2.partyChannels party =
          some (listedOrNew c.partyChannels party k.CHANNEL_PARTY "Party") := by
  have hd' : k.CHANNEL_PARTY ≠ k.CHANNEL_GUILD := fun e => hd.1 e.symm
  refine ⟨?_, mapSorted_filter _ _ hn, mapSorted_filter _ _ hq, ?_, ?_⟩
  all_goals
    unfold Chat.getChannelList
    dsimp only
    obtain ⟨G1, G2, G3, G4, G5, G6⟩ := guildBlock k lua c s
    generalize (if s.guild.isSome = true then c.getOrCreate k lua s k.CHANNEL_GUILD
      else ([], c)) = g at G1 G2 G3 G4 G5 G6 ⊢
    obtain ⟨P1, P2, P3, P4, P5, P6⟩ := partyBlock k lua g.2 s hd'
    generalize (if s.party.isSome = true then g.2.getOrCreate k lua s k.CHANNEL_PARTY
      else ([], g.2)) = p at P1 P2 P3 P4 P5 P6 ⊢
  · have hnorm : p.2.normalChannels.filterMap (fun it => p.2.getChannel k lua s it.1) =
        (c.normalChannels.filter (fun it => it.2.executeCanJoinEvent lua s)).map
          (fun it => ChannelPtr.normal it.1 it.2) := by
      rw [← normals_eq k lua c s (mapSorted_nodup _ hn) hres, P2, G2]
      apply List.filterMap_congr
      intro it hit
      exact getChannel_normal_congr k lua c p.2 s it.1 (hres it hit) (P2.trans G2)
        (P4.trans G4)
    rw [hnorm, P4, G4, P5, G5, P1, G1, listedParty_congr k c g.2 s G3]
    unfold Chat.visibleChannels
    by_cases hcond : s.premium = true ∧ ∀ it ∈ c.privateChannels, it.2.getOwner ≠ s.guid
    · rw [if_pos ((hasPrivate_iff c s).2 hcond), if_pos hcond]
      simp [List.append_assoc]
    · rw [if_neg (fun h => hcond ((hasPrivate_iff c s).1 h)), if_neg hcond]
      simp [List.append_assoc]
  · intro guild hg
    rw [P3]
    exact G6 guild hg
  · intro party hp
    rw [P6 party hp, G3]

/-- C16 (amended) instantiated: the list of the officer of guild 7 on the registry with
the static channels 5 and 6. -/
theorem C16_getChannelList_order_witness :
    (staticChat.getChannelList sampleConsts luaAllow officer).1 =
        staticChat.visibleChannels sampleConsts luaAllow officer ∧
      (staticChat.getChannelList sampleConsts luaAllow officer).1.map ChannelPtr.getId =
        [0, 5, 6] :=
  ⟨(C16_getChannelList_order sampleConsts luaAllow staticChat officer (by decide)
      (by unfold MapSorted; decide) (by unfold MapSorted; decide) (by decide)).1,
    by decide⟩

/-! ## The tracked loop and the loop of the model -/

theorem removeUserFromPrivateChecked_some (k : Consts) (lua : LuaScriptInterface)
    (player : Player) (keys : List Nat) :
    ∀ (c : Chat) (r : Chat × List Output),
      Chat.removeUserFromPrivateChecked k lua player keys c = some r →
        Chat.removeUserFromPrivate k lua player keys c = r := by
  induction keys with
  | nil =>
    intro c r h
    simpa [Chat.removeUserFromPrivateChecked, Chat.removeUserFromPrivate] using h
  | cons key rest ih =>
    intro c r h
    unfold Chat.removeUserFromPrivateChecked at h
    unfold Chat.removeUserFromPrivate
    cases hf : mapFind c.privateChannels key with
    | none =>
      rw [hf] at h
      exact ih c r h
    | some channel =>
      rw [hf] at h
      dsimp only at h ⊢
      by_cases ho : channel.getOwner = player.guid
      · rw [if_pos ho] at h ⊢
        split at h
        · cases h
        · obtain ⟨rs, hrs, he⟩ := Option.map_eq_some'.1 h
          rw [ih _ rs hrs]
          exact he
      · rw [if_neg ho] at h ⊢
        obtain ⟨rs, hrs, he⟩ := Option.map_eq_some'.1 h
        rw [ih _ rs hrs]
        exact he

theorem removeUserFromAllChannelsChecked_some (k : Consts) (lua : LuaScriptInterface)
    (c : Chat) (player : Player) (r : Chat × List Output)
    (h : c.removeUserFromAllChannelsChecked k lua player = some r) :
    c.removeUserFromAllChannels k lua player = r := by
  unfold Chat.removeUserFromAllChannelsChecked at h
  unfold Chat.removeUserFromAllChannels
  dsimp only at h ⊢
  obtain ⟨rs, hrs, he⟩ := Option.map_eq_some'.1 h
  rw [removeUserFromPrivateChecked_some k lua player _ _ rs hrs]
  exact he

/-! ## Leaving every channel -/

theorem setBase_priv_pool (c : Chat) (key : Nat) (ch : PrivateChatChannel)
    (base : ChatChannel) :
    (c.setBase (ChannelPtr.priv key ch) base).privateChannels =
      mapModify c.privateChannels key
        (fun o => ({ o with toChatChannel := base } : PrivateChatChannel)) :=
  rfl

theorem setBase_priv_find (c : Chat) (key : Nat) (ch : PrivateChatChannel)
    (base : ChatChannel) (hf : mapFind c.privateChannels key = some ch) (j : Nat) :
    mapFind (c.setBase (ChannelPtr.priv key ch) base).privateChannels j =
      if j = key then some { ch with toChatChannel := base }
      else mapFind c.privateChannels j := by
  rw [setBase_priv_pool, mapFind_mapModify]
  by_cases h : j = key
  · rw [if_pos h, if_pos h, h, hf]
    rfl
  · rw [if_neg h, if_neg h]

theorem poolWellFormed_setBase (k : Consts) (c : Chat) (key : Nat) (ch : PrivateChatChannel)
    (base : ChatChannel) (h : PoolWellFormed k c.privateChannels)
    (hf : mapFind c.privateChannels key = some ch) (hid : base.id = ch.id) :
    PoolWellFormed k (c.setBase (ChannelPtr.priv key ch) base).privateChannels := by
  rw [setBase_priv_pool]
  refine ⟨by rw [mapKeys_mapModify]; exact h.1, ?_⟩
  intro it hit
  rcases mem_mapModify _ _ _ _ hit with hm | ⟨v, hv, he⟩
  · exact h.2 it hm
  · have hv' : v = ch := map_entry_unique _ h.1 key v ch hv (mapFind_some_mem _ _ _ hf)
    subst hv'
    rw [he]
    have := h.2 _ hv
    exact ⟨hid.trans this.1, this.2⟩

theorem deleteChannel_own_key (k : Consts) (c : Chat) (player : Player) (key : Nat)
    (ch : PrivateChatChannel) (hg : key ≠ k.CHANNEL_GUILD) (hp : key ≠ k.CHANNEL_PARTY)
    (hf : mapFind c.privateChannels key = some ch) :
    (c.deleteChannel k player key).2.1.privateChannels = mapErase c.privateChannels key ∧
      (c.deleteChannel k player key).2.1.normalChannels = c.normalChannels ∧
      (c.deleteChannel k player key).2.1.guildChannels = c.guildChannels ∧
      (c.deleteChannel k player key).2.1.partyChannels = c.partyChannels := by
  unfold Chat.deleteChannel
  rw [if_neg hg, if_neg hp, hf]
  exact ⟨rfl, rfl, rfl, rfl⟩

theorem poolWellFormed_mapErase (k : Consts) (pool : List (Nat × PrivateChatChannel))
    (key : Nat) (h : PoolWellFormed k pool) : PoolWellFormed k (mapErase pool key) :=
  ⟨h.1.sublist (mapKeys_mapErase_sublist pool key),
    fun it hit => h.2 it ((mapErase_sublist _ _).subset hit)⟩

/-- The tracked loop stops as undefined when a key still to be visited holds a channel
owned by the player. -/
theorem removeUserFromPrivateChecked_owner (k : Consts) (lua : LuaScriptInterface)
    (player : Player) (keys : List Nat) :
    ∀ c : Chat, PoolWellFormed k c.privateChannels →
      (∃ key ∈ keys, ∃ ch, mapFind c.privateChannels key = some ch ∧
        ch.getOwner = player.guid) →
      Chat.removeUserFromPrivateChecked k lua player keys c = none := by
  induction keys with
  | nil =>
    intro c _ h
    obtain ⟨key, hk, _⟩ := h
    cases hk
  | cons key0 rest ih =>
    intro c hwf h
    obtain ⟨key, hk, ch, hch, hown⟩ := h
    unfold Chat.removeUserFromPrivateChecked
    cases hf : mapFind c.privateChannels key0 with
    | none =>
      have hne : key ≠ key0 := by
        intro e
        rw [e, hf] at hch
        cases hch
      have hk' : key ∈ rest := by
        rcases List.mem_cons.1 hk with e | e
        · exact absurd e hne
        · exact e
      exact ih c hwf ⟨key, hk', ch, hch, hown⟩
    | some channel =>
      have hwf1 := poolWellFormed_setBase k c key0 channel
        (channel.toChatChannel.removeUser lua player).2.1 hwf hf
        (removeUser_fields lua _ player).1
      have hfacts := hwf.2 _ (mapFind_some_mem _ _ _ hf)
      dsimp only
      by_cases ho : channel.getOwner = player.guid
      · rw [if_pos ho]
        have hf1 : mapFind (c.setBase (ChannelPtr.priv key0 channel)
            (channel.toChatChannel.removeUser lua player).2.1).privateChannels key0 =
            some { channel with
              toChatChannel := (channel.toChatChannel.removeUser lua player).2.1 } := by
          rw [setBase_priv_find c key0 channel _ hf, if_pos rfl]
        have hid : channel.id = key0 := hfacts.1
        rw [hid]
        rw [(deleteChannel_own_key k _ player key0 _ hfacts.2.1 hfacts.2.2 hf1).1,
          mapFind_mapErase_self]
        rfl
      · rw [if_neg ho]
        have hne : key ≠ key0 := by
          intro e
          rw [e, hf] at hch
          cases hch
          exact ho hown
        have hk' : key ∈ rest := by
          rcases List.mem_cons.1 hk with e | e
          · exact absurd e hne
          · exact e
        have hch1 : mapFind (c.setBase (ChannelPtr.priv key0 channel)
            (channel.toChatChannel.removeUser lua player).2.1).privateChannels key =
            some ch := by
          rw [setBase_priv_find c key0 channel _ hf, if_neg hne]
          exact hch
        rw [ih _ hwf1 ⟨key, hk', ch, hch1, hown⟩]
        rfl

/-- The tracked loop is defined, and is the loop of the model, when the player owns no
invite-only channel. -/
theorem removeUserFromPrivateChecked_no_owner (k : Consts) (lua : LuaScriptInterface)
    (player : Player) (keys : List Nat) :
    ∀ c : Chat, (∀ it ∈ c.privateChannels, it.2.getOwner ≠ player.guid) →
      Chat.removeUserFromPrivateChecked k lua player keys c =
        some (Chat.removeUserFromPrivate k lua player keys c) := by
  induction keys with
  | nil =>
    intro c _
    rfl
  | cons key0 rest ih =>
    intro c h
    unfold Chat.removeUserFromPrivateChecked Chat.removeUserFromPrivate
    cases hf : mapFind c.privateChannels key0 with
    | none => exact ih c h
    | some channel =>
      have ho : ¬ channel.getOwner = player.guid := h _ (mapFind_some_mem _ _ _ hf)
      have h1 : ∀ it ∈ (c.setBase (ChannelPtr.priv key0 channel)
          (channel.toChatChannel.removeUser lua player).2.1).privateChannels,
          it.2.getOwner ≠ player.guid := by
        intro it hit
        rw [setBase_priv_pool] at hit
        rcases mem_mapModify _ _ _ _ hit with hm | ⟨v, hv, he⟩
        · exact h it hm
        · rw [he]
          exact h (key0, v) hv
      dsimp only
      rw [if_neg ho, if_neg ho, ih _ h1]
      rfl

/-- The loop of the model over the keys `keys`: the other partitions are untouched, a key
outside `keys` keeps its entry, and a key of `keys` holds afterwards what
`afterLeave` leaves of its channel. -/
theorem removeUserFromPrivate_spec (k : Consts) (lua : LuaScriptInterface) (player : Player)
    (keys : List Nat) :
    ∀ c : Chat, keys.Nodup → PoolWellFormed k c.privateChannels →
      (Chat.removeUserFromPrivate k lua player keys c).1.normalChannels = c.normalChannels ∧
      (Chat.removeUserFromPrivate k lua player keys c).1.guildChannels = c.guildChannels ∧
      (Chat.removeUserFromPrivate k lua player keys c).1.partyChannels = c.partyChannels ∧
      PoolWellFormed k (Chat.removeUserFromPrivate k lua player keys c).1.privateChannels ∧
      (∀ j, j ∉ keys →
        mapFind (Chat.removeUserFromPrivate k lua player keys c).1.privateChannels j =
          mapFind c.privateChannels j) ∧
      ∀ j ∈ keys,
        mapFind (Chat.removeUserFromPrivate k lua player keys c).1.privateChannels j =
          (mapFind c.privateChannels j).bind (PrivateChatChannel.afterLeave lua player) := by
  induction keys with
  | nil =>
    intro c _ hwf
    refine ⟨rfl, rfl, rfl, hwf, fun _ _ => rfl, ?_⟩
    intro j hj
    cases hj
  | cons key0 rest ih =>
    intro c hnd hwf
    have hk0 : key0 ∉ rest := (List.nodup_cons.1 hnd).1
    have hrest : rest.Nodup := (List.nodup_cons.1 hnd).2
    unfold Chat.removeUserFromPrivate
    cases hf : mapFind c.privateChannels key0 with
    | none =>
      obtain ⟨i1, i2, i3, i4, i5, i6⟩ := ih c hrest hwf
      refine ⟨i1, i2, i3, i4, ?_, ?_⟩
      · intro j hj
        exact i5 j (fun h => hj (List.mem_cons_of_mem _ h))
      · intro j hj
        rcases List.mem_cons.1 hj with e | e
        · rw [e, i5 key0 hk0, hf]
          rfl
        · exact i6 j e
    | some channel =>
      have hwf1 := poolWellFormed_setBase k c key0 channel
        (channel.toChatChannel.removeUser lua player).2.1 hwf hf
        (removeUser_fields lua _ player).1
      have hfacts := hwf.2 _ (mapFind_some_mem _ _ _ hf)
      have hfind1 := setBase_priv_find c key0 channel
        (channel.toChatChannel.removeUser lua player).2.1 hf
      dsimp only
      by_cases ho : channel.getOwner = player.guid
      · rw [if_pos ho]
        have hid : channel.id = key0 := hfacts.1
        rw [hid]
        have hf1 := hfind1 key0
        rw [if_pos rfl] at hf1
        obtain ⟨d1, d2, d3, d4⟩ :=
          deleteChannel_own_key k _ player key0 _ hfacts.2.1 hfacts.2.2 hf1
        have hwfd : PoolWellFormed k
            ((c.setBase (ChannelPtr.priv key0 channel)
              (channel.toChatChannel.removeUser lua player).2.1).deleteChannel k player
                key0).2.1.privateChannels := by
          rw [d1]
          exact poolWellFormed_mapErase k _ key0 hwf1
        obtain ⟨i1, i2, i3, i4, i5, i6⟩ := ih _ hrest hwfd
        have hfindd : ∀ j, j ≠ key0 →
            mapFind ((c.setBase (ChannelPtr.priv key0 channel)
              (channel.toChatChannel.removeUser lua player).2.1).deleteChannel k player
                key0).2.1.privateChannels j = mapFind c.privateChannels j := by
          intro j hj
          rw [d1, mapFind_mapErase_ne _ _ _ hj, hfind1 j, if_neg hj]
        refine ⟨i1.trans d2, i2.trans d3, i3.trans d4, i4, ?_, ?_⟩
        · intro j hj
          have hj0 : j ≠ key0 := fun e => hj (e ▸ List.mem_cons_self _ _)
          rw [i5 j (fun h => hj (List.mem_cons_of_mem _ h))]
          exact hfindd j hj0
        · intro j hj
          by_cases e : j = key0
          · rw [e, i5 key0 hk0, d1, mapFind_mapErase_self, hf]
            simp [PrivateChatChannel.afterLeave, ho]
          · have hj' : j ∈ rest := by
              rcases List.mem_cons.1 hj with e' | e'
              · exact absurd e' e
              · exact e'
            rw [i6 j hj', hfindd j e]
      · rw [if_neg ho]
        obtain ⟨i1, i2, i3, i4, i5, i6⟩ := ih _ hrest hwf1
        refine ⟨i1, i2, i3, i4, ?_, ?_⟩
        · intro j hj
          have hj0 : j ≠ key0 := fun e => hj (e ▸ List.mem_cons_self _ _)
          rw [i5 j (fun h => hj (List.mem_cons_of_mem _ h)), hfind1 j, if_neg hj0]
        · intro j hj
          by_cases e : j = key0
          · rw [e, i5 key0 hk0, hfind1 key0, if_pos rfl, hf]
            simp [PrivateChatChannel.afterLeave, ho]
          · have hj' : j ∈ rest := by
              rcases List.mem_cons.1 hj with e' | e'
              · exact absurd e' e
              · exact e'
            rw [i6 j hj', hfind1 j, if_neg e]

theorem removeUserFromEach_not_member (lua : LuaScriptInterface) (player : Player)
    (m : List (Nat × ChatChannel)) :
    ∀ it ∈ (removeUserFromEach lua player m).1, mapFind it.2.users player.id = none := by
  intro it hit
  rw [removeUserFromEach_eq_map] at hit
  obtain ⟨it0, _, he⟩ := List.mem_map.1 hit
  rw [← he]
  exact removeUser_not_member lua it0.2 player

/-- What the claim about `removeUserFromAllChannels` asks of the registry afterwards. -/
theorem removeUserFromAllChannels_model (k : Consts) (lua : LuaScriptInterface) (c : Chat)
    (s : Player) (hwf : PoolWellFormed k c.privateChannels) :
    (∀ it ∈ (c.removeUserFromAllChannels k lua s).1.normalChannels,
        mapFind it.2.users s.id = none) ∧
      (∀ it ∈ (c.removeUserFromAllChannels k lua s).1.partyChannels,
        mapFind it.2.users s.id = none) ∧
      (∀ it ∈ (c.removeUserFromAllChannels k lua s).1.guildChannels,
        mapFind it.2.users s.id = none) ∧
      (∀ it ∈ (c.removeUserFromAllChannels k lua s).1.privateChannels,
        mapFind it.2.users s.id = none ∧ it.2.getOwner ≠ s.guid) ∧
      ∀ key ch, mapFind c.privateChannels key = some ch → ch.getOwner ≠ s.guid →
        ∃ ch1, mapFind (c.removeUserFromAllChannels k lua s).1.privateChannels key =
            some ch1 ∧ ch1.getOwner = ch.getOwner ∧ ch1.m_invites = ch.m_invites := by
  unfold Chat.removeUserFromAllChannels
  dsimp only
  obtain ⟨i1, i2, i3, i4, i5, i6⟩ := removeUserFromPrivate_spec k lua s
    (mapKeys c.privateChannels)
    { c with normalChannels := (removeUserFromEach lua s c.normalChannels).1,
             partyChannels := (removeUserFromEach lua s c.partyChannels).1,
             guildChannels := (removeUserFromEach lua s c.guildChannels).1 }
    hwf.1 hwf
  refine ⟨?_, ?_, ?_, ?_, ?_⟩
  · rw [i1]
    exact removeUserFromEach_not_member lua s _
  · rw [i3]
    exact removeUserFromEach_not_member lua s _
  · rw [i2]
    exact removeUserFromEach_not_member lua s _
  · intro it hit
    have hfind := mapFind_of_mem _ i4.1 it hit
    by_cases hkey : it.1 ∈ mapKeys c.privateChannels
    · rw [i6 it.1 hkey] at hfind
      obtain ⟨ch, _, hch⟩ := Option.bind_eq_some.1 hfind
      unfold PrivateChatChannel.afterLeave at hch
      by_cases ho : ch.getOwner = s.guid
      · rw [if_pos ho] at hch
        cases hch
      · rw [if_neg ho] at hch
        have he : it.2 = { ch with
            toChatChannel := (ch.toChatChannel.removeUser lua s).2.1 } :=
          (Option.some.inj hch).symm
        rw [he]
        exact ⟨removeUser_not_member lua _ s, ho⟩
    · rw [i5 it.1 hkey] at hfind
      have : (mapFind c.privateChannels it.1).isSome = true := by simp [hfind]
      exact absurd ((mapFind_isSome_iff _ _).1 this) hkey
  · intro key ch hch ho
    have hkey : key ∈ mapKeys c.privateChannels :=
      (mapFind_isSome_iff _ _).1 (by simp [hch])
    refine ⟨{ ch with toChatChannel := (ch.toChatChannel.removeUser lua s).2.1 }, ?_, rfl,
      rfl⟩
    rw [i6 key hkey]
    show (mapFind c.privateChannels key).bind (PrivateChatChannel.afterLeave lua s) = _
    rw [hch]
    simp [PrivateChatChannel.afterLeave, ho]

/-- The tracked `removeUserFromAllChannels` is undefined whenever the player owns an
invite-only channel of a well-formed pool. -/
theorem removeUserFromAllChannelsChecked_owner (k : Consts) (lua : LuaScriptInterface)
    (c : Chat) (s : Player) (hwf : PoolWellFormed k c.privateChannels)
    (h : ∃ it ∈ c.privateChannels, it.2.getOwner = s.guid) :
    c.removeUserFromAllChannelsChecked k lua s = none := by
  obtain ⟨it, hit, hown⟩ := h
  unfold Chat.removeUserFromAllChannelsChecked
  dsimp only
  have hloop := removeUserFromPrivateChecked_owner k lua s (mapKeys c.privateChannels)
    { c with normalChannels := (removeUserFromEach lua s c.normalChannels).1,
             partyChannels := (removeUserFromEach lua s c.partyChannels).1,
             guildChannels := (removeUserFromEach lua s c.guildChannels).1 }
    hwf
    ⟨it.1, List.mem_map.2 ⟨it, hit, rfl⟩, it.2, mapFind_of_mem _ hwf.1 it hit, hown⟩
  rw [hloop]
  rfl

/-- The tracked `removeUserFromAllChannels` is defined, and is the one of the model,
whenever the player owns no invite-only channel. -/
theorem removeUserFromAllChannelsChecked_no_owner (k : Consts) (lua : LuaScriptInterface)
    (c : Chat) (s : Player) (h : ∀ it ∈ c.privateChannels, it.2.getOwner ≠ s.guid) :
    c.removeUserFromAllChannelsChecked k lua s =
      some (c.removeUserFromAllChannels k lua s) := by
  unfold Chat.removeUserFromAllChannelsChecked Chat.removeUserFromAllChannels
  dsimp only
  have hloop := removeUserFromPrivateChecked_no_owner k lua s (mapKeys c.privateChannels)
    { c with normalChannels := (removeUserFromEach lua s c.normalChannels).1,
             partyChannels := (removeUserFromEach lua s c.partyChannels).1,
             guildChannels := (removeUserFromEach lua s c.guildChannels).1 }
    h
  rw [hloop]
  rfl

/-! ## The refusals and the invitation on concrete channels -/

/-- C11 (amended) instantiated: session 1 is a member of its channel already; the
`canJoin` hook of the static channel 6 rejects session 42; and when session 42 joins the
static channel 5, channel 6 is as it was. -/
theorem C11_addUser_refusals_witness :
    sampleChannel.toChatChannel.addUser sampleConsts luaAllow (premiumPlayer 1) =
        (false, sampleChannel.toChatChannel, []) ∧
      staticChat.addUserToChannel sampleConsts luaReject42 (freePlayer 42) 6 =
        (none, staticChat, []) ∧
      mapFind (staticChat.addUserToChannel sampleConsts luaReject42 (freePlayer 42)
        5).2.1.normalChannels 6 = some staffChannel :=
  ⟨(C11_addUser_refusals sampleConsts luaAllow sampleChannel.toChatChannel
      (premiumPlayer 1)).1 (by decide),
    (C11_addUser_refusals sampleConsts luaReject42 staffChannel (freePlayer 42)).2.2.1
      staticChat 6 (by decide) (by decide) (by decide) (by decide),
    (C11_addUser_refusals sampleConsts luaReject42 staffChannel (freePlayer 42)).2.2.2
      staticChat 5 6 (by decide) (by decide)⟩

/-- C12 instantiated: session 2 leaves the channel of session 1 under an interpreter
whose hooks reject everybody but 42. -/
theorem C12_removeUser_iff_member_witness :
    (sampleChannel.toChatChannel.removeUser luaReject42 (freePlayer 2)).1 = true ∧
      mapFind (sampleChannel.toChatChannel.removeUser luaReject42 (freePlayer 2)).2.1.users
        (freePlayer 2).id = none ∧
      mapFind (sampleChannel.toChatChannel.removeUser luaReject42 (freePlayer 2)).2.1.users 1 =
        mapFind sampleChannel.users 1 :=
  have h := C12_removeUser_iff_member luaReject42 sampleChannel.toChatChannel (freePlayer 2)
  ⟨h.1.2 (by decide), (h.2.1 (h.1.2 (by decide))).1,
    (h.2.1 (h.1.2 (by decide))).2 1 (by decide)⟩

/-- C13 instantiated: session 1 invites session 3 to its channel, and then session 2,
who is invited already. -/
theorem C13_invitePlayer_once_witness :
    (sampleChannel.invitePlayer sampleConsts (premiumPlayer 1) (premiumPlayer 3)).1.isInvited
        (premiumPlayer 3) = true ∧
      sampleChannel.invitePlayer sampleConsts (premiumPlayer 1) (freePlayer 2) =
        (sampleChannel, []) :=
  have h3 := C13_invitePlayer_once sampleConsts sampleChannel (premiumPlayer 1)
    (premiumPlayer 3)
  have h2 := C13_invitePlayer_once sampleConsts sampleChannel (premiumPlayer 1) (freePlayer 2)
  ⟨(h3.1 (by decide)).2.1, (h2.2 (by decide)).2⟩

end Relembra
